import Mathlib

/-!
# InfiniTAM: ground-truth tracker and main engine

A shallow embedding of

* `ITMLib/Engine/ITMGroundTruthTracker.h` (the pose-file reader, the tracker that replays it),
* `ITMLib/Engine/ITMMainEngine.cpp` (constructor, `ProcessFrame`, `GetImage`, integration toggle),

followed by the properties established about them.

Conventions of the embedding.

* A C++ routine that can leave the defined behaviour of the language returns an `Exec`:
  it returns normally, throws, runs into undefined behaviour, or is cut off by the
  iteration budget (`fuel`) given to a `while` loop.
* The value of a finite `float` or `double` is a rational number; arithmetic rounds to the
  format (round to nearest, ties to even) as IEEE 754 prescribes.
* Classes whose headers are not part of the sources are modelled from the specification and
  say so in their documentation.
-/

namespace InfiniTAM

universe u

/-! ## Outcomes -/

/-- Outcome of running a C++ routine: normal return with a value, an exception carrying its
`what()` text, undefined behaviour, or an exhausted loop budget. -/
inductive Exec (α : Type u) where
  | returned (a : α) : Exec α
  | thrown (what : String) : Exec α
  | undefined : Exec α
  | outOfFuel : Exec α
deriving DecidableEq

/-- Sequencing: the continuation runs only after a normal return. -/
def Exec.bind {α β : Type u} (x : Exec α) (f : α → Exec β) : Exec β :=
  match x with
  | .returned a => f a
  | .thrown w => .thrown w
  | .undefined => .undefined
  | .outOfFuel => .outOfFuel

/-! ## Floating point -/

/-- The rational `2 ^ e` for an integer exponent. -/
def pow2 (e : Int) : ℚ :=
  if 0 ≤ e then ((2 ^ e.toNat : Nat) : ℚ) else 1 / ((2 ^ (-e).toNat : Nat) : ℚ)

/-- Position of the highest set bit, by repeated halving (`fuel` bounds the halvings). -/
def ilog2Aux : Nat → Nat → Nat
  | 0, _ => 0
  | fuel + 1, n => if n < 2 then 0 else ilog2Aux fuel (n / 2) + 1

/-- Position of the highest set bit of `n` (0 for `n ≤ 1`). -/
def ilog2 (n : Nat) : Nat := ilog2Aux n n

/-- The binary exponent of a non-zero rational: the `e` with `2 ^ e ≤ |q| < 2 ^ (e + 1)`. -/
def floorLog2 (q : ℚ) : Int :=
  let a : ℚ := if q < 0 then -q else q
  let e0 : Int := (ilog2 q.num.natAbs : Int) - (ilog2 q.den : Int)
  if pow2 e0 ≤ a then e0 else e0 - 1

/-- Nearest integer, ties to the even one. -/
def roundHalfEven (q : ℚ) : Int :=
  let f := Rat.floor q
  let r := q - (f : ℚ)
  if r < 1 / 2 then f else if 1 / 2 < r then f + 1 else if f % 2 = 0 then f else f + 1

/-- Rounding to a binary format with `p` significand bits and least normal exponent `emin`
(below it the spacing stays that of the subnormal numbers). Overflow is left out: no routine
below produces a value beyond the largest finite number of its format from values within it. -/
def roundToFormat (p : Nat) (emin : Int) (q : ℚ) : ℚ :=
  if q = 0 then 0 else
    let e := max (floorLog2 q) emin
    let ulp := pow2 (e - ((p : Int) - 1))
    (roundHalfEven (q / ulp) : ℚ) * ulp

/-- Conversion to `float` (binary32). -/
def toFloat (q : ℚ) : ℚ := roundToFormat 24 (-126) q

/-- Conversion to `double` (binary64). -/
def toDouble (q : ℚ) : ℚ := roundToFormat 53 (-1022) q

/-- The largest finite `float`. -/
def FLT_MAX : ℚ := (2 - pow2 (-23)) * pow2 127

/-- The `double` literal `0.10`. -/
def literal_0_10 : ℚ := toDouble (1 / 10)

/-- The statement `x *= 0.10;` on a `float x`: the operand is promoted to `double`, the
product is formed in `double`, and the result is converted back to `float`. -/
def mulAssign_0_10 (x : ℚ) : ℚ := toFloat (toDouble (x * literal_0_10))

/-! ## Matrices and poses -/

/-- Modelled from the spec: the 4x4 matrix of floats `Matrix4f`, whose header is not among the
sources. The reader stores the twelve numbers of a line, which the spec describes as "the
first three rows of a row-major 4x4 matrix (9 rotation entries + 3 translation entries)",
into `m00 m10 m20 m30`, `m01 m11 m21 m31`, `m02 m12 m22 m32`: in the field `mCR` the first
digit is the column and the second the row, and `m30 m31 m32` is the translation column. -/
structure Matrix4f where
  m00 : ℚ
  m01 : ℚ
  m02 : ℚ
  m03 : ℚ
  m10 : ℚ
  m11 : ℚ
  m12 : ℚ
  m13 : ℚ
  m20 : ℚ
  m21 : ℚ
  m22 : ℚ
  m23 : ℚ
  m30 : ℚ
  m31 : ℚ
  m32 : ℚ
  m33 : ℚ
deriving DecidableEq

/-- Row `r` of the matrix, left to right. -/
def Matrix4f.row (M : Matrix4f) (r : Fin 4) : List ℚ :=
  match r with
  | 0 => [M.m00, M.m10, M.m20, M.m30]
  | 1 => [M.m01, M.m11, M.m21, M.m31]
  | 2 => [M.m02, M.m12, M.m22, M.m32]
  | 3 => [M.m03, M.m13, M.m23, M.m33]

/-- The rotation block, row by row. -/
def Matrix4f.rotationRows (M : Matrix4f) : List (List ℚ) :=
  [[M.m00, M.m10, M.m20], [M.m01, M.m11, M.m21], [M.m02, M.m12, M.m22]]

/-- The translation column. -/
def Matrix4f.translation (M : Matrix4f) : List ℚ := [M.m30, M.m31, M.m32]

/-- Modelled from the spec: the Pose class `ITMPose`, whose header is not among the sources.
The spec gives a pose two conventions that "must never be conflated": `M` (world to camera)
and `InvM` (camera to world). The model keeps what the last setter installed together with
the convention it was installed under; the numerical conversion between the conventions is
not part of the model. -/
inductive ITMPose where
  | params (tx ty tz rx ry rz : ℚ) : ITMPose
  | modelview (M : Matrix4f) : ITMPose
  | inverse (invM : Matrix4f) : ITMPose
deriving DecidableEq

/-- The setter `SetFrom(tx, ty, tz, rx, ry, rz)`. -/
def ITMPose.SetFrom (_self : ITMPose) (tx ty tz rx ry rz : ℚ) : ITMPose :=
  .params tx ty tz rx ry rz

/-- The setter `SetM(M)`: installs a world-to-camera matrix. -/
def ITMPose.SetM (_self : ITMPose) (M : Matrix4f) : ITMPose := .modelview M

/-- The setter `SetInvM(invM)`: installs a camera-to-world matrix. -/
def ITMPose.SetInvM (_self : ITMPose) (invM : Matrix4f) : ITMPose := .inverse invM

/-! ## Images, calibration, view, tracking state -/

/-- Modelled from the spec: an image buffer with its host and device copies ("host/device
buffer pairs require explicit, directional synchronization"); the image classes are not
among the sources. -/
structure ITMImage where
  noDims : Int × Int
  host : List ℚ
  device : List ℚ
deriving DecidableEq

/-- Copy host to device. -/
def ITMImage.UpdateDeviceFromHost (img : ITMImage) : ITMImage := { img with device := img.host }

/-- Copy device to host. -/
def ITMImage.UpdateHostFromDevice (img : ITMImage) : ITMImage := { img with host := img.device }

/-- Zero the host data. -/
def ITMImage.Clear (img : ITMImage) : ITMImage :=
  { img with host := List.replicate img.host.length 0 }

/-- Resize to new dimensions (the data is reallocated, zero filled). -/
def ITMImage.ChangeDims (img : ITMImage) (d : Int × Int) : ITMImage :=
  if img.noDims = d then img
  else { noDims := d, host := List.replicate (d.1 * d.2).toNat 0,
         device := List.replicate (d.1 * d.2).toNat 0 }

/-- Copy the host data of another image. -/
def ITMImage.SetFrom (img : ITMImage) (src : ITMImage) : ITMImage := { img with host := src.host }

/-- Modelled from the spec: camera intrinsics (part of the calibration bundle). -/
structure ITMIntrinsics where
  fx : ℚ
  fy : ℚ
  px : ℚ
  py : ℚ
deriving DecidableEq

/-- Modelled from the spec: disparity calibration (part of the calibration bundle). -/
structure ITMDisparityCalib where
  a : ℚ
  b : ℚ
deriving DecidableEq

/-- Modelled from the spec: the colour/depth extrinsic with its inverse. -/
structure ITMExtrinsics where
  calib : Matrix4f
  calib_inv : Matrix4f
deriving DecidableEq

/-- Modelled from the spec: the calibration bundle "depth intrinsics, color intrinsics,
color/depth extrinsic, disparity calibration", under the member names the engine uses. -/
structure ITMRGBDCalib where
  intrinsics_rgb : ITMIntrinsics
  intrinsics_d : ITMIntrinsics
  trafo_rgb_to_depth : ITMExtrinsics
  disparityCalib : ITMDisparityCalib
deriving DecidableEq

/-- The three input image types the engine distinguishes. -/
inductive InputImageType where
  | InfiniTAM_FLOAT_DEPTH_IMAGE
  | InfiniTAM_SHORT_DEPTH_IMAGE
  | InfiniTAM_DISPARITY_IMAGE
deriving DecidableEq

/-- Modelled from the spec: the View, one frame of raw inputs with the calibration, under
the member names the engine uses. -/
structure ITMView where
  calib : ITMRGBDCalib
  rgb : ITMImage
  depth : ITMImage
  rawDepth : ITMImage
  inputImageType : InputImageType
deriving DecidableEq

/-- Modelled from the spec: the TrackingState, "current pose plus the most recent
raycast/rendering buffer", with the point cloud the raycast leaves for the tracker. -/
structure ITMTrackingState where
  pose_d : ITMPose
  rendering : ITMImage
  pointCloud : List ℚ
deriving DecidableEq

/-! ## The pose file as `std::ifstream` sees it -/

/-- What follows the last convertible number of a file. -/
inductive FileTail where
  /-- The file ends right after the last character of the number. -/
  | endOfFile : FileTail
  /-- Only white space is left (for instance the newline closing the last line). -/
  | whiteSpace : FileTail
  /-- A field that does not convert: `stored` is what the failed extraction writes to its
  target (0 for text that is no number, the largest float for a number out of range),
  `ranToEnd` tells whether scanning it reached the end of the file. -/
  | unconvertible (stored : ℚ) (ranToEnd : Bool) : FileTail
deriving DecidableEq

/-- The content of a text file as a sequence of `operator>>(float&)` calls can observe it:
the numbers that convert, in order, and what comes after them. -/
structure FileContent where
  numbers : List ℚ
  tail : FileTail
deriving DecidableEq

/-- The white space of the C locale. -/
def isspace (c : Char) : Bool := c.toNat = 32 || (9 ≤ c.toNat && c.toNat ≤ 13)

/-- A decimal digit. -/
def isdigit (c : Char) : Bool := 48 ≤ c.toNat && c.toNat ≤ 57

/-- Reads a run of digits: the number read so far, how many digits, and the rest. -/
def scanDigits : List Char → Nat → Nat → Nat × Nat × List Char
  | [], acc, n => (acc, n, [])
  | c :: cs, acc, n =>
    if isdigit c then scanDigits cs (10 * acc + (c.toNat - 48)) (n + 1) else (acc, n, c :: cs)

/-- Reads an optional sign: whether it is a minus, and the rest. -/
def scanSign : List Char → Bool × List Char
  | [] => (false, [])
  | c :: cs => if c = '-' then (true, cs) else if c = '+' then (false, cs) else (false, c :: cs)

/-- Reads an optional exponent part `e[sign]digits`: whether an exponent letter was read,
the exponent, the number of its digits, and the rest. -/
def scanExponent : List Char → Bool × Int × Nat × List Char
  | [] => (false, 0, 0, [])
  | c :: cs =>
    if c = 'e' || c = 'E' then
      let s := scanSign cs
      let d := scanDigits s.2 0 0
      (true, if s.1 then -(d.1 : Int) else (d.1 : Int), d.2.1, d.2.2)
    else (false, 0, 0, c :: cs)

/-- The rational `10 ^ e` for an integer exponent. -/
def pow10 (e : Int) : ℚ :=
  if 0 ≤ e then ((10 ^ e.toNat : Nat) : ℚ) else 1 / ((10 ^ (-e).toNat : Nat) : ℚ)

/-- One field at the head of the text (which does not start with white space): the
characters a float extraction accumulates, `[sign] digits [. digits] [e [sign] digits]` (the
exponent letter is only taken after a digit), and their conversion. The result is the
converted number (`some`) or the value stored by a failed conversion (`none` with that
value: 0 for text that is no number, the largest float with the sign of the number for a
number out of range), and the text left unread. -/
def scanField (cs : List Char) : (Option ℚ × ℚ) × List Char :=
  let s := scanSign cs
  let ip := scanDigits s.2 0 0
  let fp : Nat × Nat × List Char :=
    match ip.2.2 with
    | [] => (0, 0, [])
    | c :: r => if c = '.' then scanDigits r 0 0 else (0, 0, c :: r)
  let ex : Bool × Int × Nat × List Char :=
    if ip.2.1 + fp.2.1 = 0 then (false, 0, 0, fp.2.2) else scanExponent fp.2.2
  let rest := ex.2.2.2
  if ip.2.1 + fp.2.1 = 0 || (ex.1 && ex.2.2.1 = 0) then ((none, 0), rest)
  else
    let mag : ℚ := ((ip.1 : ℚ) + (fp.1 : ℚ) / ((10 ^ fp.2.1 : Nat) : ℚ)) * pow10 ex.2.1
    let v : ℚ := toFloat (if s.1 then -mag else mag)
    if FLT_MAX < v then ((none, FLT_MAX), rest)
    else if v < -FLT_MAX then ((none, -FLT_MAX), rest)
    else ((some v, v), rest)

/-- Splits a text into the numbers a sequence of float extractions reads and what follows
them (`fuel` bounds the number of fields, the length of the text is enough). -/
def lexFile : Nat → List Char → FileContent
  | 0, _ => { numbers := [], tail := .endOfFile }
  | fuel + 1, cs =>
    match cs.dropWhile isspace with
    | [] => { numbers := [], tail := if cs.isEmpty then .endOfFile else .whiteSpace }
    | c :: r =>
      let f := scanField (c :: r)
      match f.1.1 with
      | none => { numbers := [], tail := .unconvertible f.1.2 f.2.isEmpty }
      | some v =>
        let more := lexFile fuel f.2
        { numbers := v :: more.numbers, tail := more.tail }

/-- The input file stream: the unread content and the two state bits the reader relies on. -/
structure ifstream where
  content : FileContent
  eofbit : Bool
  failbit : Bool
deriving DecidableEq

/-- A stream just opened on a text. -/
def ifstream.ofText (text : String) : ifstream :=
  { content := lexFile (text.length + 1) text.toList, eofbit := false, failbit := false }

/-- The test `good()`. -/
def ifstream.good (s : ifstream) : Bool := !s.eofbit && !s.failbit

/-- The test `eof()`. -/
def ifstream.eof (s : ifstream) : Bool := s.eofbit

/-- The extraction `fin >> x` into a `float x`, returning the stream and the new value of `x`.
On a stream that is not good the extraction only sets `failbit`. Otherwise white space is
skipped; reaching the end of the file there sets `eofbit` and `failbit` and leaves `x`. A
number is converted and stored, and `eofbit` is set when scanning it reached the end of the
file. A field that does not convert sets `failbit` and stores the fallback value. -/
def ifstream.extract (s : ifstream) (x : ℚ) : ifstream × ℚ :=
  if !s.good then ({ s with failbit := true }, x)
  else
    match s.content.numbers with
    | v :: rest =>
      ({ s with content := { s.content with numbers := rest },
                eofbit := rest.isEmpty && s.content.tail = .endOfFile }, v)
    | [] =>
      match s.content.tail with
      | .endOfFile => ({ s with eofbit := true, failbit := true }, x)
      | .whiteSpace => ({ s with eofbit := true, failbit := true }, x)
      | .unconvertible stored ranToEnd => ({ s with eofbit := ranToEnd, failbit := true }, stored)

/-! ## ITMGroundTruthTracker -/

/-- The body of the reading loop: twelve extractions, in the order of the source, into a
`Matrix4f pose` whose initial content is `pose` (an extraction that fails hands back the
value its target had), then the fixed bottom row. -/
def readPose (fin : ifstream) (pose : Matrix4f) : ifstream × Matrix4f :=
  let r00 := fin.extract pose.m00
  let r10 := r00.1.extract pose.m10
  let r20 := r10.1.extract pose.m20
  let r30 := r20.1.extract pose.m30
  let r01 := r30.1.extract pose.m01
  let r11 := r01.1.extract pose.m11
  let r21 := r11.1.extract pose.m21
  let r31 := r21.1.extract pose.m31
  let r02 := r31.1.extract pose.m02
  let r12 := r02.1.extract pose.m12
  let r22 := r12.1.extract pose.m22
  let r32 := r22.1.extract pose.m32
  (r32.1,
    { m00 := r00.2, m10 := r10.2, m20 := r20.2, m30 := r30.2,
      m01 := r01.2, m11 := r11.2, m21 := r21.2, m31 := r31.2,
      m02 := r02.2, m12 := r12.2, m22 := r22.2, m32 := r32.2,
      m03 := 0, m13 := 0, m23 := 0, m33 := 1 })

/-- The loop `while (! fin.eof()) ...` of `readKittiOdometryPoses`. The local `Matrix4f pose`
is declared without an initialiser: `uninit n` is the content it happens to have in the
iteration that runs with `n` poses already stored. -/
def readLoop (uninit : Nat → Matrix4f) : Nat → ifstream → List Matrix4f → Exec (List Matrix4f)
  | 0, _, _ => .outOfFuel
  | fuel + 1, fin, poses =>
    if fin.eof then .returned poses
    else
      let r := readPose fin (uninit poses.length)
      readLoop uninit fuel r.1 (poses ++ [r.2])

/-- The files that can be opened, by path, with their text. -/
abbrev FileSystem := String → Option String

/-- The member `readKittiOdometryPoses(fpath)` (the progress message written to `cout` is
left out). -/
def readKittiOdometryPoses (fs : FileSystem) (uninit : Nat → Matrix4f) (fuel : Nat)
    (fpath : String) : Exec (List Matrix4f) :=
  match fs fpath with
  | none => .thrown "Could not open odometry file."
  | some text => readLoop uninit fuel (ifstream.ofText text) []

/-- The tracker that replays a recorded trajectory. The cursor `int currentFrame` is kept as
an unbounded integer: it starts at 0, grows by one per `TrackCamera` call, and leaves the
trajectory (where the behaviour is undefined anyway) long before it could leave the range of
`int` on any trajectory read from a pose file. -/
structure ITMGroundTruthTracker where
  currentFrame : Int
  groundTruthPoses : List Matrix4f
deriving DecidableEq

/-- The constructor `ITMGroundTruthTracker(groundTruthFpath)`. -/
def ITMGroundTruthTracker.create (fs : FileSystem) (uninit : Nat → Matrix4f) (fuel : Nat)
    (groundTruthFpath : String) : Exec ITMGroundTruthTracker :=
  (readKittiOdometryPoses fs uninit fuel groundTruthFpath).bind
    fun poses => .returned { currentFrame := 0, groundTruthPoses := poses }

/-- The unchecked `operator[]` of `std::vector` with an `int` index: `none` stands for an
access outside the vector. -/
def vectorAt (v : List Matrix4f) (i : Int) : Option Matrix4f :=
  if 0 ≤ i then v[i.toNat]? else none

/-- The member `TrackCamera(trackingState, view)`. -/
def ITMGroundTruthTracker.TrackCamera (self : ITMGroundTruthTracker)
    (trackingState : ITMTrackingState) (_view : ITMView) :
    Exec (ITMGroundTruthTracker × ITMTrackingState) :=
  let self := { self with currentFrame := self.currentFrame + 1 }
  match vectorAt self.groundTruthPoses self.currentFrame with
  | none => .undefined
  | some M =>
    let M := { M with m30 := mulAssign_0_10 M.m30 }
    let M := { M with m31 := mulAssign_0_10 M.m31 }
    let M := { M with m32 := mulAssign_0_10 M.m32 }
    .returned (self, { trackingState with pose_d := trackingState.pose_d.SetInvM M })

/-- The member `UpdateInitialPose(trackingState)`: does nothing. -/
def ITMGroundTruthTracker.UpdateInitialPose (self : ITMGroundTruthTracker)
    (trackingState : ITMTrackingState) : ITMGroundTruthTracker × ITMTrackingState :=
  (self, trackingState)

/-- The tracker after a series of `TrackCamera` calls, each with the tracking state and view
it was handed. -/
def ITMGroundTruthTracker.afterCalls (self : ITMGroundTruthTracker) :
    List (ITMTrackingState × ITMView) → Exec ITMGroundTruthTracker
  | [] => .returned self
  | c :: rest =>
    match self.TrackCamera c.1 c.2 with
    | .returned r => ITMGroundTruthTracker.afterCalls r.1 rest
    | .thrown w => .thrown w
    | .undefined => .undefined
    | .outOfFuel => .outOfFuel

/-! ## ITMMainEngine -/

/-- Modelled from the spec: the volumetric model owned by the Dense Mapper (its classes are
not among the sources); the content is left uninterpreted. -/
structure ITMScene where
  voxels : List ℚ
deriving DecidableEq

/-- Modelled from the spec: the tracker type selector of the settings, whose header is not
among the sources. The engine names `TRACKER_ICP`, `TRACKER_REN` and `TRACKER_COLOR`; the
spec gives the selector as "{ICP, ColorICP, GroundTruth, ...}", so a further value stands
for the ground-truth playback. -/
inductive TrackerType where
  | TRACKER_COLOR
  | TRACKER_ICP
  | TRACKER_REN
  | TRACKER_GROUND_TRUTH
deriving DecidableEq

/-- Modelled from the spec: the settings the engine reads, "execution mode (GPU or CPU),
tracker type selector, point-cloud subsampling stride". -/
structure ITMLibSettings where
  useGPU : Bool
  trackerType : TrackerType
  skipPoints : Nat
deriving DecidableEq

/-- The two variants of the Low-Level Engine the constructor chooses between (the build is
taken to include the CUDA variant, as `useGPU` presupposes). -/
inductive ITMLowLevelEngine where
  | CPU
  | CUDA
deriving DecidableEq

/-- The abstract class `ITMTracker`: an object with a state of its own and the virtual member
`TrackCamera(trackingState, view)`, which may change that state and the tracking state. The
scene is an input as well, because the factory hands the secondary tracker a pointer to it. -/
structure ITMTracker where
  State : Type
  self : State
  TrackCamera : State → ITMScene → ITMTrackingState → ITMView → Exec (State × ITMTrackingState)

/-- The ground-truth tracker seen through the abstract class. -/
def ITMGroundTruthTracker.toTracker (g : ITMGroundTruthTracker) : ITMTracker :=
  { State := ITMGroundTruthTracker, self := g,
    TrackCamera := fun s _ trackingState view => s.TrackCamera trackingState view }

/-- The two places of the engine that hold a tracker. -/
inductive TrackerSlot where
  | primary
  | secondary
deriving DecidableEq

/-- A call the engine makes on one of its collaborators, with the arguments it passes. -/
inductive Call where
  | ConvertDisparityToDepth (rawDepth : ITMImage) (intrinsics_d : ITMIntrinsics)
      (disparityCalib : ITMDisparityCalib) : Call
  | ConvertDepthMMToFloat (rawDepth : ITMImage) : Call
  | TrackCamera (slot : TrackerSlot) (trackingState : ITMTrackingState) (view : ITMView) : Call
  | DenseMapperProcessFrame (view : ITMView) (pose_d : ITMPose) : Call
  | GetICPMaps (pose : ITMPose) (intrinsics : ITMIntrinsics) (view : ITMView)
      (trackingState : ITMTrackingState) : Call
  | GetPointCloud (pose : ITMPose) (intrinsics : ITMIntrinsics) (view : ITMView)
      (trackingState : ITMTrackingState) (skipPoints : Nat) : Call
  | GetRendering (pose : ITMPose) (intrinsics : ITMIntrinsics) (useColour : Bool) : Call
  | DepthToUchar4 (depth : ITMImage) : Call
deriving DecidableEq

/-- The tracker slot of a `TrackCamera` call. -/
def Call.trackedSlot : Call → Option TrackerSlot
  | .TrackCamera slot _ _ => some slot
  | _ => none

/-- Whether the call is the Dense Mapper's integration operation. -/
def Call.isIntegration : Call → Bool
  | .DenseMapperProcessFrame _ _ => true
  | _ => false

/-- Whether the call is a raycast request to the Dense Mapper. -/
def Call.isRaycast : Call → Bool
  | .GetICPMaps _ _ _ _ => true
  | .GetPointCloud _ _ _ _ _ => true
  | _ => false

/-- The behaviour of the collaborators whose code is not among the sources (Low-Level Engine,
Dense Mapper, visualisation, matrix and pose arithmetic, the tracker factory): arbitrary
functions of the arguments they receive and of the state they own. -/
structure Collaborators where
  ConvertDisparityToDepth :
    ITMLowLevelEngine → ITMImage → ITMImage → ITMIntrinsics → ITMDisparityCalib → ITMImage
  ConvertDepthMMToFloat : ITMLowLevelEngine → ITMImage → ITMImage → ITMImage
  DenseMapperProcessFrame : ITMScene → ITMView → ITMPose → ITMScene
  GetICPMaps :
    ITMScene → ITMPose → ITMIntrinsics → ITMView → ITMTrackingState → ITMTrackingState
  GetPointCloud :
    ITMScene → ITMPose → ITMIntrinsics → ITMView → ITMTrackingState → Nat → ITMTrackingState
  GetRendering : ITMScene → ITMPose → ITMIntrinsics → Bool → ITMImage → ITMImage
  DepthToUchar4 : ITMImage → ITMImage → ITMImage
  matrixMul : Matrix4f → Matrix4f → Matrix4f
  GetM : ITMPose → Matrix4f
  MakeTrackingState : ITMLibSettings → Int × Int → Int × Int → ITMTrackingState
  MakeView : ITMRGBDCalib → Int × Int → Int × Int → Bool → ITMView
  MakeDenseMapper : ITMLibSettings → Int × Int → Int × Int → ITMScene
  MakePrimaryTracker :
    ITMLibSettings → Int × Int → Int × Int → ITMLowLevelEngine → Option ITMTracker
  MakeSecondaryTracker :
    ITMLibSettings → Int × Int → Int × Int → ITMLowLevelEngine → ITMScene → Option ITMTracker

/-- A run of engine code: the calls made on collaborators, in order, and the outcome. The
calls made before an undefined step are kept. -/
structure Traced (α : Type u) where
  log : List Call
  result : Exec α

/-- A step that makes no call. -/
def Traced.pure {α : Type u} (a : α) : Traced α := { log := [], result := .returned a }

/-- Sequencing: the second part runs after a normal return of the first. -/
def Traced.bind {α β : Type u} (x : Traced α) (f : α → Traced β) : Traced β :=
  match x.result with
  | .returned a => { log := x.log ++ (f a).log, result := (f a).result }
  | .thrown w => { log := x.log, result := .thrown w }
  | .undefined => { log := x.log, result := .undefined }
  | .outOfFuel => { log := x.log, result := .outOfFuel }

/-- The engine object. A null tracker pointer is `none`. -/
structure ITMMainEngine where
  settings : ITMLibSettings
  trackingState : ITMTrackingState
  view : ITMView
  denseMapper : ITMScene
  lowLevelEngine : ITMLowLevelEngine
  trackerPrimary : Option ITMTracker
  trackerSecondary : Option ITMTracker
  hasStartedObjectReconstruction : Bool
  fusionActive : Bool

/-- The constructor `ITMMainEngine(settings, calib, imgSize_rgb, imgSize_d)`. -/
def ITMMainEngine.create (K : Collaborators) (settings : ITMLibSettings) (calib : ITMRGBDCalib)
    (imgSize_rgb imgSize_d : Int × Int) : ITMMainEngine :=
  let imgSize_d := if imgSize_d.1 = -1 ∨ imgSize_d.2 = -1 then imgSize_rgb else imgSize_d
  let trackingState := K.MakeTrackingState settings imgSize_rgb imgSize_d
  let trackingState :=
    { trackingState with pose_d := trackingState.pose_d.SetFrom 0 0 0 0 0 0 }
  let view := K.MakeView calib imgSize_rgb imgSize_d settings.useGPU
  let denseMapper := K.MakeDenseMapper settings imgSize_rgb imgSize_d
  let lowLevelEngine := if settings.useGPU then ITMLowLevelEngine.CUDA else ITMLowLevelEngine.CPU
  { settings := settings
    trackingState := trackingState
    view := view
    denseMapper := denseMapper
    lowLevelEngine := lowLevelEngine
    trackerPrimary := K.MakePrimaryTracker settings imgSize_rgb imgSize_d lowLevelEngine
    trackerSecondary :=
      K.MakeSecondaryTracker settings imgSize_rgb imgSize_d lowLevelEngine denseMapper
    hasStartedObjectReconstruction := false
    fusionActive := true }

/-- First block of `ProcessFrame`: with `useGPU`, copy the colour image and the active depth
representation from host to device. -/
def ITMMainEngine.prepareImage (e : ITMMainEngine) : ITMMainEngine :=
  if e.settings.useGPU then
    let view := { e.view with rgb := e.view.rgb.UpdateDeviceFromHost }
    match view.inputImageType with
    | .InfiniTAM_FLOAT_DEPTH_IMAGE =>
      { e with view := { view with depth := view.depth.UpdateDeviceFromHost } }
    | .InfiniTAM_SHORT_DEPTH_IMAGE =>
      { e with view := { view with rawDepth := view.rawDepth.UpdateDeviceFromHost } }
    | .InfiniTAM_DISPARITY_IMAGE =>
      { e with view := { view with rawDepth := view.rawDepth.UpdateDeviceFromHost } }
  else e

/-- Second block of `ProcessFrame`: turn the raw input into a depth image. -/
def ITMMainEngine.convertDepth (K : Collaborators) (e : ITMMainEngine) : Traced ITMMainEngine :=
  if e.view.inputImageType = .InfiniTAM_DISPARITY_IMAGE then
    let depth := K.ConvertDisparityToDepth e.lowLevelEngine e.view.depth e.view.rawDepth
      e.view.calib.intrinsics_d e.view.calib.disparityCalib
    { log := [.ConvertDisparityToDepth e.view.rawDepth e.view.calib.intrinsics_d
                e.view.calib.disparityCalib]
      result := .returned { e with view := { e.view with depth := depth } } }
  else if e.view.inputImageType = .InfiniTAM_SHORT_DEPTH_IMAGE then
    let depth := K.ConvertDepthMMToFloat e.lowLevelEngine e.view.depth e.view.rawDepth
    { log := [.ConvertDepthMMToFloat e.view.rawDepth]
      result := .returned { e with view := { e.view with depth := depth } } }
  else Traced.pure e

/-- The statement `if (tracker != NULL) tracker->TrackCamera(trackingState, view);` for the
tracker held in `slot`: the tracker after the call and the tracking state it leaves. -/
def ITMMainEngine.trackWith (slot : TrackerSlot) (tracker : Option ITMTracker)
    (scene : ITMScene) (trackingState : ITMTrackingState) (view : ITMView) :
    Traced (Option ITMTracker × ITMTrackingState) :=
  match tracker with
  | none => Traced.pure (none, trackingState)
  | some t =>
    { log := [.TrackCamera slot trackingState view]
      result :=
        match t.TrackCamera t.self scene trackingState view with
        | .returned r => .returned (some { t with self := r.1 }, r.2)
        | .thrown w => .thrown w
        | .undefined => .undefined
        | .outOfFuel => .outOfFuel }

/-- Third block of `ProcessFrame`: tracking, once reconstruction has started. -/
def ITMMainEngine.tracking (e : ITMMainEngine) : Traced ITMMainEngine :=
  if e.hasStartedObjectReconstruction then
    (ITMMainEngine.trackWith .primary e.trackerPrimary e.denseMapper e.trackingState e.view).bind
      fun p =>
        (ITMMainEngine.trackWith .secondary e.trackerSecondary e.denseMapper p.2 e.view).bind
          fun q =>
            Traced.pure { e with trackerPrimary := p.1, trackerSecondary := q.1,
                                 trackingState := q.2 }
  else Traced.pure e

/-- The statement `if (fusionActive) denseMapper->ProcessFrame(view, trackingState->pose_d);`. -/
def ITMMainEngine.fusion (K : Collaborators) (e : ITMMainEngine) : Traced ITMMainEngine :=
  if e.fusionActive then
    let scene := K.DenseMapperProcessFrame e.denseMapper e.view e.trackingState.pose_d
    { log := [.DenseMapperProcessFrame e.view e.trackingState.pose_d]
      result := .returned { e with denseMapper := scene } }
  else Traced.pure e

/-- The `switch (settings->trackerType)` of `ProcessFrame`: the raycast. The switch has the
three cases below and no default. -/
def ITMMainEngine.raycasting (K : Collaborators) (e : ITMMainEngine) : Traced ITMMainEngine :=
  match e.settings.trackerType with
  | .TRACKER_ICP =>
    let trackingState := K.GetICPMaps e.denseMapper e.trackingState.pose_d
      e.view.calib.intrinsics_d e.view e.trackingState
    { log := [.GetICPMaps e.trackingState.pose_d e.view.calib.intrinsics_d e.view e.trackingState]
      result := .returned { e with trackingState := trackingState } }
  | .TRACKER_REN =>
    let trackingState := K.GetICPMaps e.denseMapper e.trackingState.pose_d
      e.view.calib.intrinsics_d e.view e.trackingState
    { log := [.GetICPMaps e.trackingState.pose_d e.view.calib.intrinsics_d e.view e.trackingState]
      result := .returned { e with trackingState := trackingState } }
  | .TRACKER_COLOR =>
    let pose_rgb : ITMPose :=
      .modelview (K.matrixMul e.view.calib.trafo_rgb_to_depth.calib_inv
        (K.GetM e.trackingState.pose_d))
    let trackingState := K.GetPointCloud e.denseMapper pose_rgb e.view.calib.intrinsics_rgb
      e.view e.trackingState e.settings.skipPoints
    { log := [.GetPointCloud pose_rgb e.view.calib.intrinsics_rgb e.view e.trackingState
                e.settings.skipPoints]
      result := .returned { e with trackingState := trackingState } }
  | .TRACKER_GROUND_TRUTH => Traced.pure e

/-- The member `ProcessFrame()`. -/
def ITMMainEngine.ProcessFrame (K : Collaborators) (e : ITMMainEngine) : Traced ITMMainEngine :=
  (ITMMainEngine.convertDepth K e.prepareImage).bind fun e =>
    (ITMMainEngine.tracking e).bind fun e =>
      (ITMMainEngine.fusion K e).bind fun e =>
        (ITMMainEngine.raycasting K e).bind fun e =>
          Traced.pure { e with hasStartedObjectReconstruction := true }

/-- The member `turnOnIntegration()`. -/
def ITMMainEngine.turnOnIntegration (e : ITMMainEngine) : ITMMainEngine :=
  { e with fusionActive := true }

/-- The member `turnOffIntegration()`. -/
def ITMMainEngine.turnOffIntegration (e : ITMMainEngine) : ITMMainEngine :=
  { e with fusionActive := false }

/-- The modes of `GetImage`. -/
inductive GetImageType where
  | InfiniTAM_IMAGE_ORIGINAL_RGB
  | InfiniTAM_IMAGE_ORIGINAL_DEPTH
  | InfiniTAM_IMAGE_SCENERAYCAST
  | InfiniTAM_IMAGE_SCENERAYCAST_FREECAMERA
deriving DecidableEq

/-- The member `GetImage(out, getImageType, useColour, pose, intrinsics)`: the engine and the
output image after the call. -/
def ITMMainEngine.GetImage (K : Collaborators) (e : ITMMainEngine) (out : ITMImage)
    (getImageType : GetImageType) (useColour : Bool) (pose : ITMPose)
    (intrinsics : ITMIntrinsics) : Traced (ITMMainEngine × ITMImage) :=
  let out := out.Clear
  match getImageType with
  | .InfiniTAM_IMAGE_ORIGINAL_RGB =>
    let rgb := if e.settings.useGPU then e.view.rgb.UpdateHostFromDevice else e.view.rgb
    Traced.pure ({ e with view := { e.view with rgb := rgb } },
      (out.ChangeDims rgb.noDims).SetFrom rgb)
  | .InfiniTAM_IMAGE_ORIGINAL_DEPTH =>
    let depth := if e.settings.useGPU then e.view.depth.UpdateHostFromDevice else e.view.depth
    { log := [.DepthToUchar4 depth]
      result := .returned ({ e with view := { e.view with depth := depth } },
        K.DepthToUchar4 (out.ChangeDims depth.noDims) depth) }
  | .InfiniTAM_IMAGE_SCENERAYCAST =>
    let rendering :=
      if e.settings.useGPU then e.trackingState.rendering.UpdateHostFromDevice
      else e.trackingState.rendering
    Traced.pure ({ e with trackingState := { e.trackingState with rendering := rendering } },
      (out.ChangeDims rendering.noDims).SetFrom rendering)
  | .InfiniTAM_IMAGE_SCENERAYCAST_FREECAMERA =>
    { log := [.GetRendering pose intrinsics useColour]
      result := .returned (e, K.GetRendering e.denseMapper pose intrinsics useColour out) }

/-- What the application does to the View before a `ProcessFrame` call (it writes the next
frame into it); the identity when it leaves the View alone. -/
abbrev FrameInput := ITMView → ITMView

/-- A series of `ProcessFrame` calls, one per frame input: the calls made on collaborators
during each `ProcessFrame` that was started, and the engine after the last one. A call that
does not return ends the series. -/
def ITMMainEngine.ProcessFrames (K : Collaborators) :
    List FrameInput → ITMMainEngine → List (List Call) × Exec ITMMainEngine
  | [], e => ([], .returned e)
  | input :: rest, e =>
    let r := ITMMainEngine.ProcessFrame K { e with view := input e.view }
    match r.result with
    | .returned e1 =>
      let more := ITMMainEngine.ProcessFrames K rest e1
      (r.log :: more.1, more.2)
    | .thrown w => ([r.log], .thrown w)
    | .undefined => ([r.log], .undefined)
    | .outOfFuel => ([r.log], .outOfFuel)

/-- The tracker slots of the `TrackCamera` calls of a log, in order. -/
def trackedSlots (log : List Call) : List TrackerSlot := log.filterMap Call.trackedSlot

/-- The number of integration calls in a log. -/
def integrations (log : List Call) : Nat := log.countP Call.isIntegration

/-- The number of raycast requests in a log. -/
def raycasts (log : List Call) : Nat := log.countP Call.isRaycast

/-- The trackers the engine holds, in the order `ProcessFrame` calls them. -/
def ITMMainEngine.configuredSlots (e : ITMMainEngine) : List TrackerSlot :=
  (if e.trackerPrimary.isSome then [TrackerSlot.primary] else []) ++
    (if e.trackerSecondary.isSome then [TrackerSlot.secondary] else [])

/-! ## Pose records, as the specification describes the file -/

/-- One record of the pose file, twelve numbers named as they stand on the line:
`a b c tx d e f ty g h i tz`. -/
structure PoseRecord where
  a : ℚ
  b : ℚ
  c : ℚ
  tx : ℚ
  d : ℚ
  e : ℚ
  f : ℚ
  ty : ℚ
  g : ℚ
  h : ℚ
  i : ℚ
  tz : ℚ
deriving DecidableEq

/-- The numbers of a record in file order. -/
def PoseRecord.numbers (r : PoseRecord) : List ℚ :=
  [r.a, r.b, r.c, r.tx, r.d, r.e, r.f, r.ty, r.g, r.h, r.i, r.tz]

/-- The pose a record stands for in the words of the specification: the twelve values are
"the first three rows of a row-major 4x4 matrix", "the fourth row is fixed to [0,0,0,1]". -/
def PoseRecord.pose (r : PoseRecord) : Matrix4f :=
  { m00 := r.a, m10 := r.b, m20 := r.c, m30 := r.tx,
    m01 := r.d, m11 := r.e, m21 := r.f, m31 := r.ty,
    m02 := r.g, m12 := r.h, m22 := r.i, m32 := r.tz,
    m03 := 0, m13 := 0, m23 := 0, m33 := 1 }

/-- The content of a file made of the given records and nothing else but what `tail` says. -/
def recordsContent (records : List PoseRecord) (tail : FileTail) : FileContent :=
  { numbers := (records.map PoseRecord.numbers).flatten, tail := tail }

/-- A matrix with its bottom row overwritten by `0 0 0 1`: what the reading loop stores when
none of its twelve extractions wrote anything. -/
def Matrix4f.withBottomRow (M : Matrix4f) : Matrix4f :=
  { M with m03 := 0, m13 := 0, m23 := 0, m33 := 1 }

/-! ## Concrete inputs used to exercise the definitions -/

/-- A matrix standing for the unspecified content of an uninitialised `Matrix4f`. -/
def sampleGarbage : Matrix4f :=
  { m00 := 7, m01 := 7, m02 := 7, m03 := 7, m10 := 7, m11 := 7, m12 := 7, m13 := 7,
    m20 := 7, m21 := 7, m22 := 7, m23 := 7, m30 := 7, m31 := 7, m32 := 7, m33 := 7 }

/-- A file system holding pose files: a single record without and with a closing newline,
three records, the same record twice, and a file whose content is no number. -/
def sampleFiles : FileSystem := fun path =>
  if path = "one.txt" then some "1 0 0 10  0 1 0 20  0 0 1 30"
  else if path = "one_nl.txt" then some "1 0 0 10  0 1 0 20  0 0 1 30\n"
  else if path = "three.txt" then
    some "1 0 0 10 0 1 0 20 0 0 1 30\n0 -1 0 5 1 0 0 2.5 0 0 1 -40\n1 0 0 1 0 1 0 2 0 0 1 3"
  else if path = "twice.txt" then
    some "1 0 0 10  0 1 0 20  0 0 1 30\n1 0 0 10  0 1 0 20  0 0 1 30"
  else if path = "bad.txt" then some "x"
  else none

/-- The record of the line `1 0 0 10  0 1 0 20  0 0 1 30`. -/
def sampleRecord : PoseRecord :=
  { a := 1, b := 0, c := 0, tx := 10, d := 0, e := 1, f := 0, ty := 20,
    g := 0, h := 0, i := 1, tz := 30 }

/-- The records of `three.txt`. -/
def sampleRecords : List PoseRecord :=
  [sampleRecord,
   { a := 0, b := -1, c := 0, tx := 5, d := 1, e := 0, f := 0, ty := 5 / 2,
     g := 0, h := 0, i := 1, tz := -40 },
   { a := 1, b := 0, c := 0, tx := 1, d := 0, e := 1, f := 0, ty := 2,
     g := 0, h := 0, i := 1, tz := 3 }]

/-- The identity matrix with translation `(tx, ty, tz)`. -/
def translationPose (tx ty tz : ℚ) : Matrix4f :=
  { m00 := 1, m01 := 0, m02 := 0, m03 := 0, m10 := 0, m11 := 1, m12 := 0, m13 := 0,
    m20 := 0, m21 := 0, m22 := 1, m23 := 0, m30 := tx, m31 := ty, m32 := tz, m33 := 1 }

/-- The trajectory recorded in `three.txt`. -/
def sampleTrajectory : List Matrix4f :=
  [translationPose 10 20 30,
   { m00 := 0, m01 := 1, m02 := 0, m03 := 0, m10 := -1, m11 := 0, m12 := 0, m13 := 0,
     m20 := 0, m21 := 0, m22 := 1, m23 := 0, m30 := 5, m31 := 5 / 2, m32 := -40, m33 := 1 },
   translationPose 1 2 3]

/-- An empty image. -/
def sampleImage : ITMImage := { noDims := (0, 0), host := [], device := [] }

/-- A calibration with unit intrinsics and identity extrinsics. -/
def sampleCalib : ITMRGBDCalib :=
  { intrinsics_rgb := { fx := 1, fy := 1, px := 0, py := 0 },
    intrinsics_d := { fx := 1, fy := 1, px := 0, py := 0 },
    trafo_rgb_to_depth := { calib := translationPose 0 0 0, calib_inv := translationPose 0 0 0 },
    disparityCalib := { a := 1, b := 1 } }

/-- A view with empty images of float depth. -/
def sampleView : ITMView :=
  { calib := sampleCalib, rgb := sampleImage, depth := sampleImage, rawDepth := sampleImage,
    inputImageType := .InfiniTAM_FLOAT_DEPTH_IMAGE }

/-- A tracking state at the pose the engine constructor installs. -/
def sampleTrackingState : ITMTrackingState :=
  { pose_d := .params 0 0 0 0 0 0, rendering := sampleImage, pointCloud := [] }

/-- A tracker that counts its calls and leaves the count at the head of the point cloud. -/
def countingTracker : ITMTracker :=
  { State := Nat, self := 0,
    TrackCamera := fun n _ trackingState _ =>
      .returned (n + 1, { trackingState with pointCloud := (n : ℚ) :: trackingState.pointCloud }) }

/-- Collaborators for the concrete runs: conversions copy the raw image, integration adds a
voxel, raycasts leave the tracking state as it is; the factory builds the ground-truth
tracker on the sample trajectory for the ground-truth type and a counting tracker otherwise,
with a second counting tracker for `TRACKER_REN`. -/
def sampleCollaborators : Collaborators :=
  { ConvertDisparityToDepth := fun _ _ rawDepth _ _ => rawDepth
    ConvertDepthMMToFloat := fun _ _ rawDepth => rawDepth
    DenseMapperProcessFrame := fun scene _ _ => { voxels := 1 :: scene.voxels }
    GetICPMaps := fun _ _ _ _ trackingState => trackingState
    GetPointCloud := fun _ _ _ _ trackingState _ => trackingState
    GetRendering := fun _ _ _ _ out => out
    DepthToUchar4 := fun out _ => out
    matrixMul := fun a _ => a
    GetM := fun _ => translationPose 0 0 0
    MakeTrackingState := fun _ _ _ =>
      { pose_d := .modelview (translationPose 9 9 9), rendering := sampleImage, pointCloud := [] }
    MakeView := fun calib _ _ _ => { sampleView with calib := calib }
    MakeDenseMapper := fun _ _ _ => { voxels := [] }
    MakePrimaryTracker := fun settings _ _ _ =>
      match settings.trackerType with
      | .TRACKER_GROUND_TRUTH =>
        some (ITMGroundTruthTracker.toTracker
          { currentFrame := 0, groundTruthPoses := sampleTrajectory })
      | _ => some countingTracker
    MakeSecondaryTracker := fun settings _ _ _ _ =>
      match settings.trackerType with
      | .TRACKER_REN => some countingTracker
      | _ => none }

/-- The sample engine for a tracker type, on the CPU. -/
def sampleEngine (trackerType : TrackerType) : ITMMainEngine :=
  ITMMainEngine.create sampleCollaborators
    { useGPU := false, trackerType := trackerType, skipPoints := 2 } sampleCalib (640, 480)
    (-1, -1)

/-- The sample engine with both trackers configured, once reconstruction has started. -/
def sampleStartedEngine : ITMMainEngine :=
  { sampleEngine .TRACKER_REN with hasStartedObjectReconstruction := true }

/-- The `TrackCamera` calls of a log, with their arguments, in order. -/
def trackCalls (log : List Call) : List Call := log.filter fun c => c.trackedSlot.isSome

/-! ## Further definitions used by the statements -/

/-- A trajectory entry after the three statements `M.m30 *= 0.10; M.m31 *= 0.10;
M.m32 *= 0.10;` of `TrackCamera`, in the `float` arithmetic of the code. -/
def scaledEntry (M : Matrix4f) : Matrix4f :=
  { m00 := M.m00, m01 := M.m01, m02 := M.m02, m03 := M.m03,
    m10 := M.m10, m11 := M.m11, m12 := M.m12, m13 := M.m13,
    m20 := M.m20, m21 := M.m21, m22 := M.m22, m23 := M.m23,
    m30 := mulAssign_0_10 M.m30, m31 := mulAssign_0_10 M.m31, m32 := mulAssign_0_10 M.m32,
    m33 := M.m33 }

/-- The sample engine of the ground-truth type, once reconstruction has started. -/
def sampleStartedGroundTruthEngine : ITMMainEngine :=
  { sampleEngine .TRACKER_GROUND_TRUTH with hasStartedObjectReconstruction := true }

/-- Whether the call is a depth conversion of the Low-Level Engine. -/
def Call.isConversion : Call → Bool
  | .ConvertDisparityToDepth _ _ _ => true
  | .ConvertDepthMMToFloat _ => true
  | _ => false

/-- The depth conversion calls of a log, with their arguments, in order. -/
def conversionCalls (log : List Call) : List Call := log.filter Call.isConversion

/-- The integration calls of a log, with their arguments, in order. -/
def integrationCalls (log : List Call) : List Call := log.filter Call.isIntegration

/-- The raycast requests of a log, with their arguments, in order. -/
def raycastCalls (log : List Call) : List Call := log.filter Call.isRaycast

/-- The sample engine of the colour type with a disparity image in its View. -/
def sampleColourEngine : ITMMainEngine :=
  { sampleEngine .TRACKER_COLOR with
    view := { sampleView with inputImageType := .InfiniTAM_DISPARITY_IMAGE } }

/-- The second entry of the sample trajectory. -/
def sampleEntry1 : Matrix4f :=
  { m00 := 0, m01 := 1, m02 := 0, m03 := 0, m10 := -1, m11 := 0, m12 := 0, m13 := 0,
    m20 := 0, m21 := 0, m22 := 1, m23 := 0, m30 := 5, m31 := 5 / 2, m32 := -40, m33 := 1 }

/-- An operation of the application on the engine: a `ProcessFrame` call (after writing the
frame into the View) or one of the two integration toggles. -/
inductive EngineOp where
  | ProcessFrame (input : FrameInput) : EngineOp
  | turnOnIntegration : EngineOp
  | turnOffIntegration : EngineOp

/-- A session: the operations applied in order. The result lists the calls made on
collaborators during each `ProcessFrame` that was started, and the engine at the end; a
`ProcessFrame` that does not return ends the session. -/
def ITMMainEngine.session (K : Collaborators) :
    List EngineOp → ITMMainEngine → List (List Call) × Exec ITMMainEngine
  | [], e => ([], .returned e)
  | .ProcessFrame input :: rest, e =>
    let r := ITMMainEngine.ProcessFrame K { e with view := input e.view }
    match r.result with
    | .returned e1 =>
      let more := ITMMainEngine.session K rest e1
      (r.log :: more.1, more.2)
    | .thrown w => ([r.log], .thrown w)
    | .undefined => ([r.log], .undefined)
    | .outOfFuel => ([r.log], .outOfFuel)
  | .turnOnIntegration :: rest, e => ITMMainEngine.session K rest e.turnOnIntegration
  | .turnOffIntegration :: rest, e => ITMMainEngine.session K rest e.turnOffIntegration

/-- The number of integration calls the specification gives each `ProcessFrame` of a session:
one "if the integration flag is set", the flag being what the most recent toggle made it
(`enabled` is its value at the start of the session). -/
def expectedIntegrations : Bool → List EngineOp → List Nat
  | _, [] => []
  | enabled, .ProcessFrame _ :: rest =>
    (if enabled then 1 else 0) :: expectedIntegrations enabled rest
  | _, .turnOnIntegration :: rest => expectedIntegrations true rest
  | _, .turnOffIntegration :: rest => expectedIntegrations false rest

/-- The pose of frame `i` (0-based) of an engine that replays the trajectory `poses`, with
the scaling computed in the `float` arithmetic of `TrackCamera`: for frame 0 the pose that
`SetFrom` with all six parameters 0 installs, for a later frame the pose whose InvM is entry
`i` after `*= 0.10` on its translation; none past the end of the trajectory. -/
def alignedPose (poses : List Matrix4f) : Nat → Option ITMPose
  | 0 => some (ITMPose.params 0 0 0 0 0 0)
  | i + 1 => (poses[i + 1]?).map fun M => ITMPose.inverse (scaledEntry M)

/-- Collaborators whose factory builds the ground-truth tracker on the sample trajectory as
the only tracker, whatever the tracker type. -/
def sampleReplayCollaborators : Collaborators :=
  { sampleCollaborators with
    MakePrimaryTracker := fun _ _ _ _ =>
      some (ITMGroundTruthTracker.toTracker
        { currentFrame := 0, groundTruthPoses := sampleTrajectory })
    MakeSecondaryTracker := fun _ _ _ _ _ => none }

/-- The specification's "multiplied by 0.1" for a `float`: `r` is one tenth of `x`, exactly
where `x / 10` is a value of the format (rounding to `float` leaves it as it is), and up to
the rounding of `float` arithmetic in every case, that is within
`|x / 10| * 2 ^ -23 + 2 ^ -149` of `x / 10` (the relative spacing of `float` and its least
positive value). A non-zero `float` left as recorded is not one tenth of itself. -/
def isTenthOf (r x : ℚ) : Prop :=
  |r - x / 10| ≤ |x / 10| / 2 ^ 23 + 1 / 2 ^ 149 ∧ (toFloat (x / 10) = x / 10 → r = x / 10)

instance isTenthOf.decidable (r x : ℚ) : Decidable (isTenthOf r x) :=
  inferInstanceAs (Decidable (|r - x / 10| ≤ |x / 10| / 2 ^ 23 + 1 / 2 ^ 149 ∧
    (toFloat (x / 10) = x / 10 → r = x / 10)))

/-- The specification's installed entry: `M` is `entry` with "the translation column only"
scaled "by a fixed empirical factor of 0.1", "rotation is untouched", and the bottom row as
recorded. -/
def Matrix4f.isScaledEntryOf (M entry : Matrix4f) : Prop :=
  M.rotationRows = entry.rotationRows ∧ M.row 3 = entry.row 3 ∧
    isTenthOf M.m30 entry.m30 ∧ isTenthOf M.m31 entry.m31 ∧ isTenthOf M.m32 entry.m32

instance Matrix4f.isScaledEntryOf.decidable (M entry : Matrix4f) :
    Decidable (M.isScaledEntryOf entry) :=
  inferInstanceAs (Decidable (M.rotationRows = entry.rotationRows ∧ M.row 3 = entry.row 3 ∧
    isTenthOf M.m30 entry.m30 ∧ isTenthOf M.m31 entry.m31 ∧ isTenthOf M.m32 entry.m32))

/-- The pose the specification gives frame `i` (0-based) of an engine that replays the
trajectory `poses`, as a property of a pose: for frame 0 it is "the constructor's initial
pose (SetFrom with all six parameters 0)", for a later frame it is a pose installed as InvM
whose matrix is "Trajectory entry i with translation scaled by 0.1". -/
def isAlignedPose (poses : List Matrix4f) (i : Nat) (pose : ITMPose) : Prop :=
  match i, poses[i]?, pose with
  | 0, _, pose => pose = ITMPose.params 0 0 0 0 0 0
  | _ + 1, some entry, .inverse M => M.isScaledEntryOf entry
  | _ + 1, _, _ => False

instance isAlignedPose.decidable (poses : List Matrix4f) (i : Nat) (pose : ITMPose) :
    Decidable (isAlignedPose poses i pose) := by
  unfold isAlignedPose
  split <;> infer_instance

/-! ## Properties: floating point -/

/-- The halving count brackets its argument between two powers of two. -/
theorem ilog2Aux_bounds : ∀ (fuel n : Nat), 1 ≤ n → n ≤ fuel →
    2 ^ ilog2Aux fuel n ≤ n ∧ n < 2 ^ (ilog2Aux fuel n + 1) := by
  intro fuel
  induction fuel with
  | zero => intro n h1 h2; omega
  | succ fuel ih =>
    intro n h1 h2
    unfold ilog2Aux
    split
    · simp; omega
    · have h := ih (n / 2) (by omega) (by omega)
      obtain ⟨ha, hb⟩ := h
      rw [pow_succ] at hb ⊢
      constructor
      · omega
      · rw [pow_succ]; omega

/-- The exponent found for `n ≥ 1` satisfies `2 ^ ilog2 n ≤ n < 2 ^ (ilog2 n + 1)`. -/
theorem ilog2_bounds (n : Nat) (h : 1 ≤ n) : 2 ^ ilog2 n ≤ n ∧ n < 2 ^ (ilog2 n + 1) :=
  ilog2Aux_bounds n n h (le_refl n)

/-- The rational `pow2 e` is the power `2 ^ e`. -/
theorem pow2_eq_zpow (e : Int) : pow2 e = (2 : ℚ) ^ e := by
  unfold pow2
  split
  · rename_i h
    conv_rhs => rw [← Int.toNat_of_nonneg h]
    rw [zpow_natCast]
    push_cast
    rfl
  · rename_i h
    have h' : 0 ≤ -e := by omega
    have : e = -((-e).toNat : Int) := by rw [Int.toNat_of_nonneg h']; ring
    conv_rhs => rw [this]
    rw [zpow_neg, zpow_natCast]
    push_cast
    rw [one_div]

/-- The binary exponent of a non-zero rational does not exceed it: `2 ^ floorLog2 q ≤ |q|`. -/
theorem floorLog2_le (q : ℚ) (hq : q ≠ 0) : (2 : ℚ) ^ floorLog2 q ≤ |q| := by
  have ha : (if q < 0 then -q else q) = |q| := by
    split
    · rename_i h; rw [abs_of_neg h]
    · rename_i h; rw [abs_of_nonneg (not_lt.mp h)]
  unfold floorLog2
  simp only [ha, pow2_eq_zpow]
  split
  · assumption
  · have hn : 1 ≤ q.num.natAbs := by
      have : q.num ≠ 0 := Rat.num_ne_zero.mpr hq
      omega
    have hd : 1 ≤ q.den := q.den_pos
    obtain ⟨hn1, _⟩ := ilog2_bounds _ hn
    obtain ⟨_, hd2⟩ := ilog2_bounds _ hd
    have habs : |q| = (q.num.natAbs : ℚ) / (q.den : ℚ) := by
      conv_lhs => rw [← Rat.num_div_den q]
      rw [abs_div, Nat.abs_cast, Nat.cast_natAbs, Int.cast_abs]
    have hn1' : (2 : ℚ) ^ (ilog2 q.num.natAbs) ≤ (q.num.natAbs : ℚ) := by exact_mod_cast hn1
    have hd2' : (q.den : ℚ) ≤ (2 : ℚ) ^ (ilog2 q.den + 1) := by exact_mod_cast hd2.le
    have hdpos : (0 : ℚ) < (q.den : ℚ) := by exact_mod_cast q.den_pos
    have hexp : (2 : ℚ) ^ ((ilog2 q.num.natAbs : Int) - (ilog2 q.den : Int) - 1)
        = (2 : ℚ) ^ (ilog2 q.num.natAbs) / (2 : ℚ) ^ (ilog2 q.den + 1) := by
      rw [show (ilog2 q.num.natAbs : Int) - (ilog2 q.den : Int) - 1
          = (ilog2 q.num.natAbs : Int) - ((ilog2 q.den + 1 : Nat) : Int) by push_cast; ring]
      rw [zpow_sub₀ (by norm_num : (2 : ℚ) ≠ 0), zpow_natCast, zpow_natCast]
    rw [hexp, habs]
    exact div_le_div₀ (by positivity) hn1' hdpos hd2'

/-- Rounding to the nearest integer moves a number by at most one half. -/
theorem roundHalfEven_error (q : ℚ) : |(roundHalfEven q : ℚ) - q| ≤ 1 / 2 := by
  have h1 : ((Rat.floor q : Int) : ℚ) ≤ q := Int.floor_le q
  have h2 : q < ((Rat.floor q : Int) : ℚ) + 1 := Int.lt_floor_add_one q
  unfold roundHalfEven
  simp only
  rw [abs_le]
  split_ifs <;> push_cast <;> constructor <;> linarith

/-- Rounding to a format with `p` significand bits moves a number by at most half a unit in
the last place: by at most `(|q| + 2 ^ emin) * 2 ^ -p`. -/
theorem roundToFormat_error (p : Nat) (emin : Int) (q : ℚ) :
    |roundToFormat p emin q - q| ≤ (|q| + (2 : ℚ) ^ emin) * (2 : ℚ) ^ (-(p : Int)) := by
  unfold roundToFormat
  split
  · rename_i h
    subst h
    simp only [sub_self, abs_zero, zero_add]
    positivity
  · rename_i h
    simp only [pow2_eq_zpow]
    set e := max (floorLog2 q) emin with he
    set ulp := (2 : ℚ) ^ (e - ((p : Int) - 1)) with hulp
    have hpos : 0 < ulp := by positivity
    have herr := roundHalfEven_error (q / ulp)
    have hmul : (roundHalfEven (q / ulp) : ℚ) * ulp - q
        = ((roundHalfEven (q / ulp) : ℚ) - q / ulp) * ulp := by
      field_simp
    rw [hmul, abs_mul, abs_of_pos hpos]
    have h2e : (2 : ℚ) ^ e ≤ |q| + (2 : ℚ) ^ emin := by
      rcases max_cases (floorLog2 q) emin with ⟨hm, _⟩ | ⟨hm, _⟩
      · rw [he, hm]
        have := floorLog2_le q h
        have : (0 : ℚ) < (2 : ℚ) ^ emin := by positivity
        linarith
      · rw [he, hm]
        have := abs_nonneg q
        linarith
    have hsplit : ulp = (2 : ℚ) ^ e * (2 : ℚ) ^ (-(p : Int)) * 2 := by
      rw [hulp, show e - ((p : Int) - 1) = e + -(p : Int) + 1 by ring,
        zpow_add₀ (by norm_num : (2 : ℚ) ≠ 0), zpow_add₀ (by norm_num : (2 : ℚ) ≠ 0), zpow_one]
    have hp : (0 : ℚ) < (2 : ℚ) ^ (-(p : Int)) := by positivity
    calc |(roundHalfEven (q / ulp) : ℚ) - q / ulp| * ulp
        ≤ 1 / 2 * ulp := by exact mul_le_mul_of_nonneg_right herr hpos.le
      _ = (2 : ℚ) ^ e * (2 : ℚ) ^ (-(p : Int)) := by rw [hsplit]; ring
      _ ≤ (|q| + (2 : ℚ) ^ emin) * (2 : ℚ) ^ (-(p : Int)) :=
          mul_le_mul_of_nonneg_right h2e hp.le

/-- The `double` literal `0.10` exceeds one tenth by `2 ^ -54` of it. -/
theorem literal_0_10_value : literal_0_10 = 1 / 10 + 1 / (10 * 2 ^ 54) := by decide!

/-- The statement `x *= 0.10;` leaves one tenth of `x`, up to the rounding of `float`
arithmetic: the result differs from `x / 10` by at most `|x / 10| * 2 ^ -23 + 2 ^ -149`. -/
theorem mulAssign_0_10_error (x : ℚ) :
    |mulAssign_0_10 x - x / 10| ≤ |x / 10| / 2 ^ 23 + 1 / 2 ^ 149 := by
  unfold mulAssign_0_10
  rw [literal_0_10_value]
  set y : ℚ := x * (1 / 10 + 1 / (10 * 2 ^ 54)) with hy
  have hyx : y - x / 10 = x / 10 * (1 / 2 ^ 54) := by rw [hy]; ring
  have hy' : y = x / 10 * (1 + 1 / 2 ^ 54) := by rw [hy]; ring
  have hya : |y| = |x / 10| * (1 + 1 / 2 ^ 54) := by
    rw [hy', abs_mul, abs_of_pos (by positivity : (0 : ℚ) < 1 + 1 / 2 ^ 54)]
  have hyxa : |y - x / 10| = |x / 10| * (1 / 2 ^ 54) := by
    rw [hyx, abs_mul, abs_of_pos (by positivity : (0 : ℚ) < 1 / 2 ^ 54)]
  have hd := roundToFormat_error 53 (-1022) y
  have hf := roundToFormat_error 24 (-126) (toDouble y)
  have hda : |toDouble y| ≤ |y| + |toDouble y - y| := by
    have := abs_add (toDouble y - y) y
    simp only [sub_add_cancel] at this
    linarith
  have he1 : (2 : ℚ) ^ (-1022 : Int) ≤ (2 : ℚ) ^ (-126 : Int) :=
    zpow_le_zpow_right₀ (by norm_num) (by norm_num)
  have he0 : (0 : ℚ) < (2 : ℚ) ^ (-1022 : Int) := by positivity
  have h126 : (2 : ℚ) ^ (-126 : Int) = 1 / 2 ^ 126 := by
    rw [zpow_neg, one_div]; norm_cast
  have h53 : (2 : ℚ) ^ (-((53 : Nat) : Int)) = 1 / 2 ^ 53 := by
    rw [zpow_neg, one_div]; norm_cast
  have h24 : (2 : ℚ) ^ (-((24 : Nat) : Int)) = 1 / 2 ^ 24 := by
    rw [zpow_neg, one_div]; norm_cast
  rw [h53] at hd
  rw [h24, h126] at hf
  rw [h126] at he1
  generalize (2 : ℚ) ^ (-1022 : Int) = eps at hd he1 he0
  have htri : |toFloat (toDouble y) - x / 10|
      ≤ |toFloat (toDouble y) - toDouble y| + |toDouble y - y| + |y - x / 10| := by
    have h1 := abs_add (toFloat (toDouble y) - toDouble y) (toDouble y - y)
    have h2 := abs_add (toFloat (toDouble y) - y) (y - x / 10)
    simp only [sub_add_sub_cancel] at h1 h2
    linarith
  have hfold1 : roundToFormat 53 (-1022) y = toDouble y := rfl
  have hfold2 : roundToFormat 24 (-126) (toDouble y) = toFloat (toDouble y) := rfl
  rw [hfold1] at hd
  rw [hfold2] at hf
  have ha := abs_nonneg (x / 10)
  generalize |toFloat (toDouble y) - x / 10| = T at htri ⊢
  generalize |toFloat (toDouble y) - toDouble y| = F at htri hf
  generalize |toDouble y - y| = D at htri hd hda
  generalize |toDouble y| = Dv at hf hda
  rw [hyxa] at htri
  rw [hya] at hd hda
  generalize |x / 10| = a at *
  norm_num at *
  nlinarith

/-- A non-zero rational is below the next power of two: `|q| < 2 ^ (floorLog2 q + 1)`. -/
theorem floorLog2_lt (q : ℚ) (hq : q ≠ 0) : |q| < (2 : ℚ) ^ (floorLog2 q + 1) := by
  have ha : (if q < 0 then -q else q) = |q| := by
    split
    · rename_i h; rw [abs_of_neg h]
    · rename_i h; rw [abs_of_nonneg (not_lt.mp h)]
  unfold floorLog2
  simp only [ha, pow2_eq_zpow]
  split
  · have hn : 1 ≤ q.num.natAbs := by
      have : q.num ≠ 0 := Rat.num_ne_zero.mpr hq
      omega
    have hd : 1 ≤ q.den := q.den_pos
    obtain ⟨_, hn2⟩ := ilog2_bounds _ hn
    obtain ⟨hd1, _⟩ := ilog2_bounds _ hd
    have habs : |q| = (q.num.natAbs : ℚ) / (q.den : ℚ) := by
      conv_lhs => rw [← Rat.num_div_den q]
      rw [abs_div, Nat.abs_cast, Nat.cast_natAbs, Int.cast_abs]
    have hn2' : (q.num.natAbs : ℚ) < (2 : ℚ) ^ (ilog2 q.num.natAbs + 1) := by exact_mod_cast hn2
    have hd1' : (2 : ℚ) ^ (ilog2 q.den) ≤ (q.den : ℚ) := by exact_mod_cast hd1
    have hexp : (2 : ℚ) ^ ((ilog2 q.num.natAbs : Int) - (ilog2 q.den : Int) + 1)
        = (2 : ℚ) ^ (ilog2 q.num.natAbs + 1) / (2 : ℚ) ^ (ilog2 q.den) := by
      rw [show (ilog2 q.num.natAbs : Int) - (ilog2 q.den : Int) + 1
          = ((ilog2 q.num.natAbs + 1 : Nat) : Int) - ((ilog2 q.den : Nat) : Int) by
            push_cast; ring]
      rw [zpow_sub₀ (by norm_num : (2 : ℚ) ≠ 0), zpow_natCast, zpow_natCast]
    rw [hexp, habs]
    exact div_lt_div₀ hn2' hd1' (by positivity) (by positivity)
  · rename_i h
    rw [sub_add_cancel]
    exact not_le.mp h

/-- The binary exponent is the only `e` with `2 ^ e ≤ |q| < 2 ^ (e + 1)`. -/
theorem floorLog2_unique (q : ℚ) (e : Int) (h1 : (2 : ℚ) ^ e ≤ |q|)
    (h2 : |q| < (2 : ℚ) ^ (e + 1)) : floorLog2 q = e := by
  have hq : q ≠ 0 := by
    intro h
    rw [h, abs_zero] at h1
    have : (0 : ℚ) < (2 : ℚ) ^ e := by positivity
    linarith
  have h3 := floorLog2_le q hq
  have h4 := floorLog2_lt q hq
  have ha : (2 : ℚ) ^ floorLog2 q < (2 : ℚ) ^ (e + 1) := lt_of_le_of_lt h3 h2
  have hb : (2 : ℚ) ^ e < (2 : ℚ) ^ (floorLog2 q + 1) := lt_of_le_of_lt h1 h4
  have ha' := (zpow_lt_zpow_iff_right₀ (by norm_num : (1 : ℚ) < 2)).mp ha
  have hb' := (zpow_lt_zpow_iff_right₀ (by norm_num : (1 : ℚ) < 2)).mp hb
  omega

/-- A number less than one half away from an integer rounds to that integer. -/
theorem roundHalfEven_of_near (q : ℚ) (m : Int) (h : |q - (m : ℚ)| < 1 / 2) :
    roundHalfEven q = m := by
  rw [abs_lt] at h
  obtain ⟨hl, hr⟩ := h
  unfold roundHalfEven
  simp only
  by_cases hc : (m : ℚ) ≤ q
  · have hf : Rat.floor q = m := by
      have : ⌊q⌋ = m := Int.floor_eq_iff.mpr ⟨hc, by linarith⟩
      exact this
    rw [hf]
    rw [if_pos (by linarith)]
  · have hc' : q < (m : ℚ) := not_le.mp hc
    have hf : Rat.floor q = m - 1 := by
      have : ⌊q⌋ = m - 1 := Int.floor_eq_iff.mpr ⟨by push_cast; linarith, by push_cast; linarith⟩
      exact this
    rw [hf]
    push_cast
    rw [if_neg (by linarith), if_pos (by linarith)]
    ring

/-- A `float` value times `1 + 2 ^ -54` rounds, as a `double`, back to the value itself. -/
theorem toDouble_of_float_times (v : ℚ) (hv : toFloat v = v) :
    toDouble (v * (1 + 1 / 2 ^ 54)) = v := by
  have two_ne : (2 : ℚ) ≠ 0 := by norm_num
  have one_lt : (1 : ℚ) < 2 := by norm_num
  by_cases hv0 : v = 0
  · subst hv0
    simp [toDouble, roundToFormat]
  have hc : (0 : ℚ) < 1 + 1 / 2 ^ 54 := by positivity
  have hy0 : v * (1 + 1 / 2 ^ 54) ≠ 0 := mul_ne_zero hv0 hc.ne'
  obtain ⟨k, hk⟩ : ∃ k : Int, v = (k : ℚ) * (2 : ℚ) ^ (max (floorLog2 v) (-126) - 23) := by
    refine ⟨roundHalfEven (v / pow2 (max (floorLog2 v) (-126) - (((24 : Nat) : Int) - 1))), ?_⟩
    have h := hv
    unfold toFloat roundToFormat at h
    rw [if_neg hv0] at h
    simp only [pow2_eq_zpow] at h ⊢
    have h23 : (((24 : Nat) : Int) - 1) = 23 := by norm_num
    rw [h23] at h ⊢
    exact h.symm
  set e := floorLog2 v with he
  set ef := max e (-126) with hef
  have hef_ge : e ≤ ef := le_max_left _ _
  set uf : ℚ := (2 : ℚ) ^ (ef - 23) with huf
  have hufpos : 0 < uf := by positivity
  have hk0 : k ≠ 0 := by
    intro h
    rw [h] at hk
    simp at hk
    exact hv0 hk
  have habsv : |v| = |(k : ℚ)| * uf := by rw [hk, abs_mul, abs_of_pos hufpos]
  have hk1 : (1 : ℚ) ≤ |(k : ℚ)| := by
    have : (1 : Int) ≤ |k| := Int.one_le_abs hk0
    exact_mod_cast this
  have hvle := floorLog2_le v hv0
  have hvlt := floorLog2_lt v hv0
  rw [← he] at hvle hvlt
  have hufle : uf ≤ |v| := by
    rw [habsv]
    nlinarith
  have hexp : ef - 23 < e + 1 :=
    (zpow_lt_zpow_iff_right₀ one_lt).mp (lt_of_le_of_lt hufle hvlt)
  obtain ⟨n, hn⟩ : ∃ n : Nat, (n : Int) = e + 1 - (ef - 23) :=
    ⟨(e + 1 - (ef - 23)).toNat, Int.toNat_of_nonneg (by omega)⟩
  have hpow : (2 : ℚ) ^ (e + 1) = (2 : ℚ) ^ n * uf := by
    rw [huf, ← zpow_natCast, ← zpow_add₀ two_ne, hn]
    congr 1
    ring
  have hklt : |(k : ℚ)| < (2 : ℚ) ^ n := by
    have : |(k : ℚ)| * uf < (2 : ℚ) ^ n * uf := by rw [← habsv, ← hpow]; exact hvlt
    exact lt_of_mul_lt_mul_right this hufpos.le
  have hkle : |(k : ℚ)| ≤ (2 : ℚ) ^ n - 1 := by
    have h1 : |k| < (2 : Int) ^ n := by exact_mod_cast hklt
    have h2 : |k| ≤ (2 : Int) ^ n - 1 := by omega
    exact_mod_cast h2
  have hvle2 : |v| ≤ (2 : ℚ) ^ (e + 1) - uf := by
    rw [habsv, hpow]
    nlinarith
  have hsmall : (2 : ℚ) ^ (e + 1) * (1 / 2 ^ 54) ≤ uf := by
    have h54 : (1 : ℚ) / 2 ^ 54 = (2 : ℚ) ^ (-54 : Int) := by
      rw [zpow_neg, one_div]; norm_cast
    rw [h54, ← zpow_add₀ two_ne, huf]
    exact zpow_le_zpow_right₀ one_lt.le (by omega)
  have habsy : |v * (1 + 1 / 2 ^ 54)| = |v| * (1 + 1 / 2 ^ 54) := by
    rw [abs_mul, abs_of_pos hc]
  have hylt : |v * (1 + 1 / 2 ^ 54)| < (2 : ℚ) ^ (e + 1) := by
    rw [habsy]
    have hc54 : (0 : ℚ) < 1 / 2 ^ 54 := by positivity
    nlinarith
  have hyge : (2 : ℚ) ^ e ≤ |v * (1 + 1 / 2 ^ 54)| := by
    rw [habsy]
    have hc54 : (0 : ℚ) < 1 / 2 ^ 54 := by positivity
    have := abs_nonneg v
    nlinarith
  have hfy : floorLog2 (v * (1 + 1 / 2 ^ 54)) = e := floorLog2_unique _ e hyge hylt
  unfold toDouble roundToFormat
  rw [if_neg hy0, hfy]
  simp only [pow2_eq_zpow]
  have h52 : (((53 : Nat) : Int) - 1) = 52 := by norm_num
  rw [h52]
  set ed := max e (-1022) with hed
  have hed_ge : e ≤ ed := le_max_left _ _
  have hed_le : ed ≤ ef := by
    rw [hed, hef]
    exact max_le_max (le_refl e) (by norm_num)
  set ud : ℚ := (2 : ℚ) ^ (ed - 52) with hud
  have hudpos : 0 < ud := by positivity
  obtain ⟨j, hj⟩ : ∃ j : Nat, (j : Int) = ef - 23 - (ed - 52) :=
    ⟨(ef - 23 - (ed - 52)).toNat, Int.toNat_of_nonneg (by omega)⟩
  have hufud : uf = (2 : ℚ) ^ j * ud := by
    rw [huf, hud, ← zpow_natCast, ← zpow_add₀ two_ne, hj]
    congr 1
    ring
  have hvm : v = ((k * 2 ^ j : Int) : ℚ) * ud := by
    rw [hk, hufud]
    push_cast
    ring
  have h53 : (2 : ℚ) ^ (ed + 1) = (2 : ℚ) ^ 53 * ud := by
    rw [hud, ← zpow_natCast, ← zpow_add₀ two_ne]
    congr 1
    push_cast
    ring
  have hmlt : |((k * 2 ^ j : Int) : ℚ)| < (2 : ℚ) ^ 53 := by
    have h1 : |v| < (2 : ℚ) ^ (ed + 1) :=
      lt_of_lt_of_le hvlt (zpow_le_zpow_right₀ one_lt.le (by omega))
    rw [h53] at h1
    have h2 : |v| = |((k * 2 ^ j : Int) : ℚ)| * ud := by
      conv_lhs => rw [hvm]
      rw [abs_mul, abs_of_pos hudpos]
    rw [h2] at h1
    exact lt_of_mul_lt_mul_right h1 hudpos.le
  have hdiv : v * (1 + 1 / 2 ^ 54) / ud - ((k * 2 ^ j : Int) : ℚ)
      = ((k * 2 ^ j : Int) : ℚ) * (1 / 2 ^ 54) := by
    conv_lhs => rw [hvm]
    field_simp
    ring
  have hnear : |v * (1 + 1 / 2 ^ 54) / ud - ((k * 2 ^ j : Int) : ℚ)| < 1 / 2 := by
    rw [hdiv, abs_mul, abs_of_pos (by positivity : (0 : ℚ) < 1 / 2 ^ 54)]
    have : |((k * 2 ^ j : Int) : ℚ)| * (1 / 2 ^ 54) < (2 : ℚ) ^ 53 * (1 / 2 ^ 54) :=
      mul_lt_mul_of_pos_right hmlt (by positivity)
    have h2 : (2 : ℚ) ^ 53 * (1 / 2 ^ 54) = 1 / 2 := by norm_num
    linarith
  rw [roundHalfEven_of_near _ _ hnear]
  exact hvm.symm

/-- Where one tenth of `x` is itself a `float` value, the statement `x *= 0.10;` leaves
exactly that tenth. -/
theorem mulAssign_0_10_exact (x : ℚ) (h : toFloat (x / 10) = x / 10) :
    mulAssign_0_10 x = x / 10 := by
  unfold mulAssign_0_10
  rw [literal_0_10_value]
  have hy : x * (1 / 10 + 1 / (10 * 2 ^ 54)) = x / 10 * (1 + 1 / 2 ^ 54) := by ring
  rw [hy, toDouble_of_float_times _ h, h]

/-- The scale step of `TrackCamera` yields one tenth of each translation entry: exactly where
the tenth is a `float` value, up to the rounding of `float` arithmetic otherwise. -/
theorem mulAssign_0_10_isTenthOf (x : ℚ) : isTenthOf (mulAssign_0_10 x) x :=
  ⟨mulAssign_0_10_error x, mulAssign_0_10_exact x⟩

/-- The entry that the scale step leaves is the recorded entry with the translation scaled by
0.1 and everything else as recorded. -/
theorem scaledEntry_isScaledEntryOf (entry : Matrix4f) :
    (scaledEntry entry).isScaledEntryOf entry :=
  ⟨rfl, rfl, mulAssign_0_10_isTenthOf _, mulAssign_0_10_isTenthOf _, mulAssign_0_10_isTenthOf _⟩

/-- The pose computed for a frame is the pose the specification gives it. -/
theorem alignedPose_isAlignedPose (poses : List Matrix4f) (i : Nat) (pose : ITMPose)
    (h : alignedPose poses i = some pose) : isAlignedPose poses i pose := by
  cases i with
  | zero =>
    simp only [alignedPose, Option.some.injEq] at h
    simp only [isAlignedPose]
    exact h.symm
  | succ j =>
    simp only [alignedPose, Option.map_eq_some'] at h
    obtain ⟨entry, he, hp⟩ := h
    subst hp
    simp only [isAlignedPose, he]
    exact scaledEntry_isScaledEntryOf entry

/-! ## Properties: the ground-truth tracker -/

theorem Exec.bind_returned {α β : Type u} (x : Exec α) (f : α → Exec β) (b : β)
    (h : x.bind f = .returned b) : ∃ a, x = .returned a ∧ f a = .returned b := by
  cases x <;> simp [Exec.bind] at h
  exact ⟨_, rfl, h⟩

/-- A tracker that the constructor returns has its cursor at 0. -/
theorem create_currentFrame (fs : FileSystem) (uninit : Nat → Matrix4f) (fuel : Nat)
    (path : String) (g0 : ITMGroundTruthTracker)
    (h : ITMGroundTruthTracker.create fs uninit fuel path = .returned g0) :
    g0.currentFrame = 0 := by
  obtain ⟨poses, _, hp⟩ := Exec.bind_returned _ _ _ h
  simp only [Exec.returned.injEq] at hp
  rw [← hp]

/-- The unchecked access at a natural index inside the vector yields the entry. -/
theorem vectorAt_natCast_succ (v : List Matrix4f) (c : Nat) :
    vectorAt v ((c : Int) + 1) = v[c + 1]? := by
  have h0 : (0 : Int) ≤ (c : Int) + 1 := by omega
  have h1 : ((c : Int) + 1).toNat = c + 1 := by omega
  simp [vectorAt, h0, h1]

/-- One call with the cursor at `c` and entry `c + 1` present. -/
theorem TrackCamera_of_entry (poses : List Matrix4f) (c : Nat) (entry : Matrix4f)
    (h : poses[c + 1]? = some entry) (ts : ITMTrackingState) (view : ITMView) :
    ITMGroundTruthTracker.TrackCamera { currentFrame := c, groundTruthPoses := poses } ts view
      = .returned ({ currentFrame := (c : Int) + 1, groundTruthPoses := poses },
          { ts with
            pose_d := ITMPose.inverse
              { entry with m30 := mulAssign_0_10 entry.m30, m31 := mulAssign_0_10 entry.m31,
                           m32 := mulAssign_0_10 entry.m32 } }) := by
  simp [ITMGroundTruthTracker.TrackCamera, vectorAt_natCast_succ, h, ITMPose.SetInvM]

/-- One call with the cursor at `c` and no entry `c + 1`. -/
theorem TrackCamera_of_no_entry (poses : List Matrix4f) (c : Nat)
    (h : poses.length ≤ c + 1) (ts : ITMTrackingState) (view : ITMView) :
    ITMGroundTruthTracker.TrackCamera { currentFrame := c, groundTruthPoses := poses } ts view
      = .undefined := by
  have h2 : poses[c + 1]? = none := List.getElem?_eq_none h
  simp [ITMGroundTruthTracker.TrackCamera, vectorAt_natCast_succ, h2]

/-- Calls that stay inside the trajectory return and advance the cursor by one each. -/
theorem afterCalls_in_bounds (poses : List Matrix4f) (calls : List (ITMTrackingState × ITMView))
    (c : Nat) (h : c + calls.length < poses.length) :
    ITMGroundTruthTracker.afterCalls { currentFrame := c, groundTruthPoses := poses } calls
      = .returned { currentFrame := ((c + calls.length : Nat) : Int), groundTruthPoses := poses } := by
  induction calls generalizing c with
  | nil => simp [ITMGroundTruthTracker.afterCalls]
  | cons call rest ih =>
    simp only [List.length_cons] at h
    have hlt : c + 1 < poses.length := by omega
    obtain ⟨entry, he⟩ : ∃ entry, poses[c + 1]? = some entry :=
      ⟨poses[c + 1], List.getElem?_eq_getElem hlt⟩
    have hstep := TrackCamera_of_entry poses c entry he call.1 call.2
    have hrec := ih (c + 1) (by omega)
    simp only [ITMGroundTruthTracker.afterCalls, hstep]
    have hc : ((c : Int) + 1) = ((c + 1 : Nat) : Int) := by push_cast; ring
    rw [hc, hrec]
    simp only [List.length_cons]
    congr 2
    push_cast
    ring

/-- C2. For a tracker just constructed from a pose file, with a trajectory of length N, and
every k with 1 ≤ k ≤ N - 1 (here k = earlier.length + 1, where earlier lists the k - 1 calls
made before), the k-th call to TrackCamera returns with the cursor at k and installs on the
tracking state, through SetInvM (the pose then holds a camera-to-world matrix, not a
modelview matrix), the trajectory entry at index k with m30, m31, m32 each multiplied by 0.10
and with the rotation entries and the bottom row of the recorded entry: each installed
translation entry is the `float` result of the statement `*= 0.10` on the recorded one, which
is one tenth of the recorded value x, exactly where x / 10 is a `float` value and up to the
rounding of `float` arithmetic in every case (within |x / 10| * 2^-23 + 2^-149 of x / 10). -/
theorem groundTruthTracker_kth_call_installs_scaled_entry
    (fs : FileSystem) (uninit : Nat → Matrix4f) (fuel : Nat) (path : String)
    (g0 : ITMGroundTruthTracker)
    (hload : ITMGroundTruthTracker.create fs uninit fuel path = .returned g0)
    (earlier : List (ITMTrackingState × ITMView))
    (trackingState : ITMTrackingState) (view : ITMView)
    (hk : earlier.length + 1 ≤ g0.groundTruthPoses.length - 1) :
    ∃ g entry installed,
      g0.afterCalls earlier = .returned g ∧
      g0.groundTruthPoses[earlier.length + 1]? = some entry ∧
      g.TrackCamera trackingState view
        = .returned ({ currentFrame := ((earlier.length + 1 : Nat) : Int),
                       groundTruthPoses := g0.groundTruthPoses },
                     { trackingState with pose_d := ITMPose.inverse installed }) ∧
      installed.translation
        = [mulAssign_0_10 entry.m30, mulAssign_0_10 entry.m31, mulAssign_0_10 entry.m32] ∧
      installed.rotationRows = entry.rotationRows ∧
      installed.row 3 = entry.row 3 ∧
      isTenthOf installed.m30 entry.m30 ∧ isTenthOf installed.m31 entry.m31 ∧
      isTenthOf installed.m32 entry.m32 := by
  have h0 := create_currentFrame fs uninit fuel path g0 hload
  obtain ⟨c, poses⟩ := g0
  simp only at h0 hk ⊢
  subst h0
  have hlt : earlier.length + 1 < poses.length := by omega
  have hafter := afterCalls_in_bounds poses earlier 0 (by omega)
  have he : poses[earlier.length + 1]? = some poses[earlier.length + 1] :=
    List.getElem?_eq_getElem hlt
  have hstep := TrackCamera_of_entry poses earlier.length _ he trackingState view
  refine ⟨{ currentFrame := (earlier.length : Int), groundTruthPoses := poses },
    poses[earlier.length + 1],
    { poses[earlier.length + 1] with
      m30 := mulAssign_0_10 poses[earlier.length + 1].m30,
      m31 := mulAssign_0_10 poses[earlier.length + 1].m31,
      m32 := mulAssign_0_10 poses[earlier.length + 1].m32 }, ?_, he, ?_, ?_, ?_, ?_,
    mulAssign_0_10_isTenthOf _, mulAssign_0_10_isTenthOf _, mulAssign_0_10_isTenthOf _⟩
  · simpa using hafter
  · rw [hstep]
    simp
  · simp [Matrix4f.translation]
  · simp [Matrix4f.rotationRows]
  · simp [Matrix4f.row]

/-- C2 at a concrete input: the second call on the three-record file `three.txt`, whose third
record has the translation (1, 2, 3); the installed translation is the `float` nearest to
(0.1, 0.2, 0.3). -/
theorem groundTruthTracker_kth_call_installs_scaled_entry_witness :
    (ITMGroundTruthTracker.create sampleFiles (fun _ => sampleGarbage) 4 "three.txt"
        = .returned { currentFrame := 0, groundTruthPoses := sampleTrajectory } ∧
      [(sampleTrackingState, sampleView)].length + 1 ≤ sampleTrajectory.length - 1) ∧
    ∃ g entry installed,
      ITMGroundTruthTracker.afterCalls { currentFrame := 0, groundTruthPoses := sampleTrajectory }
          [(sampleTrackingState, sampleView)] = .returned g ∧
      sampleTrajectory[[(sampleTrackingState, sampleView)].length + 1]? = some entry ∧
      g.TrackCamera sampleTrackingState sampleView
        = .returned ({ currentFrame := (([(sampleTrackingState, sampleView)].length + 1 : Nat) : Int),
                       groundTruthPoses := sampleTrajectory },
                     { sampleTrackingState with pose_d := ITMPose.inverse installed }) ∧
      installed.translation
        = [mulAssign_0_10 entry.m30, mulAssign_0_10 entry.m31, mulAssign_0_10 entry.m32] ∧
      installed.rotationRows = entry.rotationRows ∧
      installed.row 3 = entry.row 3 ∧
      isTenthOf installed.m30 entry.m30 ∧ isTenthOf installed.m31 entry.m31 ∧
      isTenthOf installed.m32 entry.m32 ∧
      entry.translation = [1, 2, 3] ∧
      installed.translation
        = [13421773 / 134217728, 13421773 / 67108864, 5033165 / 16777216] := by
  obtain ⟨g, entry, installed, hg, he, ht, htr, hrot, hrow, h0, h1, h2⟩ :=
    groundTruthTracker_kth_call_installs_scaled_entry sampleFiles (fun _ => sampleGarbage) 4
      "three.txt" { currentFrame := 0, groundTruthPoses := sampleTrajectory } (by decide!)
      [(sampleTrackingState, sampleView)] sampleTrackingState sampleView (by decide)
  have hentry : entry = translationPose 1 2 3 := (Option.some.inj he).symm
  subst hentry
  refine ⟨⟨by decide!, by decide⟩, g, _, installed, hg, he, ht, htr, hrot, hrow, h0, h1, h2,
    rfl, ?_⟩
  rw [htr]
  decide!

/-- C3 (what the code does). For a tracker just constructed from a pose file with a
trajectory of length N, the first N - 1 calls to TrackCamera return, and the N-th call
(here earlier lists the N - 1 calls made before) indexes groundTruthPoses at N, outside the
vector: the call has undefined behaviour, it neither throws nor reports an error and hands
no unchanged tracking state back. -/
theorem groundTruthTracker_Nth_call_is_undefined
    (fs : FileSystem) (uninit : Nat → Matrix4f) (fuel : Nat) (path : String)
    (g0 : ITMGroundTruthTracker)
    (hload : ITMGroundTruthTracker.create fs uninit fuel path = .returned g0)
    (earlier : List (ITMTrackingState × ITMView))
    (trackingState : ITMTrackingState) (view : ITMView)
    (hN : earlier.length + 1 = g0.groundTruthPoses.length) :
    ∃ g, g0.afterCalls earlier = .returned g ∧
      g.TrackCamera trackingState view = .undefined := by
  have h0 := create_currentFrame fs uninit fuel path g0 hload
  obtain ⟨c, poses⟩ := g0
  simp only at h0 hN ⊢
  subst h0
  have hafter := afterCalls_in_bounds poses earlier 0 (by omega)
  refine ⟨{ currentFrame := (earlier.length : Int), groundTruthPoses := poses }, ?_, ?_⟩
  · simpa using hafter
  · exact TrackCamera_of_no_entry poses earlier.length (by omega) trackingState view

/-- C3 at a concrete input: the first call on the one-record file `one.txt`. -/
theorem groundTruthTracker_Nth_call_is_undefined_witness :
    (ITMGroundTruthTracker.create sampleFiles (fun _ => sampleGarbage) 2 "one.txt"
        = .returned { currentFrame := 0, groundTruthPoses := [translationPose 10 20 30] } ∧
      ([] : List (ITMTrackingState × ITMView)).length + 1 = [translationPose 10 20 30].length) ∧
    ∃ g, ITMGroundTruthTracker.afterCalls
          { currentFrame := 0, groundTruthPoses := [translationPose 10 20 30] } [] = .returned g ∧
      g.TrackCamera sampleTrackingState sampleView = .undefined :=
  ⟨⟨by decide!, by decide⟩,
    groundTruthTracker_Nth_call_is_undefined sampleFiles (fun _ => sampleGarbage) 2 "one.txt"
      { currentFrame := 0, groundTruthPoses := [translationPose 10 20 30] } (by decide!)
      [] sampleTrackingState sampleView (by decide)⟩

/-! ## Properties: the pose-file reader -/

/-- Reading one record from a good stream: the twelve numbers land in the pose as the record
lays them out, and `eofbit` is set exactly when the record was the last thing in the file. -/
theorem readPose_record (r : PoseRecord) (rest : List ℚ) (tail : FileTail) (pose0 : Matrix4f) :
    readPose { content := { numbers := r.numbers ++ rest, tail := tail },
               eofbit := false, failbit := false } pose0
      = ({ content := { numbers := rest, tail := tail },
           eofbit := rest.isEmpty && decide (tail = .endOfFile), failbit := false }, r.pose) := by
  simp [readPose, ifstream.extract, ifstream.good, PoseRecord.numbers, PoseRecord.pose]

/-- Reading at the end of a good stream (nothing or only white space left): every extraction
fails, the stream reaches end of file, and the stored pose is the uninitialised one with its
bottom row set. -/
theorem readPose_at_end (tail : FileTail) (htail : tail = .endOfFile ∨ tail = .whiteSpace)
    (pose0 : Matrix4f) :
    readPose { content := { numbers := [], tail := tail }, eofbit := false, failbit := false }
        pose0
      = ({ content := { numbers := [], tail := tail }, eofbit := true, failbit := true },
          pose0.withBottomRow) := by
  rcases htail with h | h <;> subst h <;>
    simp [readPose, ifstream.extract, ifstream.good, Matrix4f.withBottomRow]

/-- The loop on a good stream with nothing or only white space left: one more pose is
stored, the uninitialised one with its bottom row set, and the loop ends. -/
theorem readLoop_at_end (uninit : Nat → Matrix4f) (tail : FileTail)
    (htail : tail = .endOfFile ∨ tail = .whiteSpace) (acc : List Matrix4f) (extra : Nat) :
    readLoop uninit (extra + 2)
        { content := { numbers := [], tail := tail }, eofbit := false, failbit := false } acc
      = .returned (acc ++ [(uninit acc.length).withBottomRow]) := by
  simp [readLoop, ifstream.eof, readPose_at_end tail htail]

/-- The loop on a good stream holding the records `r :: rs` and then the tail: the poses of
the records are stored in order, followed by one more pose when white space ends the file. -/
theorem readLoop_records (uninit : Nat → Matrix4f) (tail : FileTail)
    (htail : tail = .endOfFile ∨ tail = .whiteSpace) (rs : List PoseRecord) :
    ∀ (r : PoseRecord) (acc : List Matrix4f) (extra : Nat),
      readLoop uninit (rs.length + 3 + extra)
          { content := recordsContent (r :: rs) tail, eofbit := false, failbit := false } acc
        = .returned (acc ++ (r :: rs).map PoseRecord.pose ++
            (if tail = .whiteSpace then [(uninit (acc.length + rs.length + 1)).withBottomRow]
             else [])) := by
  induction rs with
  | nil =>
    intro r acc extra
    have hfuel : ([] : List PoseRecord).length + 3 + extra = (extra + 2) + 1 := by simp; omega
    rw [hfuel]
    have hc : recordsContent [r] tail = { numbers := r.numbers ++ [], tail := tail } := by
      simp [recordsContent]
    rw [readLoop, hc]
    simp only [ifstream.eof, Bool.false_eq_true, if_false, readPose_record]
    rcases htail with h | h
    · subst h
      simp [readLoop, ifstream.eof]
    · subst h
      have := readLoop_at_end uninit .whiteSpace (Or.inr rfl) (acc ++ [r.pose]) extra
      simp only [List.isEmpty_nil, Bool.true_and] at this ⊢
      simp [this]
  | cons r2 rs ih =>
    intro r acc extra
    have hfuel : (r2 :: rs).length + 3 + extra = (rs.length + 3 + extra) + 1 := by
      simp only [List.length_cons]; omega
    rw [hfuel]
    have hc : recordsContent (r :: r2 :: rs) tail
        = { numbers := r.numbers ++ (recordsContent (r2 :: rs) tail).numbers, tail := tail } := by
      simp [recordsContent]
    rw [readLoop, hc]
    simp only [ifstream.eof, Bool.false_eq_true, if_false, readPose_record]
    have hne : (recordsContent (r2 :: rs) tail).numbers.isEmpty = false := by
      simp [recordsContent, PoseRecord.numbers]
    have hs : ({ numbers := (recordsContent (r2 :: rs) tail).numbers, tail := tail } : FileContent)
        = recordsContent (r2 :: rs) tail := by
      simp [recordsContent]
    rw [hne, hs]
    simp only [Bool.false_and]
    rw [ih r2 (acc ++ [r.pose]) extra]
    simp only [List.map_cons, List.length_append, List.length_cons, List.length_nil,
      List.append_assoc, List.singleton_append]
    have hlen : acc.length + (0 + 1) + rs.length + 1 = acc.length + (rs.length + 1) + 1 := by
      omega
    rw [hlen]

/-- The reader on a file made of records followed by nothing or by white space: it returns
the poses of the records in order, and one more pose (the uninitialised matrix with its
bottom row set) when the file is empty of records or ends in white space. -/
theorem readKittiOdometryPoses_records (fs : FileSystem) (path text : String)
    (records : List PoseRecord) (tail : FileTail) (uninit : Nat → Matrix4f) (extra : Nat)
    (hopen : fs path = some text)
    (hcontent : (ifstream.ofText text).content = recordsContent records tail)
    (htail : tail = .endOfFile ∨ tail = .whiteSpace) :
    readKittiOdometryPoses fs uninit (records.length + 2 + extra) path
      = .returned (records.map PoseRecord.pose ++
          (if records = [] ∨ tail = .whiteSpace then [(uninit records.length).withBottomRow]
           else [])) := by
  have hs : ifstream.ofText text
      = { content := recordsContent records tail, eofbit := false, failbit := false } := by
    rw [← hcontent]
    rfl
  simp only [readKittiOdometryPoses, hopen, hs]
  cases records with
  | nil =>
    have h := readLoop_at_end uninit tail htail [] extra
    have hfuel : ([] : List PoseRecord).length + 2 + extra = extra + 2 := by simp; omega
    rw [hfuel]
    simpa [recordsContent] using h
  | cons r rs =>
    have h := readLoop_records uninit tail htail rs r [] extra
    have hfuel : (r :: rs).length + 2 + extra = rs.length + 3 + extra := by
      have := List.length_cons r rs
      omega
    rw [hfuel, h]
    simp

/-- An extraction never sets `eofbit` on a stream whose numbers are followed by a field that
does not convert and does not reach the end of the file. -/
theorem extract_eof_stays_clear (s : ifstream) (x stored : ℚ)
    (ht : s.content.tail = .unconvertible stored false) (he : s.eofbit = false) :
    (s.extract x).1.content.tail = .unconvertible stored false ∧
      (s.extract x).1.eofbit = false := by
  obtain ⟨⟨numbers, tail⟩, eofbit, failbit⟩ := s
  simp only at ht he
  subst ht he
  cases failbit <;> cases numbers <;> simp [ifstream.extract, ifstream.good]

/-- The loop body never sets `eofbit` on such a stream. -/
theorem readPose_eof_stays_clear (s : ifstream) (pose : Matrix4f) (stored : ℚ)
    (ht : s.content.tail = .unconvertible stored false) (he : s.eofbit = false) :
    (readPose s pose).1.content.tail = .unconvertible stored false ∧
      (readPose s pose).1.eofbit = false := by
  simp only [readPose]
  have h1 := extract_eof_stays_clear s pose.m00 stored ht he
  have h2 := extract_eof_stays_clear _ pose.m10 stored h1.1 h1.2
  have h3 := extract_eof_stays_clear _ pose.m20 stored h2.1 h2.2
  have h4 := extract_eof_stays_clear _ pose.m30 stored h3.1 h3.2
  have h5 := extract_eof_stays_clear _ pose.m01 stored h4.1 h4.2
  have h6 := extract_eof_stays_clear _ pose.m11 stored h5.1 h5.2
  have h7 := extract_eof_stays_clear _ pose.m21 stored h6.1 h6.2
  have h8 := extract_eof_stays_clear _ pose.m31 stored h7.1 h7.2
  have h9 := extract_eof_stays_clear _ pose.m02 stored h8.1 h8.2
  have h10 := extract_eof_stays_clear _ pose.m12 stored h9.1 h9.2
  have h11 := extract_eof_stays_clear _ pose.m22 stored h10.1 h10.2
  exact extract_eof_stays_clear _ pose.m32 stored h11.1 h11.2

/-- The loop never ends on such a stream: whatever the budget, it is used up. -/
theorem readLoop_never_returns (uninit : Nat → Matrix4f) (stored : ℚ) (fuel : Nat) :
    ∀ (s : ifstream) (acc : List Matrix4f),
      s.content.tail = .unconvertible stored false → s.eofbit = false →
      readLoop uninit fuel s acc = .outOfFuel := by
  induction fuel with
  | zero => intro s acc _ _; rfl
  | succ n ih =>
    intro s acc ht he
    have h := readPose_eof_stays_clear s (uninit acc.length) stored ht he
    rw [readLoop]
    simp only [ifstream.eof, he, Bool.false_eq_true, if_false]
    exact ih _ _ h.1 h.2

/-- The loop itself never throws. -/
theorem readLoop_not_thrown (uninit : Nat → Matrix4f) (fuel : Nat) :
    ∀ (s : ifstream) (acc : List Matrix4f) (what : String),
      readLoop uninit fuel s acc ≠ .thrown what := by
  induction fuel with
  | zero => intro s acc what h; simp [readLoop] at h
  | succ n ih =>
    intro s acc what
    rw [readLoop]
    split
    · simp
    · exact ih _ _ what

/-- The constructor throws exactly when the path cannot be opened, with the message of the
reader, and then hands no tracker back. -/
theorem create_thrown_iff (fs : FileSystem) (uninit : Nat → Matrix4f) (fuel : Nat)
    (path what : String) :
    ITMGroundTruthTracker.create fs uninit fuel path = .thrown what
      ↔ fs path = none ∧ what = "Could not open odometry file." := by
  unfold ITMGroundTruthTracker.create readKittiOdometryPoses
  cases hfs : fs path with
  | none =>
    simp only [Exec.bind, Exec.thrown.injEq, true_and]
    exact eq_comm
  | some text =>
    have hnt := readLoop_not_thrown uninit fuel (ifstream.ofText text) []
    refine ⟨fun h => ?_, fun h => by simp at h⟩
    exfalso
    cases hr : readLoop uninit fuel (ifstream.ofText text) [] with
    | returned a => simp [hr, Exec.bind] at h
    | thrown w => exact hnt w hr
    | undefined => simp [hr, Exec.bind] at h
    | outOfFuel => simp [hr, Exec.bind] at h

/-- The rounding functions reproduce the known binary64 and binary32 values of one tenth
(bit patterns `3FB999999999999A` and `3DCCCCCD`), the largest float, and the gradual
underflow of the smallest subnormal float. -/
theorem rounding_reference_values :
    literal_0_10 = 3602879701896397 / 36028797018963968 ∧
    toFloat (1 / 10) = 13421773 / 134217728 ∧
    FLT_MAX = 340282346638528859811704183484516925440 ∧
    toFloat (pow2 (-149)) = pow2 (-149) ∧ toFloat (pow2 (-150)) = 0 := by
  decide!

/-- The scale step on the translation of the sample record, in IEEE arithmetic. -/
theorem mulAssign_0_10_sample :
    mulAssign_0_10 10 = 1 ∧ mulAssign_0_10 20 = 2 ∧ mulAssign_0_10 30 = 3 := by
  decide!

/-- The reader on `one.txt`. -/
theorem readKittiOdometryPoses_one (uninit : Nat → Matrix4f) :
    readKittiOdometryPoses sampleFiles uninit 3 "one.txt" = .returned [sampleRecord.pose] := by
  have h := readKittiOdometryPoses_records sampleFiles "one.txt" _ [sampleRecord] .endOfFile
    uninit 0 rfl (by decide!) (Or.inl rfl)
  simpa using h

/-- The reader on `one_nl.txt`. -/
theorem readKittiOdometryPoses_one_nl (uninit : Nat → Matrix4f) :
    readKittiOdometryPoses sampleFiles uninit 3 "one_nl.txt"
      = .returned [sampleRecord.pose, (uninit 1).withBottomRow] := by
  have h := readKittiOdometryPoses_records sampleFiles "one_nl.txt" _ [sampleRecord] .whiteSpace
    uninit 0 rfl (by decide!) (Or.inr rfl)
  simpa using h

/-- The reader on `twice.txt`. -/
theorem readKittiOdometryPoses_twice (uninit : Nat → Matrix4f) :
    readKittiOdometryPoses sampleFiles uninit 4 "twice.txt"
      = .returned [sampleRecord.pose, sampleRecord.pose] := by
  have h := readKittiOdometryPoses_records sampleFiles "twice.txt" _ [sampleRecord, sampleRecord]
    .endOfFile uninit 0 rfl (by decide!) (Or.inl rfl)
  simpa using h

/-- C7. For a file made of record lines of twelve numbers `a b c tx d e f ty g h i tz`
(followed by nothing or by white space), readKittiOdometryPoses returns, and the pose of
every record has rotation rows (a,b,c), (d,e,f), (g,h,i), translation (tx,ty,tz) and bottom
row [0,0,0,1]. In particular the line `1 0 0 10  0 1 0 20  0 0 1 30` yields the identity
rotation with translation (10,20,30), and TrackCamera, reading that entry, installs the
identity rotation with translation (1,2,3) and bottom row [0,0,0,1]. -/
theorem readKittiOdometryPoses_record_layout
    (fs : FileSystem) (path text : String) (records : List PoseRecord) (tail : FileTail)
    (uninit : Nat → Matrix4f)
    (hopen : fs path = some text)
    (hcontent : (ifstream.ofText text).content = recordsContent records tail)
    (htail : tail = .endOfFile ∨ tail = .whiteSpace) :
    (∃ poses, readKittiOdometryPoses fs uninit (records.length + 2) path = .returned poses ∧
      ∀ (i : Nat) (r : PoseRecord), records[i]? = some r →
        ∃ pose, poses[i]? = some pose ∧
          pose.rotationRows = [[r.a, r.b, r.c], [r.d, r.e, r.f], [r.g, r.h, r.i]] ∧
          pose.translation = [r.tx, r.ty, r.tz] ∧
          pose.row 3 = [0, 0, 0, 1]) ∧
    (∃ pose, readKittiOdometryPoses sampleFiles uninit 3 "one.txt" = .returned [pose] ∧
      pose.rotationRows = [[1, 0, 0], [0, 1, 0], [0, 0, 1]] ∧
      pose.translation = [10, 20, 30] ∧ pose.row 3 = [0, 0, 0, 1]) ∧
    (∀ (trackingState : ITMTrackingState) (view : ITMView), ∃ g0 g installed,
      ITMGroundTruthTracker.create sampleFiles uninit 4 "twice.txt" = .returned g0 ∧
      g0.TrackCamera trackingState view
        = .returned (g, { trackingState with pose_d := ITMPose.inverse installed }) ∧
      installed.rotationRows = [[1, 0, 0], [0, 1, 0], [0, 0, 1]] ∧
      installed.translation = [1, 2, 3] ∧ installed.row 3 = [0, 0, 0, 1]) := by
  refine ⟨?_, ?_, ?_⟩
  · have h := readKittiOdometryPoses_records fs path text records tail uninit 0 hopen hcontent
      htail
    refine ⟨_, h, ?_⟩
    intro i r hr
    have hi : i < records.length := by
      by_contra hge
      rw [List.getElem?_eq_none (by omega)] at hr
      exact Option.noConfusion hr
    refine ⟨r.pose, ?_, ?_, ?_, ?_⟩
    · rw [List.getElem?_append_left (by simpa using hi), List.getElem?_map, hr]
      rfl
    · rfl
    · rfl
    · rfl
  · exact ⟨sampleRecord.pose, readKittiOdometryPoses_one uninit, by decide, by decide, by decide⟩
  · intro trackingState view
    have hstep := TrackCamera_of_entry [sampleRecord.pose, sampleRecord.pose] 0 sampleRecord.pose
      rfl trackingState view
    have hm : ({ sampleRecord.pose with
          m30 := mulAssign_0_10 sampleRecord.pose.m30,
          m31 := mulAssign_0_10 sampleRecord.pose.m31,
          m32 := mulAssign_0_10 sampleRecord.pose.m32 } : Matrix4f) = translationPose 1 2 3 := by
      decide!
    rw [hm] at hstep
    refine ⟨{ currentFrame := 0, groundTruthPoses := [sampleRecord.pose, sampleRecord.pose] },
      { currentFrame := 1, groundTruthPoses := [sampleRecord.pose, sampleRecord.pose] },
      translationPose 1 2 3, ?_, ?_, ?_, ?_, ?_⟩
    · simp [ITMGroundTruthTracker.create, readKittiOdometryPoses_twice, Exec.bind]
    · simpa using hstep
    · decide
    · decide
    · decide

/-- C7 at a concrete input: the three records of `three.txt`. -/
theorem readKittiOdometryPoses_record_layout_witness :
    (sampleFiles "three.txt"
        = some "1 0 0 10 0 1 0 20 0 0 1 30\n0 -1 0 5 1 0 0 2.5 0 0 1 -40\n1 0 0 1 0 1 0 2 0 0 1 3" ∧
      (ifstream.ofText
          "1 0 0 10 0 1 0 20 0 0 1 30\n0 -1 0 5 1 0 0 2.5 0 0 1 -40\n1 0 0 1 0 1 0 2 0 0 1 3").content
        = recordsContent sampleRecords .endOfFile) ∧
    ∃ poses, readKittiOdometryPoses sampleFiles (fun _ => sampleGarbage)
        (sampleRecords.length + 2) "three.txt" = .returned poses ∧
      ∀ (i : Nat) (r : PoseRecord), sampleRecords[i]? = some r →
        ∃ pose, poses[i]? = some pose ∧
          pose.rotationRows = [[r.a, r.b, r.c], [r.d, r.e, r.f], [r.g, r.h, r.i]] ∧
          pose.translation = [r.tx, r.ty, r.tz] ∧
          pose.row 3 = [0, 0, 0, 1] :=
  ⟨⟨rfl, by decide!⟩,
    (readKittiOdometryPoses_record_layout sampleFiles "three.txt" _ sampleRecords .endOfFile
      (fun _ => sampleGarbage) rfl (by decide!) (Or.inl rfl)).1⟩

/-- C8 (what the code does). The one-record file read without a closing newline yields one
pose; the same record followed by a newline yields two: after the record the stream is not
at end of file, the loop runs once more, all twelve extractions fail, and the uninitialised
matrix (with its bottom row set) is stored as a second trajectory entry. -/
theorem readKittiOdometryPoses_closing_newline_adds_entry (uninit : Nat → Matrix4f) :
    readKittiOdometryPoses sampleFiles uninit 3 "one.txt"
      = .returned [translationPose 10 20 30] ∧
    readKittiOdometryPoses sampleFiles uninit 3 "one_nl.txt"
      = .returned [translationPose 10 20 30, (uninit 1).withBottomRow] := by
  have hp : sampleRecord.pose = translationPose 10 20 30 := by decide
  rw [← hp]
  exact ⟨readKittiOdometryPoses_one uninit, readKittiOdometryPoses_one_nl uninit⟩

/-- C9 (what the code does). On the file `bad.txt`, which opens and whose content `x` is no
number, the constructor never returns: the first extraction sets failbit without reaching
the end of the file, eofbit is never set, and the loop uses up every budget. -/
theorem create_never_returns_on_unconvertible_text (uninit : Nat → Matrix4f) (fuel : Nat) :
    ITMGroundTruthTracker.create sampleFiles uninit fuel "bad.txt" = .outOfFuel := by
  have hopen : sampleFiles "bad.txt" = some "x" := rfl
  have hs : ifstream.ofText "x"
      = { content := { numbers := [], tail := .unconvertible 0 false },
          eofbit := false, failbit := false } := by decide!
  have h := readLoop_never_returns uninit 0 fuel (ifstream.ofText "x") []
    (by rw [hs]) (by rw [hs])
  simp [ITMGroundTruthTracker.create, readKittiOdometryPoses, hopen, h, Exec.bind]

/-! ## Properties: the main engine -/

theorem Traced.bind_log {α β : Type u} (x : Traced α) (f : α → Traced β) :
    (x.bind f).log = x.log ++ (match x.result with
      | .returned a => (f a).log
      | _ => []) := by
  unfold Traced.bind
  cases x.result <;> simp

theorem Traced.bind_result {α β : Type u} (x : Traced α) (f : α → Traced β) :
    (x.bind f).result = x.result.bind fun a => (f a).result := by
  unfold Traced.bind Exec.bind
  cases x.result <;> simp

theorem trackedSlots_append (l1 l2 : List Call) :
    trackedSlots (l1 ++ l2) = trackedSlots l1 ++ trackedSlots l2 := by
  simp [trackedSlots]

theorem integrations_append (l1 l2 : List Call) :
    integrations (l1 ++ l2) = integrations l1 + integrations l2 := by
  simp [integrations]

theorem raycasts_append (l1 l2 : List Call) :
    raycasts (l1 ++ l2) = raycasts l1 + raycasts l2 := by
  simp [raycasts]

/-- The first block only touches the View. -/
theorem prepareImage_eq (e : ITMMainEngine) : ∃ v, e.prepareImage = { e with view := v } := by
  unfold ITMMainEngine.prepareImage
  split
  · cases ht : e.view.inputImageType <;> simp only [ht] <;> exact ⟨_, rfl⟩
  · exact ⟨e.view, rfl⟩

/-- The conversion block returns, only touches the View, and calls neither a tracker nor the
Dense Mapper. -/
theorem convertDepth_eq (K : Collaborators) (e : ITMMainEngine) :
    ∃ l v, ITMMainEngine.convertDepth K e = { log := l, result := .returned { e with view := v } } ∧
      trackedSlots l = [] ∧ integrations l = 0 ∧ raycasts l = 0 := by
  unfold ITMMainEngine.convertDepth
  split
  · exact ⟨_, _, rfl, by simp [trackedSlots, Call.trackedSlot],
      by simp [integrations, Call.isIntegration], by simp [raycasts, Call.isRaycast]⟩
  · split
    · exact ⟨_, _, rfl, by simp [trackedSlots, Call.trackedSlot],
        by simp [integrations, Call.isIntegration], by simp [raycasts, Call.isRaycast]⟩
    · exact ⟨[], e.view, rfl, rfl, rfl, rfl⟩

/-- The integration statement returns, only touches the scene, and makes the integration call
exactly when the flag is set, with the View and pose of the engine at that point. -/
theorem fusion_eq (K : Collaborators) (e : ITMMainEngine) :
    ∃ scene, ITMMainEngine.fusion K e
      = { log := if e.fusionActive then [.DenseMapperProcessFrame e.view e.trackingState.pose_d]
                 else [],
          result := .returned { e with denseMapper := scene } } := by
  unfold ITMMainEngine.fusion
  split
  · exact ⟨_, rfl⟩
  · exact ⟨e.denseMapper, rfl⟩

/-- The raycast block returns, only touches the tracking state, calls no tracker and no
integration, and makes one raycast request unless the tracker type is the ground-truth one. -/
theorem raycasting_eq (K : Collaborators) (e : ITMMainEngine) :
    ∃ l ts, ITMMainEngine.raycasting K e
        = { log := l, result := .returned { e with trackingState := ts } } ∧
      trackedSlots l = [] ∧ integrations l = 0 ∧
      raycasts l = if e.settings.trackerType = .TRACKER_GROUND_TRUTH then 0 else 1 := by
  unfold ITMMainEngine.raycasting
  split
  · rename_i h
    exact ⟨_, _, rfl, by simp [trackedSlots, Call.trackedSlot],
      by simp [integrations, Call.isIntegration], by simp [raycasts, Call.isRaycast, h]⟩
  · rename_i h
    exact ⟨_, _, rfl, by simp [trackedSlots, Call.trackedSlot],
      by simp [integrations, Call.isIntegration], by simp [raycasts, Call.isRaycast, h]⟩
  · rename_i h
    exact ⟨_, _, rfl, by simp [trackedSlots, Call.trackedSlot],
      by simp [integrations, Call.isIntegration], by simp [raycasts, Call.isRaycast, h]⟩
  · rename_i h
    exact ⟨[], e.trackingState, rfl, rfl, rfl, by simp [raycasts, h]⟩

/-- The single-tracker statement calls the tracker exactly when the pointer is not null. -/
theorem trackWith_log (slot : TrackerSlot) (t : Option ITMTracker) (scene : ITMScene)
    (ts : ITMTrackingState) (view : ITMView) :
    (ITMMainEngine.trackWith slot t scene ts view).log
      = if t.isSome then [.TrackCamera slot ts view] else [] := by
  cases t <;> simp [ITMMainEngine.trackWith, Traced.pure]

/-- The single-tracker statement keeps a null pointer null and a tracker a tracker. -/
theorem trackWith_returned (slot : TrackerSlot) (t : Option ITMTracker) (scene : ITMScene)
    (ts : ITMTrackingState) (view : ITMView) (r : Option ITMTracker × ITMTrackingState)
    (h : (ITMMainEngine.trackWith slot t scene ts view).result = .returned r) :
    r.1.isSome = t.isSome := by
  cases t with
  | none =>
    simp [ITMMainEngine.trackWith, Traced.pure] at h
    rw [← h]
  | some t =>
    simp only [ITMMainEngine.trackWith] at h
    cases hr : t.TrackCamera t.self scene ts view <;> rw [hr] at h <;> simp at h
    rw [← h]
    rfl

/-- Before reconstruction has started the tracking block does nothing. -/
theorem tracking_not_started (e : ITMMainEngine) (h : e.hasStartedObjectReconstruction = false) :
    ITMMainEngine.tracking e = Traced.pure e := by
  simp [ITMMainEngine.tracking, h]

/-- The tracking block makes no call on the Dense Mapper. -/
theorem tracking_log_other (e : ITMMainEngine) :
    integrations (ITMMainEngine.tracking e).log = 0 ∧ raycasts (ITMMainEngine.tracking e).log = 0 := by
  unfold ITMMainEngine.tracking
  split
  · simp only [Traced.bind_log, trackWith_log]
    constructor <;> repeat' split
    all_goals simp [integrations, raycasts, Call.isIntegration, Call.isRaycast, Traced.pure]
  · simp [Traced.pure, integrations, raycasts]

/-- A tracking block that returns has called each configured tracker once, primary first, and
leaves everything but the trackers and the tracking state as it was. -/
theorem tracking_returned (e e2 : ITMMainEngine)
    (h : (ITMMainEngine.tracking e).result = .returned e2) :
    (∃ p s ts, e2 = { e with trackerPrimary := p, trackerSecondary := s, trackingState := ts } ∧
      p.isSome = e.trackerPrimary.isSome ∧ s.isSome = e.trackerSecondary.isSome) ∧
    trackedSlots (ITMMainEngine.tracking e).log
      = if e.hasStartedObjectReconstruction then e.configuredSlots else [] := by
  unfold ITMMainEngine.tracking at h ⊢
  split at h
  · rename_i hs
    rw [if_pos hs, if_pos hs]
    simp only [Traced.bind_result, Traced.bind_log, trackWith_log] at h ⊢
    cases hr1 : (ITMMainEngine.trackWith .primary e.trackerPrimary e.denseMapper e.trackingState
        e.view).result with
    | returned p =>
      rw [hr1] at h
      simp only [Exec.bind] at h
      cases hr2 : (ITMMainEngine.trackWith .secondary e.trackerSecondary e.denseMapper p.2
          e.view).result with
      | returned q =>
        rw [hr2] at h
        simp only [Traced.pure, Exec.returned.injEq] at h
        have h1 := trackWith_returned _ _ _ _ _ _ hr1
        have h2 := trackWith_returned _ _ _ _ _ _ hr2
        refine ⟨⟨p.1, q.1, q.2, h.symm, h1, h2⟩, ?_⟩
        simp only [hr2, Traced.pure, List.append_nil, trackedSlots_append,
          ITMMainEngine.configuredSlots]
        congr 1
        · split <;> simp [trackedSlots, Call.trackedSlot]
        · split <;> simp [trackedSlots, Call.trackedSlot]
      | thrown w => rw [hr2] at h; simp at h
      | undefined => rw [hr2] at h; simp at h
      | outOfFuel => rw [hr2] at h; simp at h
    | thrown w => rw [hr1] at h; simp [Exec.bind] at h
    | undefined => rw [hr1] at h; simp [Exec.bind] at h
    | outOfFuel => rw [hr1] at h; simp [Exec.bind] at h
  · rename_i hs
    simp only [Traced.pure, Exec.returned.injEq] at h
    subst h
    rw [if_neg hs, if_neg hs]
    exact ⟨⟨e.trackerPrimary, e.trackerSecondary, e.trackingState, rfl, rfl, rfl⟩, by
      simp [Traced.pure, trackedSlots]⟩


/-- A `ProcessFrame` call that returns: the flags and settings it leaves, and the calls it
made on the trackers and on the Dense Mapper. -/
theorem ProcessFrame_returned (K : Collaborators) (e e' : ITMMainEngine)
    (h : (ITMMainEngine.ProcessFrame K e).result = .returned e') :
    e'.hasStartedObjectReconstruction = true ∧ e'.fusionActive = e.fusionActive ∧
    e'.settings = e.settings ∧
    e'.trackerPrimary.isSome = e.trackerPrimary.isSome ∧
    e'.trackerSecondary.isSome = e.trackerSecondary.isSome ∧
    trackedSlots (ITMMainEngine.ProcessFrame K e).log
      = (if e.hasStartedObjectReconstruction then e.configuredSlots else []) ∧
    integrations (ITMMainEngine.ProcessFrame K e).log = (if e.fusionActive then 1 else 0) ∧
    raycasts (ITMMainEngine.ProcessFrame K e).log
      = (if e.settings.trackerType = .TRACKER_GROUND_TRUTH then 0 else 1) := by
  obtain ⟨settings, trackingState, view, denseMapper, lowLevelEngine, trackerPrimary,
    trackerSecondary, started, fusionActive⟩ := e
  obtain ⟨v0, h0⟩ := prepareImage_eq (ITMMainEngine.mk settings trackingState view denseMapper
    lowLevelEngine trackerPrimary trackerSecondary started fusionActive)
  obtain ⟨l1, v1, h1, t1, i1, r1⟩ := convertDepth_eq K (ITMMainEngine.mk settings trackingState
    v0 denseMapper lowLevelEngine trackerPrimary trackerSecondary started fusionActive)
  dsimp only at h0 h1
  unfold ITMMainEngine.ProcessFrame at h ⊢
  rw [h0, h1] at h ⊢
  simp only [Traced.bind_log, Traced.bind_result, Exec.bind] at h ⊢
  cases hr : (ITMMainEngine.tracking (ITMMainEngine.mk settings trackingState
    v1 denseMapper lowLevelEngine trackerPrimary trackerSecondary started fusionActive)).result with
  | returned e2 =>
    obtain ⟨⟨p, s, ts, he2, hp, hs⟩, htr⟩ := tracking_returned _ _ hr
    obtain ⟨hti, htrc⟩ := tracking_log_other (ITMMainEngine.mk settings trackingState
      v1 denseMapper lowLevelEngine trackerPrimary trackerSecondary started fusionActive)
    dsimp only at he2 hp hs htr
    subst he2
    obtain ⟨scene, hf⟩ := fusion_eq K (ITMMainEngine.mk settings ts
      v1 denseMapper lowLevelEngine p s started fusionActive)
    obtain ⟨l4, ts4, h4, t4, i4, r4⟩ := raycasting_eq K (ITMMainEngine.mk settings ts
      v1 scene lowLevelEngine p s started fusionActive)
    dsimp only at hf h4 r4
    rw [hr] at h
    simp only [hf, h4, Traced.pure, Exec.returned.injEq] at h ⊢
    subst h
    simp only [trackedSlots_append, integrations_append, raycasts_append, t1, i1, r1, htr, hti,
      htrc, t4, i4, r4]
    refine ⟨trivial, trivial, trivial, hp, hs, ?_, ?_, ?_⟩
    · cases fusionActive <;> simp [trackedSlots, ITMMainEngine.configuredSlots, Call.trackedSlot]
    · cases fusionActive <;> simp [integrations, Call.isIntegration]
    · cases fusionActive <;> simp [raycasts, Call.isRaycast]
  | thrown w => rw [hr] at h; simp at h
  | undefined => rw [hr] at h; simp at h
  | outOfFuel => rw [hr] at h; simp at h


/-- Whatever the outcome of a `ProcessFrame` call: before reconstruction has started it calls
no tracker and returns, and with the integration flag cleared it makes no integration call. -/
theorem ProcessFrame_always (K : Collaborators) (e : ITMMainEngine) :
    (e.hasStartedObjectReconstruction = false →
      trackedSlots (ITMMainEngine.ProcessFrame K e).log = [] ∧
      ∃ e', (ITMMainEngine.ProcessFrame K e).result = .returned e') ∧
    (e.fusionActive = false → integrations (ITMMainEngine.ProcessFrame K e).log = 0) := by
  obtain ⟨settings, trackingState, view, denseMapper, lowLevelEngine, trackerPrimary,
    trackerSecondary, started, fusionActive⟩ := e
  obtain ⟨v0, h0⟩ := prepareImage_eq (ITMMainEngine.mk settings trackingState view denseMapper
    lowLevelEngine trackerPrimary trackerSecondary started fusionActive)
  obtain ⟨l1, v1, h1, t1, i1, r1⟩ := convertDepth_eq K (ITMMainEngine.mk settings trackingState
    v0 denseMapper lowLevelEngine trackerPrimary trackerSecondary started fusionActive)
  dsimp only at h0 h1
  unfold ITMMainEngine.ProcessFrame
  rw [h0, h1]
  simp only [Traced.bind_log, Traced.bind_result, Exec.bind]
  obtain ⟨hti, htrc⟩ := tracking_log_other (ITMMainEngine.mk settings trackingState
    v1 denseMapper lowLevelEngine trackerPrimary trackerSecondary started fusionActive)
  constructor
  · intro hs
    subst hs
    have hpure := tracking_not_started (ITMMainEngine.mk settings trackingState
      v1 denseMapper lowLevelEngine trackerPrimary trackerSecondary false fusionActive) rfl
    obtain ⟨scene, hf⟩ := fusion_eq K (ITMMainEngine.mk settings trackingState
      v1 denseMapper lowLevelEngine trackerPrimary trackerSecondary false fusionActive)
    obtain ⟨l4, ts4, h4, t4, i4, r4⟩ := raycasting_eq K (ITMMainEngine.mk settings trackingState
      v1 scene lowLevelEngine trackerPrimary trackerSecondary false fusionActive)
    dsimp only at hf h4
    rw [hpure]
    simp only [Traced.pure, hf, h4, trackedSlots_append, t1, t4]
    constructor
    · cases fusionActive <;> simp [trackedSlots, Call.trackedSlot]
    · exact ⟨_, rfl⟩
  · intro hfa
    subst hfa
    cases hr : (ITMMainEngine.tracking (ITMMainEngine.mk settings trackingState
      v1 denseMapper lowLevelEngine trackerPrimary trackerSecondary started false)).result with
    | returned e2 =>
      obtain ⟨⟨p, s, ts, he2, hp, hs⟩, htr⟩ := tracking_returned _ _ hr
      dsimp only at he2
      subst he2
      obtain ⟨scene, hf⟩ := fusion_eq K (ITMMainEngine.mk settings ts
        v1 denseMapper lowLevelEngine p s started false)
      obtain ⟨l4, ts4, h4, t4, i4, r4⟩ := raycasting_eq K (ITMMainEngine.mk settings ts
        v1 scene lowLevelEngine p s started false)
      dsimp only at hf h4
      simp only [hf, h4, Traced.pure, integrations_append, i1, hti, i4]
      simp [integrations]
    | thrown w => simp only [integrations_append, i1, hti, List.append_nil]
    | undefined => simp only [integrations_append, i1, hti, List.append_nil]
    | outOfFuel => simp only [integrations_append, i1, hti, List.append_nil]

/-- The slots `ProcessFrame` calls only depend on which tracker pointers are null. -/
theorem configuredSlots_congr (e e' : ITMMainEngine)
    (hp : e'.trackerPrimary.isSome = e.trackerPrimary.isSome)
    (hs : e'.trackerSecondary.isSome = e.trackerSecondary.isSome) :
    e'.configuredSlots = e.configuredSlots := by
  simp [ITMMainEngine.configuredSlots, hp, hs]

/-- A series of calls that returns: one log per frame; the first call of an engine that has
not started reconstruction calls no tracker, every other call calls each configured tracker
once, primary first. -/
theorem ProcessFrames_trackedSlots (K : Collaborators) (frames : List FrameInput) :
    ∀ (e eN : ITMMainEngine), (ITMMainEngine.ProcessFrames K frames e).2 = .returned eN →
      (ITMMainEngine.ProcessFrames K frames e).1.map trackedSlots
        = (List.range frames.length).map fun i =>
            if i = 0 ∧ e.hasStartedObjectReconstruction = false then [] else e.configuredSlots := by
  induction frames with
  | nil => intro e eN _; rfl
  | cons input rest ih =>
    intro e eN h
    simp only [ITMMainEngine.ProcessFrames] at h ⊢
    cases hr : (ITMMainEngine.ProcessFrame K { e with view := input e.view }).result with
    | returned e1 =>
      rw [hr] at h
      simp only at h ⊢
      obtain ⟨hst, _, _, hp, hs, htr, _, _⟩ := ProcessFrame_returned K _ e1 hr
      have hcfg : e1.configuredSlots = e.configuredSlots := configuredSlots_congr _ _ hp hs
      have hcfg0 : ITMMainEngine.configuredSlots { e with view := input e.view }
          = e.configuredSlots := rfl
      dsimp only at hp hs htr
      simp only [List.map_cons, List.length_cons, List.range_succ_eq_map, List.map_map,
        ih e1 eN h]
      congr 1
      · rw [htr, hcfg0]
        cases e.hasStartedObjectReconstruction <;> simp
      · apply List.map_congr_left
        intro i _
        simp [hst, hcfg]
    | thrown w => rw [hr] at h; simp at h
    | undefined => rw [hr] at h; simp at h
    | outOfFuel => rw [hr] at h; simp at h

/-- With the integration flag cleared no call of a series integrates, whatever the outcome. -/
theorem ProcessFrames_integrations_off (K : Collaborators) (frames : List FrameInput) :
    ∀ (e : ITMMainEngine), e.fusionActive = false →
      integrations (ITMMainEngine.ProcessFrames K frames e).1.flatten = 0 := by
  induction frames with
  | nil => intro e _; rfl
  | cons input rest ih =>
    intro e hfa
    have hlog := (ProcessFrame_always K { e with view := input e.view }).2 hfa
    simp only [ITMMainEngine.ProcessFrames]
    cases hr : (ITMMainEngine.ProcessFrame K { e with view := input e.view }).result with
    | returned e1 =>
      obtain ⟨_, hfa1, _⟩ := ProcessFrame_returned K _ e1 hr
      have h1 : e1.fusionActive = false := by rw [hfa1]; exact hfa
      simp only [List.flatten_cons, integrations_append, hlog, ih e1 h1]
    | thrown w =>
      simp only [List.flatten_cons, List.flatten_nil, List.append_nil]
      exact hlog
    | undefined =>
      simp only [List.flatten_cons, List.flatten_nil, List.append_nil]
      exact hlog
    | outOfFuel =>
      simp only [List.flatten_cons, List.flatten_nil, List.append_nil]
      exact hlog

/-- C1. For every engine freshly built by the constructor, the first ProcessFrame call
invokes TrackCamera on no tracker, whatever the frame and whatever the outcome of the call;
and in every series of ProcessFrame calls that return, every call after the first invokes
TrackCamera exactly once on each configured (non-null) tracker, primary before secondary. -/
theorem ProcessFrame_tracks_from_second_call (K : Collaborators) (settings : ITMLibSettings)
    (calib : ITMRGBDCalib) (imgSize_rgb imgSize_d : Int × Int) :
    (∀ input : FrameInput,
      trackedSlots (ITMMainEngine.ProcessFrame K
        { ITMMainEngine.create K settings calib imgSize_rgb imgSize_d with
          view := input (ITMMainEngine.create K settings calib imgSize_rgb imgSize_d).view }).log
        = []) ∧
    (∀ (frames : List FrameInput) (eN : ITMMainEngine),
      (ITMMainEngine.ProcessFrames K frames
          (ITMMainEngine.create K settings calib imgSize_rgb imgSize_d)).2 = .returned eN →
      (ITMMainEngine.ProcessFrames K frames
          (ITMMainEngine.create K settings calib imgSize_rgb imgSize_d)).1.map trackedSlots
        = (List.range frames.length).map fun i =>
            if i = 0 then []
            else (ITMMainEngine.create K settings calib imgSize_rgb imgSize_d).configuredSlots) := by
  constructor
  · intro input
    exact ((ProcessFrame_always K _).1 rfl).1
  · intro frames eN h
    rw [ProcessFrames_trackedSlots K frames _ eN h]
    apply List.map_congr_left
    intro i _
    have h0 : (ITMMainEngine.create K settings calib imgSize_rgb
      imgSize_d).hasStartedObjectReconstruction = false := rfl
    simp [h0]

/-- C1 at a concrete input: three frames on the sample engine with two trackers. -/
theorem ProcessFrame_tracks_from_second_call_witness :
    (∃ eN, (ITMMainEngine.ProcessFrames sampleCollaborators [id, id, id]
        (sampleEngine .TRACKER_REN)).2 = .returned eN) ∧
    (ITMMainEngine.ProcessFrames sampleCollaborators [id, id, id]
        (sampleEngine .TRACKER_REN)).1.map trackedSlots
      = [[], [.primary, .secondary], [.primary, .secondary]] :=
  ⟨⟨_, rfl⟩,
    (ProcessFrame_tracks_from_second_call sampleCollaborators
      { useGPU := false, trackerType := .TRACKER_REN, skipPoints := 2 } sampleCalib (640, 480)
      (-1, -1)).2 [id, id, id] _ rfl⟩

/-- C4. After turnOffIntegration, for every number of frames and every configuration, the
ProcessFrame calls of a series make no call to the Dense Mapper's integration operation, the
first (bootstrap) frame included, whatever the outcome of the calls. -/
theorem turnOffIntegration_never_integrates (K : Collaborators) (e : ITMMainEngine)
    (frames : List FrameInput) :
    integrations (ITMMainEngine.ProcessFrames K frames e.turnOffIntegration).1.flatten = 0 :=
  ProcessFrames_integrations_off K frames e.turnOffIntegration rfl

/-- C5 fails as stated: with the ground-truth tracker type configured, a ProcessFrame call
returns without any raycast request (the switch has no case for that type). -/
theorem ProcessFrame_ground_truth_type_no_raycast :
    (∃ e', (ITMMainEngine.ProcessFrame sampleCollaborators
        (sampleEngine .TRACKER_GROUND_TRUTH)).result = .returned e') ∧
    raycasts (ITMMainEngine.ProcessFrame sampleCollaborators
        (sampleEngine .TRACKER_GROUND_TRUTH)).log = 0 :=
  ⟨⟨_, rfl⟩, rfl⟩

/-- C5, amended. When the configured tracker type is TRACKER_ICP, TRACKER_REN or
TRACKER_COLOR, every ProcessFrame call that returns has issued exactly one raycast request
to the Dense Mapper, whether or not the engine is bootstrapped and whether or not integration
is enabled; on an engine that is not bootstrapped the call always returns. -/
theorem ProcessFrame_raycasts_once (K : Collaborators) (e : ITMMainEngine)
    (htype : e.settings.trackerType ≠ .TRACKER_GROUND_TRUTH) :
    (∀ e', (ITMMainEngine.ProcessFrame K e).result = .returned e' →
      raycasts (ITMMainEngine.ProcessFrame K e).log = 1) ∧
    (e.hasStartedObjectReconstruction = false →
      (∃ e', (ITMMainEngine.ProcessFrame K e).result = .returned e') ∧
      raycasts (ITMMainEngine.ProcessFrame K e).log = 1) := by
  have h1 : ∀ e', (ITMMainEngine.ProcessFrame K e).result = .returned e' →
      raycasts (ITMMainEngine.ProcessFrame K e).log = 1 := by
    intro e' h
    obtain ⟨_, _, _, _, _, _, _, hr⟩ := ProcessFrame_returned K e e' h
    rw [hr, if_neg htype]
  refine ⟨h1, fun hs => ?_⟩
  obtain ⟨e', he'⟩ := ((ProcessFrame_always K e).1 hs).2
  exact ⟨⟨e', he'⟩, h1 e' he'⟩

/-- C5 amended, at a concrete input: the first call of the sample engine of type ICP. -/
theorem ProcessFrame_raycasts_once_witness :
    (sampleEngine .TRACKER_ICP).settings.trackerType ≠ .TRACKER_GROUND_TRUTH ∧
    (∃ e', (ITMMainEngine.ProcessFrame sampleCollaborators
        (sampleEngine .TRACKER_ICP)).result = .returned e') ∧
    raycasts (ITMMainEngine.ProcessFrame sampleCollaborators (sampleEngine .TRACKER_ICP)).log = 1 :=
  ⟨by decide,
    (ProcessFrame_raycasts_once sampleCollaborators (sampleEngine .TRACKER_ICP) (by decide)).2 rfl⟩

/-- C10. For every engine state, output image, caller-supplied pose, intrinsics and colour
flag, GetImage in the free-viewpoint mode returns with the engine unchanged, in particular
with the pose and the cached rendering of the tracking state as they were; its only call is
the Dense Mapper's GetRendering and only the output image is written, with its result. -/
theorem GetImage_freecamera_leaves_trackingState (K : Collaborators) (e : ITMMainEngine)
    (out : ITMImage) (useColour : Bool) (pose : ITMPose) (intrinsics : ITMIntrinsics) :
    ∃ e' out',
      ITMMainEngine.GetImage K e out .InfiniTAM_IMAGE_SCENERAYCAST_FREECAMERA useColour pose
          intrinsics
        = { log := [.GetRendering pose intrinsics useColour], result := .returned (e', out') } ∧
      e'.trackingState.pose_d = e.trackingState.pose_d ∧
      e'.trackingState.rendering = e.trackingState.rendering ∧
      e' = e ∧
      out' = K.GetRendering e.denseMapper pose intrinsics useColour out.Clear :=
  ⟨e, K.GetRendering e.denseMapper pose intrinsics useColour out.Clear, rfl, rfl, rfl, rfl, rfl⟩

theorem trackCalls_append (l1 l2 : List Call) :
    trackCalls (l1 ++ l2) = trackCalls l1 ++ trackCalls l2 := by
  simp [trackCalls]

/-- A log without tracker slots holds no `TrackCamera` call. -/
theorem trackCalls_eq_nil (l : List Call) (h : trackedSlots l = []) : trackCalls l = [] := by
  simp only [trackedSlots, List.filterMap_eq_nil_iff] at h
  simp only [trackCalls, List.filter_eq_nil_iff]
  intro c hc
  simp [h c hc]

/-- C6. On a ProcessFrame call of a bootstrapped engine with a primary and a secondary
tracker (e1 is the engine as the call hands it to the tracking block, after the View has
been prepared), when the primary's TrackCamera returns the tracking state ts1 and the
secondary's TrackCamera, run on ts1, returns ts2: the tracking block calls the primary
first, on the tracking state from before tracking, then the secondary on exactly ts1, and
leaves ts2, the secondary's result on the primary's result, as the tracking state; these two
are the only TrackCamera calls of the ProcessFrame call, which returns. -/
theorem trackers_compose_sequentially (K : Collaborators) (e e1 : ITMMainEngine)
    (p s : ITMTracker) (p' : p.State) (s' : s.State) (ts1 ts2 : ITMTrackingState)
    (hconv : (ITMMainEngine.convertDepth K e.prepareImage).result = .returned e1)
    (hstarted : e.hasStartedObjectReconstruction = true)
    (hp : e.trackerPrimary = some p) (hs : e.trackerSecondary = some s)
    (h1 : p.TrackCamera p.self e.denseMapper e.trackingState e1.view = .returned (p', ts1))
    (h2 : s.TrackCamera s.self e.denseMapper ts1 e1.view = .returned (s', ts2)) :
    ITMMainEngine.tracking e1
      = { log := [.TrackCamera .primary e.trackingState e1.view,
                  .TrackCamera .secondary ts1 e1.view],
          result := .returned
            { e1 with trackerPrimary := some { p with self := p' },
                      trackerSecondary := some { s with self := s' },
                      trackingState := ts2 } } ∧
    trackCalls (ITMMainEngine.ProcessFrame K e).log
      = [.TrackCamera .primary e.trackingState e1.view, .TrackCamera .secondary ts1 e1.view] ∧
    ∃ e', (ITMMainEngine.ProcessFrame K e).result = .returned e' := by
  obtain ⟨settings, trackingState, view, denseMapper, lowLevelEngine, trackerPrimary,
    trackerSecondary, started, fusionActive⟩ := e
  dsimp only at hstarted hp hs h1 h2
  subst hstarted hp hs
  obtain ⟨v0, h0⟩ := prepareImage_eq (ITMMainEngine.mk settings trackingState view denseMapper
    lowLevelEngine (some p) (some s) true fusionActive)
  obtain ⟨l1, v1, hc, t1, i1, r1⟩ := convertDepth_eq K (ITMMainEngine.mk settings trackingState
    v0 denseMapper lowLevelEngine (some p) (some s) true fusionActive)
  dsimp only at h0 hc
  rw [h0, hc] at hconv
  simp only [Exec.returned.injEq] at hconv
  subst hconv
  dsimp only at h1 h2
  have htrack : ITMMainEngine.tracking (ITMMainEngine.mk settings trackingState v1 denseMapper
      lowLevelEngine (some p) (some s) true fusionActive)
      = { log := [.TrackCamera .primary trackingState v1, .TrackCamera .secondary ts1 v1],
          result := .returned (ITMMainEngine.mk settings ts2 v1 denseMapper lowLevelEngine
            (some { p with self := p' }) (some { s with self := s' }) true fusionActive) } := by
    simp [ITMMainEngine.tracking, ITMMainEngine.trackWith, Traced.bind, Traced.pure, h1, h2]
  refine ⟨htrack, ?_, ?_⟩
  · obtain ⟨scene, hf⟩ := fusion_eq K (ITMMainEngine.mk settings ts2 v1 denseMapper
      lowLevelEngine (some { p with self := p' }) (some { s with self := s' }) true fusionActive)
    obtain ⟨l4, ts4, h4, t4, i4, r4⟩ := raycasting_eq K (ITMMainEngine.mk settings ts2 v1 scene
      lowLevelEngine (some { p with self := p' }) (some { s with self := s' }) true fusionActive)
    dsimp only at hf h4
    unfold ITMMainEngine.ProcessFrame
    rw [h0, hc]
    simp only [Traced.bind_log, htrack, hf, h4, Traced.pure, trackCalls_append,
      trackCalls_eq_nil l1 t1, trackCalls_eq_nil l4 t4, List.append_nil, List.nil_append]
    cases fusionActive <;> simp [trackCalls, Call.trackedSlot]
  · obtain ⟨scene, hf⟩ := fusion_eq K (ITMMainEngine.mk settings ts2 v1 denseMapper
      lowLevelEngine (some { p with self := p' }) (some { s with self := s' }) true fusionActive)
    obtain ⟨l4, ts4, h4, t4, i4, r4⟩ := raycasting_eq K (ITMMainEngine.mk settings ts2 v1 scene
      lowLevelEngine (some { p with self := p' }) (some { s with self := s' }) true fusionActive)
    dsimp only at hf h4
    unfold ITMMainEngine.ProcessFrame
    rw [h0, hc]
    simp only [Traced.bind_result, htrack, hf, h4, Traced.pure, Exec.bind]
    exact ⟨_, rfl⟩

/-- C6 at a concrete input: the sample engine with two counting trackers, bootstrapped. The
secondary is handed the point cloud the primary has written to. -/
theorem trackers_compose_sequentially_witness :
    (sampleStartedEngine.hasStartedObjectReconstruction = true ∧
      sampleStartedEngine.trackerPrimary.isSome = true ∧
      sampleStartedEngine.trackerSecondary.isSome = true) ∧
    trackCalls (ITMMainEngine.ProcessFrame sampleCollaborators sampleStartedEngine).log
      = [.TrackCamera .primary
           { pose_d := .params 0 0 0 0 0 0, rendering := sampleImage, pointCloud := [] }
           sampleView,
         .TrackCamera .secondary
           { pose_d := .params 0 0 0 0 0 0, rendering := sampleImage, pointCloud := [0] }
           sampleView] :=
  ⟨⟨rfl, rfl, rfl⟩,
    (trackers_compose_sequentially sampleCollaborators sampleStartedEngine sampleStartedEngine
      countingTracker countingTracker (1 : Nat) (1 : Nat)
      { pose_d := .params 0 0 0 0 0 0, rendering := sampleImage, pointCloud := [((0 : Nat) : ℚ)] }
      { pose_d := .params 0 0 0 0 0 0, rendering := sampleImage,
        pointCloud := [((0 : Nat) : ℚ), ((0 : Nat) : ℚ)] }
      rfl rfl rfl rfl rfl rfl).2.1⟩

/-! ## Properties: the trajectory is read-only, bottom rows -/

/-- A `TrackCamera` call that returns leaves the trajectory as it was and moves the cursor on
by one. -/
theorem TrackCamera_returned (g : ITMGroundTruthTracker) (ts : ITMTrackingState)
    (view : ITMView) (r : ITMGroundTruthTracker × ITMTrackingState)
    (h : g.TrackCamera ts view = .returned r) :
    r.1.groundTruthPoses = g.groundTruthPoses ∧ r.1.currentFrame = g.currentFrame + 1 ∧
    ∃ entry, vectorAt g.groundTruthPoses (g.currentFrame + 1) = some entry ∧
      r.2 = { ts with pose_d := ITMPose.inverse (scaledEntry entry) } := by
  unfold ITMGroundTruthTracker.TrackCamera at h
  simp only at h
  cases hv : vectorAt g.groundTruthPoses (g.currentFrame + 1) with
  | none => rw [hv] at h; simp at h
  | some entry =>
    rw [hv] at h
    simp only [Exec.returned.injEq] at h
    subst h
    exact ⟨rfl, rfl, entry, rfl, rfl⟩

/-- A series of `TrackCamera` calls that returns leaves the trajectory as it was. -/
theorem afterCalls_keeps_trajectory (calls : List (ITMTrackingState × ITMView)) :
    ∀ (g g' : ITMGroundTruthTracker), g.afterCalls calls = .returned g' →
      g'.groundTruthPoses = g.groundTruthPoses := by
  induction calls with
  | nil =>
    intro g g' h
    simp only [ITMGroundTruthTracker.afterCalls, Exec.returned.injEq] at h
    rw [← h]
  | cons c rest ih =>
    intro g g' h
    simp only [ITMGroundTruthTracker.afterCalls] at h
    cases hr : g.TrackCamera c.1 c.2 with
    | returned r =>
      rw [hr] at h
      rw [ih r.1 g' h, (TrackCamera_returned g c.1 c.2 r hr).1]
    | thrown w => rw [hr] at h; simp at h
    | undefined => rw [hr] at h; simp at h
    | outOfFuel => rw [hr] at h; simp at h

/-- The single-tracker statement on a tracker that is there: when it returns, the tracker's
`TrackCamera` returned, the slot holds the tracker with its new state, and the tracking state
is the one the tracker left. -/
theorem trackWith_some_returned (slot : TrackerSlot) (t : ITMTracker) (scene : ITMScene)
    (ts : ITMTrackingState) (view : ITMView) (q : Option ITMTracker × ITMTrackingState)
    (h : (ITMMainEngine.trackWith slot (some t) scene ts view).result = .returned q) :
    ∃ r, t.TrackCamera t.self scene ts view = .returned r ∧
      q = (some { t with self := r.1 }, r.2) := by
  simp only [ITMMainEngine.trackWith] at h
  cases hr : t.TrackCamera t.self scene ts view with
  | returned r =>
    rw [hr] at h
    simp only [Exec.returned.injEq] at h
    exact ⟨r, rfl, h.symm⟩
  | thrown w => rw [hr] at h; simp at h
  | undefined => rw [hr] at h; simp at h
  | outOfFuel => rw [hr] at h; simp at h

/-- The single-tracker statement on a null pointer changes nothing. -/
theorem trackWith_none (slot : TrackerSlot) (scene : ITMScene) (ts : ITMTrackingState)
    (view : ITMView) :
    ITMMainEngine.trackWith slot none scene ts view = Traced.pure (none, ts) := rfl

/-- What a returning tracking block did to each tracker slot of a bootstrapped engine: a
tracker that is there was run once and is kept with its new state. -/
theorem tracking_trackers (e e2 : ITMMainEngine)
    (hs : e.hasStartedObjectReconstruction = true)
    (h : (ITMMainEngine.tracking e).result = .returned e2) :
    (∀ t, e.trackerPrimary = some t →
      ∃ r, t.TrackCamera t.self e.denseMapper e.trackingState e.view = .returned r ∧
        e2.trackerPrimary = some { t with self := r.1 }) ∧
    (∀ t, e.trackerSecondary = some t →
      ∃ ts1 r, t.TrackCamera t.self e.denseMapper ts1 e.view = .returned r ∧
        e2.trackerSecondary = some { t with self := r.1 }) := by
  unfold ITMMainEngine.tracking at h
  rw [if_pos hs] at h
  simp only [Traced.bind_result] at h
  cases hr1 : (ITMMainEngine.trackWith .primary e.trackerPrimary e.denseMapper e.trackingState
      e.view).result with
  | returned p =>
    rw [hr1] at h
    simp only [Exec.bind] at h
    cases hr2 : (ITMMainEngine.trackWith .secondary e.trackerSecondary e.denseMapper p.2
        e.view).result with
    | returned q =>
      rw [hr2] at h
      simp only [Traced.pure, Exec.returned.injEq] at h
      subst h
      constructor
      · intro t ht
        rw [ht] at hr1
        obtain ⟨r, hr, hp⟩ := trackWith_some_returned _ _ _ _ _ _ hr1
        exact ⟨r, hr, by rw [hp]⟩
      · intro t ht
        rw [ht] at hr2
        obtain ⟨r, hr, hq⟩ := trackWith_some_returned _ _ _ _ _ _ hr2
        exact ⟨p.2, r, hr, by rw [hq]⟩
    | thrown w => rw [hr2] at h; simp at h
    | undefined => rw [hr2] at h; simp at h
    | outOfFuel => rw [hr2] at h; simp at h
  | thrown w => rw [hr1] at h; simp [Exec.bind] at h
  | undefined => rw [hr1] at h; simp [Exec.bind] at h
  | outOfFuel => rw [hr1] at h; simp [Exec.bind] at h

/-! ## Properties: the calls of one `ProcessFrame`, in order -/

/-- The raycast block with the request it makes spelled out. -/
theorem raycasting_explicit (K : Collaborators) (e : ITMMainEngine) :
    ∃ ts, ITMMainEngine.raycasting K e
      = { log :=
            (match e.settings.trackerType with
             | .TRACKER_ICP =>
               [.GetICPMaps e.trackingState.pose_d e.view.calib.intrinsics_d e.view
                  e.trackingState]
             | .TRACKER_REN =>
               [.GetICPMaps e.trackingState.pose_d e.view.calib.intrinsics_d e.view
                  e.trackingState]
             | .TRACKER_COLOR =>
               [.GetPointCloud
                  (.modelview (K.matrixMul e.view.calib.trafo_rgb_to_depth.calib_inv
                    (K.GetM e.trackingState.pose_d)))
                  e.view.calib.intrinsics_rgb e.view e.trackingState e.settings.skipPoints]
             | .TRACKER_GROUND_TRUTH => []),
          result := .returned { e with trackingState := ts } } := by
  unfold ITMMainEngine.raycasting
  cases h : e.settings.trackerType <;> exact ⟨_, rfl⟩

/-- A `ProcessFrame` call whose tracking block returns (e1 is the engine after the View has
been prepared, e2 the engine the tracking block leaves): the call returns, keeps the trackers
of e2, the settings and the integration flag, marks the engine as started, and its calls are
the conversion calls, then the tracker calls, then the integration call (if the flag is set)
at the pose of e2, then the raycast request chosen by the tracker type, built from the
tracking state of e2. -/
theorem ProcessFrame_steps (K : Collaborators) (e e1 e2 : ITMMainEngine)
    (hconv : (ITMMainEngine.convertDepth K e.prepareImage).result = .returned e1)
    (htrack : (ITMMainEngine.tracking e1).result = .returned e2) :
    ∃ e', (ITMMainEngine.ProcessFrame K e).result = .returned e' ∧
      e'.trackerPrimary = e2.trackerPrimary ∧ e'.trackerSecondary = e2.trackerSecondary ∧
      e'.settings = e.settings ∧ e'.fusionActive = e.fusionActive ∧
      e'.hasStartedObjectReconstruction = true ∧
      (ITMMainEngine.ProcessFrame K e).log
        = (ITMMainEngine.convertDepth K e.prepareImage).log ++ (ITMMainEngine.tracking e1).log ++
          (if e.fusionActive then [.DenseMapperProcessFrame e1.view e2.trackingState.pose_d]
           else []) ++
          (match e.settings.trackerType with
           | .TRACKER_ICP =>
             [.GetICPMaps e2.trackingState.pose_d e1.view.calib.intrinsics_d e1.view
                e2.trackingState]
           | .TRACKER_REN =>
             [.GetICPMaps e2.trackingState.pose_d e1.view.calib.intrinsics_d e1.view
                e2.trackingState]
           | .TRACKER_COLOR =>
             [.GetPointCloud
                (.modelview (K.matrixMul e1.view.calib.trafo_rgb_to_depth.calib_inv
                  (K.GetM e2.trackingState.pose_d)))
                e1.view.calib.intrinsics_rgb e1.view e2.trackingState e.settings.skipPoints]
           | .TRACKER_GROUND_TRUTH => []) := by
  obtain ⟨settings, trackingState, view, denseMapper, lowLevelEngine, trackerPrimary,
    trackerSecondary, started, fusionActive⟩ := e
  obtain ⟨v0, h0⟩ := prepareImage_eq (ITMMainEngine.mk settings trackingState view denseMapper
    lowLevelEngine trackerPrimary trackerSecondary started fusionActive)
  obtain ⟨l1, v1, h1, _, _, _⟩ := convertDepth_eq K (ITMMainEngine.mk settings trackingState
    v0 denseMapper lowLevelEngine trackerPrimary trackerSecondary started fusionActive)
  dsimp only at h0 h1
  rw [h0, h1] at hconv
  simp only [Exec.returned.injEq] at hconv
  subst hconv
  obtain ⟨⟨p, s, ts, he2, _, _⟩, _⟩ := tracking_returned _ _ htrack
  dsimp only at he2
  subst he2
  obtain ⟨scene, hf⟩ := fusion_eq K (ITMMainEngine.mk settings ts v1 denseMapper
    lowLevelEngine p s started fusionActive)
  obtain ⟨ts4, h4⟩ := raycasting_explicit K (ITMMainEngine.mk settings ts v1 scene
    lowLevelEngine p s started fusionActive)
  dsimp only at hf h4
  unfold ITMMainEngine.ProcessFrame
  rw [h0, h1]
  simp only [Traced.bind_log, Traced.bind_result, Exec.bind, htrack, hf, h4, Traced.pure,
    List.append_nil, List.append_assoc]
  exact ⟨_, rfl, rfl, rfl, rfl, rfl, rfl, trivial⟩

/-- A `ProcessFrame` call that returns went through a conversion block and a tracking block
that returned; the conversion block left everything but the View as it was, and the trackers
after the call are those the tracking block left. -/
theorem ProcessFrame_returned_steps (K : Collaborators) (e e' : ITMMainEngine)
    (h : (ITMMainEngine.ProcessFrame K e).result = .returned e') :
    ∃ e1 e2, (ITMMainEngine.convertDepth K e.prepareImage).result = .returned e1 ∧
      (ITMMainEngine.tracking e1).result = .returned e2 ∧
      e1.trackerPrimary = e.trackerPrimary ∧ e1.trackerSecondary = e.trackerSecondary ∧
      e1.hasStartedObjectReconstruction = e.hasStartedObjectReconstruction ∧
      e1.denseMapper = e.denseMapper ∧ e1.trackingState = e.trackingState ∧
      e'.trackerPrimary = e2.trackerPrimary ∧ e'.trackerSecondary = e2.trackerSecondary := by
  obtain ⟨v0, h0⟩ := prepareImage_eq e
  obtain ⟨l1, v1, h1, _, _, _⟩ := convertDepth_eq K { e with view := v0 }
  have hconv : (ITMMainEngine.convertDepth K e.prepareImage).result
      = .returned { e with view := v1 } := by
    rw [h0, h1]
  cases htrack : (ITMMainEngine.tracking { e with view := v1 }).result with
  | returned e2 =>
    obtain ⟨e'', hres, hp, hs, _⟩ := ProcessFrame_steps K e _ e2 hconv htrack
    rw [hres] at h
    simp only [Exec.returned.injEq] at h
    subst h
    exact ⟨_, e2, hconv, htrack, rfl, rfl, rfl, rfl, rfl, hp, hs⟩
  | thrown w =>
    exfalso
    unfold ITMMainEngine.ProcessFrame at h
    simp [Traced.bind_result, hconv, htrack, Exec.bind] at h
  | undefined =>
    exfalso
    unfold ITMMainEngine.ProcessFrame at h
    simp [Traced.bind_result, hconv, htrack, Exec.bind] at h
  | outOfFuel =>
    exfalso
    unfold ITMMainEngine.ProcessFrame at h
    simp [Traced.bind_result, hconv, htrack, Exec.bind] at h

/-- C11. The loaded trajectory is never mutated: every TrackCamera call that returns, and
every series of such calls, leaves groundTruthPoses equal to what it was (the scaling by 0.1
is applied to the local copy M of the entry, the stored entry stays as recorded); hence
after every ProcessFrame call that returns, a ground-truth tracker held by the engine, as
primary or as secondary tracker, still has the trajectory it had before the call. -/
theorem TrackCamera_never_mutates_trajectory :
    (∀ (g : ITMGroundTruthTracker) (ts : ITMTrackingState) (view : ITMView)
        (r : ITMGroundTruthTracker × ITMTrackingState),
      g.TrackCamera ts view = .returned r → r.1.groundTruthPoses = g.groundTruthPoses) ∧
    (∀ (g g' : ITMGroundTruthTracker) (calls : List (ITMTrackingState × ITMView)),
      g.afterCalls calls = .returned g' → g'.groundTruthPoses = g.groundTruthPoses) ∧
    (∀ (K : Collaborators) (e e' : ITMMainEngine) (g : ITMGroundTruthTracker),
      (ITMMainEngine.ProcessFrame K e).result = .returned e' →
      (e.trackerPrimary = some g.toTracker →
        ∃ g', e'.trackerPrimary = some (ITMGroundTruthTracker.toTracker g') ∧
          g'.groundTruthPoses = g.groundTruthPoses) ∧
      (e.trackerSecondary = some g.toTracker →
        ∃ g', e'.trackerSecondary = some (ITMGroundTruthTracker.toTracker g') ∧
          g'.groundTruthPoses = g.groundTruthPoses)) := by
  refine ⟨fun g ts view r h => (TrackCamera_returned g ts view r h).1,
    fun g g' calls h => afterCalls_keeps_trajectory calls g g' h, ?_⟩
  intro K e e' g h
  obtain ⟨e1, e2, _, htrack, hp1, hs1, hst1, _, _, hp', hs'⟩ :=
    ProcessFrame_returned_steps K e e' h
  cases hst : e.hasStartedObjectReconstruction with
  | false =>
    have hpure := tracking_not_started e1 (by rw [hst1, hst])
    rw [hpure] at htrack
    simp only [Traced.pure, Exec.returned.injEq] at htrack
    subst htrack
    exact ⟨fun hg => ⟨g, by rw [hp', hp1, hg], rfl⟩, fun hg => ⟨g, by rw [hs', hs1, hg], rfl⟩⟩
  | true =>
    obtain ⟨hP, hS⟩ := tracking_trackers e1 e2 (by rw [hst1, hst]) htrack
    constructor
    · intro hg
      obtain ⟨r, hr, hp2⟩ := hP g.toTracker (by rw [hp1, hg])
      exact ⟨r.1, by rw [hp', hp2]; rfl,
        (TrackCamera_returned g e1.trackingState e1.view r hr).1⟩
    · intro hg
      obtain ⟨ts1, r, hr, hs2⟩ := hS g.toTracker (by rw [hs1, hg])
      exact ⟨r.1, by rw [hs', hs2]; rfl, (TrackCamera_returned g ts1 e1.view r hr).1⟩

/-- C11 at a concrete input: a TrackCamera call on the sample trajectory, and a ProcessFrame
call of the bootstrapped sample engine that holds the ground-truth tracker. -/
theorem TrackCamera_never_mutates_trajectory_witness :
    (∃ r, ITMGroundTruthTracker.TrackCamera
        { currentFrame := 0, groundTruthPoses := sampleTrajectory } sampleTrackingState sampleView
          = .returned r ∧ r.1.groundTruthPoses = sampleTrajectory) ∧
    (∃ e', (ITMMainEngine.ProcessFrame sampleCollaborators
        sampleStartedGroundTruthEngine).result = .returned e' ∧
      ∃ g', e'.trackerPrimary = some (ITMGroundTruthTracker.toTracker g') ∧
        g'.groundTruthPoses = sampleTrajectory) :=
  ⟨⟨_, rfl, TrackCamera_never_mutates_trajectory.1
      { currentFrame := 0, groundTruthPoses := sampleTrajectory } sampleTrackingState sampleView
      _ rfl⟩,
    ⟨_, rfl, (TrackCamera_never_mutates_trajectory.2.2 sampleCollaborators
      sampleStartedGroundTruthEngine _
      { currentFrame := 0, groundTruthPoses := sampleTrajectory } rfl).1 rfl⟩⟩

/-- The pose stored by one pass of the reading loop has bottom row 0 0 0 1, whatever the
stream and whatever the matrix held before. -/
theorem readPose_bottom_row (s : ifstream) (pose : Matrix4f) :
    (readPose s pose).2.row 3 = [0, 0, 0, 1] := rfl

/-- The loop only ever adds poses with bottom row 0 0 0 1. -/
theorem readLoop_bottom_row (uninit : Nat → Matrix4f) (fuel : Nat) :
    ∀ (s : ifstream) (acc poses : List Matrix4f),
      (∀ M ∈ acc, M.row 3 = [0, 0, 0, 1]) → readLoop uninit fuel s acc = .returned poses →
      ∀ M ∈ poses, M.row 3 = [0, 0, 0, 1] := by
  induction fuel with
  | zero => intro s acc poses _ h; simp [readLoop] at h
  | succ n ih =>
    intro s acc poses hacc h
    rw [readLoop] at h
    split at h
    · simp only [Exec.returned.injEq] at h
      rw [← h]
      exact hacc
    · refine ih _ _ poses ?_ h
      intro M hM
      rcases List.mem_append.mp hM with hM | hM
      · exact hacc M hM
      · rw [List.mem_singleton.mp hM]
        exact readPose_bottom_row _ _

/-- Every pose of a trajectory the reader returns has bottom row 0 0 0 1. -/
theorem readKittiOdometryPoses_bottom_row (fs : FileSystem) (uninit : Nat → Matrix4f)
    (fuel : Nat) (path : String) (poses : List Matrix4f)
    (h : readKittiOdometryPoses fs uninit fuel path = .returned poses) :
    ∀ M ∈ poses, M.row 3 = [0, 0, 0, 1] := by
  unfold readKittiOdometryPoses at h
  cases hfs : fs path with
  | none => rw [hfs] at h; simp at h
  | some text =>
    rw [hfs] at h
    exact readLoop_bottom_row uninit fuel _ [] poses (by simp) h

/-- An entry the unchecked access yields is an entry of the vector. -/
theorem vectorAt_mem (v : List Matrix4f) (i : Int) (entry : Matrix4f)
    (h : vectorAt v i = some entry) : entry ∈ v := by
  unfold vectorAt at h
  split at h
  · exact List.getElem?_mem h
  · simp at h

/-- C12. Every pose of the trajectory that readKittiOdometryPoses returns, for every file
content, has bottom row exactly [0,0,0,1] (m03 = m13 = m23 = 0 and m33 = 1), and so has every
pose that TrackCamera installs on the tracking state, on a tracker constructed from a pose
file, after any number of earlier calls. -/
theorem bottom_row_is_0_0_0_1 (fs : FileSystem) (uninit : Nat → Matrix4f) (fuel : Nat)
    (path : String) :
    (∀ poses, readKittiOdometryPoses fs uninit fuel path = .returned poses →
      ∀ M ∈ poses, M.m03 = 0 ∧ M.m13 = 0 ∧ M.m23 = 0 ∧ M.m33 = 1) ∧
    (∀ (g0 g : ITMGroundTruthTracker) (earlier : List (ITMTrackingState × ITMView))
        (ts : ITMTrackingState) (view : ITMView) (r : ITMGroundTruthTracker × ITMTrackingState),
      ITMGroundTruthTracker.create fs uninit fuel path = .returned g0 →
      g0.afterCalls earlier = .returned g →
      g.TrackCamera ts view = .returned r →
      ∃ M, r.2.pose_d = ITMPose.inverse M ∧ M.m03 = 0 ∧ M.m13 = 0 ∧ M.m23 = 0 ∧ M.m33 = 1) := by
  have hrow : ∀ M : Matrix4f, M.row 3 = [0, 0, 0, 1] →
      M.m03 = 0 ∧ M.m13 = 0 ∧ M.m23 = 0 ∧ M.m33 = 1 := by
    intro M hM
    simpa [Matrix4f.row] using hM
  constructor
  · intro poses h M hM
    exact hrow M (readKittiOdometryPoses_bottom_row fs uninit fuel path poses h M hM)
  · intro g0 g earlier ts view r hload hcalls hcall
    obtain ⟨poses, hposes, hg0⟩ := Exec.bind_returned _ _ _ hload
    simp only [Exec.returned.injEq] at hg0
    have hall := readKittiOdometryPoses_bottom_row fs uninit fuel path poses hposes
    have hkeep := afterCalls_keeps_trajectory earlier g0 g hcalls
    obtain ⟨_, _, entry, hentry, hr2⟩ := TrackCamera_returned g ts view r hcall
    have hmem : entry ∈ poses := by
      have := vectorAt_mem _ _ _ hentry
      rw [hkeep, ← hg0] at this
      exact this
    refine ⟨scaledEntry entry, by rw [hr2], ?_⟩
    exact hrow entry (hall entry hmem)

/-- C12 at a concrete input: the file `one_nl.txt`, whose closing newline adds a pose that was
never read from the file, and the second call on the tracker constructed from `three.txt`. -/
theorem bottom_row_is_0_0_0_1_witness :
    (∃ poses, readKittiOdometryPoses sampleFiles (fun _ => sampleGarbage) 3 "one_nl.txt"
        = .returned poses ∧ poses.length = 2 ∧
      ∀ M ∈ poses, M.m03 = 0 ∧ M.m13 = 0 ∧ M.m23 = 0 ∧ M.m33 = 1) ∧
    (∃ r, ITMGroundTruthTracker.TrackCamera
        { currentFrame := 1, groundTruthPoses := sampleTrajectory } sampleTrackingState sampleView
          = .returned r ∧
      ∃ M, r.2.pose_d = ITMPose.inverse M ∧ M.m03 = 0 ∧ M.m13 = 0 ∧ M.m23 = 0 ∧ M.m33 = 1) :=
  ⟨⟨_, readKittiOdometryPoses_one_nl _, rfl,
      (bottom_row_is_0_0_0_1 sampleFiles (fun _ => sampleGarbage) 3 "one_nl.txt").1 _
        (readKittiOdometryPoses_one_nl _)⟩,
    ⟨_, rfl,
      (bottom_row_is_0_0_0_1 sampleFiles (fun _ => sampleGarbage) 4 "three.txt").2
        { currentFrame := 0, groundTruthPoses := sampleTrajectory }
        { currentFrame := 1, groundTruthPoses := sampleTrajectory }
        [(sampleTrackingState, sampleView)] sampleTrackingState sampleView _
        (by decide!) rfl rfl⟩⟩

/-- The tracking block only calls trackers. -/
theorem tracking_log_all_track (e : ITMMainEngine) :
    trackCalls (ITMMainEngine.tracking e).log = (ITMMainEngine.tracking e).log ∧
    conversionCalls (ITMMainEngine.tracking e).log = [] := by
  unfold ITMMainEngine.tracking
  split
  · simp only [Traced.bind_log, trackWith_log]
    constructor <;> repeat' split
    all_goals simp [trackCalls, conversionCalls, Call.trackedSlot, Call.isConversion, Traced.pure]
  · simp [Traced.pure, trackCalls, conversionCalls]

/-- The conversion block with the call it makes spelled out. -/
theorem convertDepth_log (K : Collaborators) (e : ITMMainEngine) :
    (ITMMainEngine.convertDepth K e).log
      = (match e.view.inputImageType with
         | .InfiniTAM_DISPARITY_IMAGE =>
           [.ConvertDisparityToDepth e.view.rawDepth e.view.calib.intrinsics_d
              e.view.calib.disparityCalib]
         | .InfiniTAM_SHORT_DEPTH_IMAGE => [.ConvertDepthMMToFloat e.view.rawDepth]
         | .InfiniTAM_FLOAT_DEPTH_IMAGE => []) := by
  unfold ITMMainEngine.convertDepth
  cases h : e.view.inputImageType <;> simp [Traced.pure]

/-- Preparing the image leaves the calibration and the input image type of the View. -/
theorem prepareImage_view (e : ITMMainEngine) :
    e.prepareImage.view.calib = e.view.calib ∧
    e.prepareImage.view.inputImageType = e.view.inputImageType := by
  unfold ITMMainEngine.prepareImage
  split
  · cases ht : e.view.inputImageType <;> simp [ht]
  · exact ⟨rfl, rfl⟩

/-- The conversion leaves the calibration and the input image type of the View. -/
theorem convertDepth_view (K : Collaborators) (e e1 : ITMMainEngine)
    (h : (ITMMainEngine.convertDepth K e).result = .returned e1) :
    e1.view.calib = e.view.calib ∧ e1.view.inputImageType = e.view.inputImageType := by
  unfold ITMMainEngine.convertDepth at h
  split at h
  · simp only [Exec.returned.injEq] at h
    rw [← h]
    exact ⟨rfl, rfl⟩
  · split at h
    · simp only [Exec.returned.injEq] at h
      rw [← h]
      exact ⟨rfl, rfl⟩
    · simp only [Traced.pure, Exec.returned.injEq] at h
      rw [← h]
      exact ⟨rfl, rfl⟩

/-- The engine handed to the tracking block differs from the engine at the start of the call
in its View only. -/
theorem prepared_keeps (K : Collaborators) (e e1 : ITMMainEngine)
    (hconv : (ITMMainEngine.convertDepth K e.prepareImage).result = .returned e1) :
    e1.settings = e.settings ∧ e1.trackingState = e.trackingState ∧
    e1.denseMapper = e.denseMapper ∧ e1.lowLevelEngine = e.lowLevelEngine ∧
    e1.trackerPrimary = e.trackerPrimary ∧ e1.trackerSecondary = e.trackerSecondary ∧
    e1.hasStartedObjectReconstruction = e.hasStartedObjectReconstruction ∧
    e1.fusionActive = e.fusionActive ∧ e1.view.calib = e.view.calib ∧
    e1.view.inputImageType = e.view.inputImageType := by
  obtain ⟨hc, ht⟩ := convertDepth_view K _ e1 hconv
  obtain ⟨hc0, ht0⟩ := prepareImage_view e
  obtain ⟨v0, h0⟩ := prepareImage_eq e
  obtain ⟨l1, v1, h1, _, _, _⟩ := convertDepth_eq K { e with view := v0 }
  rw [h0, h1] at hconv
  simp only [Exec.returned.injEq] at hconv
  rw [← hconv] at hc ht ⊢
  exact ⟨rfl, rfl, rfl, rfl, rfl, rfl, rfl, rfl, by rw [hc, hc0], by rw [ht, ht0]⟩

theorem conversionCalls_append (l1 l2 : List Call) :
    conversionCalls (l1 ++ l2) = conversionCalls l1 ++ conversionCalls l2 := by
  simp [conversionCalls]

theorem raycastCalls_append (l1 l2 : List Call) :
    raycastCalls (l1 ++ l2) = raycastCalls l1 ++ raycastCalls l2 := by
  simp [raycastCalls]

theorem integrationCalls_append (l1 l2 : List Call) :
    integrationCalls (l1 ++ l2) = integrationCalls l1 ++ integrationCalls l2 := by
  simp [integrationCalls]

/-- The tracking block makes no integration call and no raycast request. -/
theorem tracking_log_no_mapper_call (e : ITMMainEngine) :
    integrationCalls (ITMMainEngine.tracking e).log = [] ∧
    raycastCalls (ITMMainEngine.tracking e).log = [] := by
  unfold ITMMainEngine.tracking
  split
  · simp only [Traced.bind_log, trackWith_log]
    constructor <;> repeat' split
    all_goals
      simp [integrationCalls, raycastCalls, Call.isIntegration, Call.isRaycast, Traced.pure]
  · simp [Traced.pure, integrationCalls, raycastCalls]

/-- The conversion block makes no integration call and no raycast request. -/
theorem convertDepth_log_no_mapper_call (K : Collaborators) (e : ITMMainEngine) :
    integrationCalls (ITMMainEngine.convertDepth K e).log = [] ∧
    raycastCalls (ITMMainEngine.convertDepth K e).log = [] := by
  rw [convertDepth_log]
  cases e.view.inputImageType <;>
    simp [integrationCalls, raycastCalls, Call.isIntegration, Call.isRaycast]

/-- Whatever its outcome, a `ProcessFrame` call starts with the calls of the conversion block
and makes no conversion call after them. -/
theorem ProcessFrame_log_prefix (K : Collaborators) (e : ITMMainEngine) :
    ∃ rest, (ITMMainEngine.ProcessFrame K e).log
        = (ITMMainEngine.convertDepth K e.prepareImage).log ++ rest ∧
      conversionCalls rest = [] := by
  obtain ⟨v0, h0⟩ := prepareImage_eq e
  obtain ⟨l1, v1, h1, _, _, _⟩ := convertDepth_eq K { e with view := v0 }
  have hconv : (ITMMainEngine.convertDepth K e.prepareImage).result
      = .returned { e with view := v1 } := by
    rw [h0, h1]
  cases htrack : (ITMMainEngine.tracking { e with view := v1 }).result with
  | returned e2 =>
    obtain ⟨_, _, _, _, _, _, _, hlog⟩ := ProcessFrame_steps K e _ e2 hconv htrack
    refine ⟨_, by rw [hlog, List.append_assoc, List.append_assoc], ?_⟩
    simp only [conversionCalls_append, (tracking_log_all_track _).2, List.nil_append]
    cases e.fusionActive <;> cases e.settings.trackerType <;>
      simp [conversionCalls, Call.isConversion]
  | thrown w =>
    refine ⟨(ITMMainEngine.tracking { e with view := v1 }).log, ?_,
      (tracking_log_all_track _).2⟩
    unfold ITMMainEngine.ProcessFrame
    rw [Traced.bind_log, hconv]
    simp only [Traced.bind_log, htrack, List.append_nil]
  | undefined =>
    refine ⟨(ITMMainEngine.tracking { e with view := v1 }).log, ?_,
      (tracking_log_all_track _).2⟩
    unfold ITMMainEngine.ProcessFrame
    rw [Traced.bind_log, hconv]
    simp only [Traced.bind_log, htrack, List.append_nil]
  | outOfFuel =>
    refine ⟨(ITMMainEngine.tracking { e with view := v1 }).log, ?_,
      (tracking_log_all_track _).2⟩
    unfold ITMMainEngine.ProcessFrame
    rw [Traced.bind_log, hconv]
    simp only [Traced.bind_log, htrack, List.append_nil]

/-- C14. ProcessFrame chooses the raycast by the configured tracker type and issues exactly
one request (e1 is the engine as the call hands it to the tracking block, e2 the engine that
block leaves): for TRACKER_ICP and TRACKER_REN the only raycast request is GetICPMaps with
the current tracking pose and the depth intrinsics; for TRACKER_COLOR it is GetPointCloud
with the pose whose modelview matrix is calib_inv of the colour-to-depth extrinsic times the
matrix M of the current pose, the colour intrinsics and the configured skipPoints. -/
theorem raycast_chosen_by_tracker_type (K : Collaborators) (e e1 e2 : ITMMainEngine)
    (hconv : (ITMMainEngine.convertDepth K e.prepareImage).result = .returned e1)
    (htrack : (ITMMainEngine.tracking e1).result = .returned e2) :
    ((e.settings.trackerType = .TRACKER_ICP ∨ e.settings.trackerType = .TRACKER_REN) →
      raycastCalls (ITMMainEngine.ProcessFrame K e).log
        = [.GetICPMaps e2.trackingState.pose_d e.view.calib.intrinsics_d e1.view
             e2.trackingState]) ∧
    (e.settings.trackerType = .TRACKER_COLOR →
      raycastCalls (ITMMainEngine.ProcessFrame K e).log
        = [.GetPointCloud
             (ITMPose.modelview (K.matrixMul e.view.calib.trafo_rgb_to_depth.calib_inv
               (K.GetM e2.trackingState.pose_d)))
             e.view.calib.intrinsics_rgb e1.view e2.trackingState e.settings.skipPoints]) := by
  obtain ⟨_, _, _, _, _, _, _, hlog⟩ := ProcessFrame_steps K e e1 e2 hconv htrack
  obtain ⟨_, _, _, _, _, _, _, _, hcalib, _⟩ := prepared_keeps K e e1 hconv
  have hfront : raycastCalls ((ITMMainEngine.convertDepth K e.prepareImage).log ++
      (ITMMainEngine.tracking e1).log ++
      (if e.fusionActive then [.DenseMapperProcessFrame e1.view e2.trackingState.pose_d]
       else [])) = [] := by
    simp only [raycastCalls_append, (convertDepth_log_no_mapper_call K _).2,
      (tracking_log_no_mapper_call e1).2, List.nil_append]
    cases e.fusionActive <;> simp [raycastCalls, Call.isRaycast]
  rw [hlog, raycastCalls_append, hfront, List.nil_append, hcalib]
  constructor
  · rintro (h | h) <;> rw [h] <;> simp [raycastCalls, Call.isRaycast]
  · intro h
    rw [h]
    simp [raycastCalls, Call.isRaycast]

/-- C14 at concrete inputs: the first frame of the sample engines of types ICP and COLOR. -/
theorem raycast_chosen_by_tracker_type_witness :
    ((sampleEngine .TRACKER_ICP).settings.trackerType = .TRACKER_ICP ∧
      raycastCalls (ITMMainEngine.ProcessFrame sampleCollaborators
          (sampleEngine .TRACKER_ICP)).log
        = [.GetICPMaps (.params 0 0 0 0 0 0) sampleCalib.intrinsics_d sampleView
             { pose_d := .params 0 0 0 0 0 0, rendering := sampleImage, pointCloud := [] }]) ∧
    (sampleColourEngine.settings.trackerType = .TRACKER_COLOR ∧
      raycastCalls (ITMMainEngine.ProcessFrame sampleCollaborators sampleColourEngine).log
        = [.GetPointCloud (.modelview (translationPose 0 0 0)) sampleCalib.intrinsics_rgb
             { sampleView with inputImageType := .InfiniTAM_DISPARITY_IMAGE }
             { pose_d := .params 0 0 0 0 0 0, rendering := sampleImage, pointCloud := [] } 2]) :=
  ⟨⟨rfl, ((raycast_chosen_by_tracker_type sampleCollaborators (sampleEngine .TRACKER_ICP)
      (sampleEngine .TRACKER_ICP) _ rfl rfl).1 (Or.inl rfl)).trans rfl⟩,
    ⟨rfl, ((raycast_chosen_by_tracker_type sampleCollaborators sampleColourEngine
      sampleColourEngine _ rfl rfl).2 rfl).trans rfl⟩⟩

/-- C15. For every ProcessFrame call, whatever its outcome, the depth conversion calls are
decided by the input image type of the View: a disparity image gives exactly one
ConvertDisparityToDepth call, with the raw image, the depth intrinsics and the disparity
calibration of the View, and no ConvertDepthMMToFloat; a short depth image gives exactly one
ConvertDepthMMToFloat call and no ConvertDisparityToDepth; a float depth image gives
neither. -/
theorem conversion_decided_by_input_type (K : Collaborators) (e : ITMMainEngine) :
    conversionCalls (ITMMainEngine.ProcessFrame K e).log
      = (match e.view.inputImageType with
         | .InfiniTAM_DISPARITY_IMAGE =>
           [.ConvertDisparityToDepth e.prepareImage.view.rawDepth e.view.calib.intrinsics_d
              e.view.calib.disparityCalib]
         | .InfiniTAM_SHORT_DEPTH_IMAGE => [.ConvertDepthMMToFloat e.prepareImage.view.rawDepth]
         | .InfiniTAM_FLOAT_DEPTH_IMAGE => []) := by
  obtain ⟨rest, hlog, hrest⟩ := ProcessFrame_log_prefix K e
  obtain ⟨hcalib, htype⟩ := prepareImage_view e
  rw [hlog, conversionCalls_append, hrest, List.append_nil, convertDepth_log, htype, hcalib]
  cases e.view.inputImageType <;> simp [conversionCalls, Call.isConversion]

/-! ## Properties: the integration toggle -/

/-- In a session that returns, each `ProcessFrame` integrates once if the flag is set at that
point and not at all otherwise. -/
theorem session_integrations (K : Collaborators) (ops : List EngineOp) :
    ∀ (e eN : ITMMainEngine), (ITMMainEngine.session K ops e).2 = .returned eN →
      (ITMMainEngine.session K ops e).1.map integrations
        = expectedIntegrations e.fusionActive ops := by
  induction ops with
  | nil => intro e eN _; rfl
  | cons op rest ih =>
    intro e eN h
    cases op with
    | ProcessFrame input =>
      simp only [ITMMainEngine.session] at h ⊢
      cases hr : (ITMMainEngine.ProcessFrame K { e with view := input e.view }).result with
      | returned e1 =>
        rw [hr] at h
        simp only at h ⊢
        obtain ⟨_, hfa, _, _, _, _, hint, _⟩ := ProcessFrame_returned K _ e1 hr
        dsimp only at hfa hint
        simp only [List.map_cons, expectedIntegrations, ih e1 eN h, hint, hfa]
      | thrown w => rw [hr] at h; simp at h
      | undefined => rw [hr] at h; simp at h
      | outOfFuel => rw [hr] at h; simp at h
    | turnOnIntegration =>
      simp only [ITMMainEngine.session] at h ⊢
      rw [ih _ eN h]
      rfl
    | turnOffIntegration =>
      simp only [ITMMainEngine.session] at h ⊢
      rw [ih _ eN h]
      rfl

/-- C16. The integration toggle is a pure flag mutation with immediate effect:
turnOnIntegration and turnOffIntegration set the integration flag and leave every other part
of the engine (bootstrapped state, tracking state, view, settings, scene, trackers) as it
was; integration is enabled right after construction; a ProcessFrame call that returns
leaves the flag as it found it and has invoked the Dense Mapper's integration operation
exactly once if the flag was set and zero times otherwise; so in every session of
ProcessFrame calls and toggles that returns, each ProcessFrame call invokes the integration
operation exactly once if the most recent toggle before it (or, without one, the constructor
default) enabled integration, and zero times otherwise. -/
theorem integration_toggle_is_pure_flag (K : Collaborators) (settings : ITMLibSettings)
    (calib : ITMRGBDCalib) (imgSize_rgb imgSize_d : Int × Int) :
    (∀ e : ITMMainEngine,
      e.turnOnIntegration.fusionActive = true ∧ e.turnOffIntegration.fusionActive = false ∧
      e.turnOnIntegration = { e with fusionActive := true } ∧
      e.turnOffIntegration = { e with fusionActive := false } ∧
      e.turnOnIntegration.hasStartedObjectReconstruction = e.hasStartedObjectReconstruction ∧
      e.turnOffIntegration.hasStartedObjectReconstruction = e.hasStartedObjectReconstruction ∧
      e.turnOnIntegration.trackingState = e.trackingState ∧
      e.turnOffIntegration.trackingState = e.trackingState ∧
      e.turnOnIntegration.view = e.view ∧ e.turnOffIntegration.view = e.view ∧
      e.turnOnIntegration.settings = e.settings ∧ e.turnOffIntegration.settings = e.settings ∧
      e.turnOnIntegration.denseMapper = e.denseMapper ∧
      e.turnOffIntegration.denseMapper = e.denseMapper) ∧
    (ITMMainEngine.create K settings calib imgSize_rgb imgSize_d).fusionActive = true ∧
    (∀ e e' : ITMMainEngine, (ITMMainEngine.ProcessFrame K e).result = .returned e' →
      e'.fusionActive = e.fusionActive ∧
      integrations (ITMMainEngine.ProcessFrame K e).log = (if e.fusionActive then 1 else 0)) ∧
    (∀ (ops : List EngineOp) (eN : ITMMainEngine),
      (ITMMainEngine.session K ops
          (ITMMainEngine.create K settings calib imgSize_rgb imgSize_d)).2 = .returned eN →
      (ITMMainEngine.session K ops
          (ITMMainEngine.create K settings calib imgSize_rgb imgSize_d)).1.map integrations
        = expectedIntegrations true ops) := by
  refine ⟨fun e => ⟨rfl, rfl, rfl, rfl, rfl, rfl, rfl, rfl, rfl, rfl, rfl, rfl, rfl, rfl⟩, rfl,
    ?_, ?_⟩
  · intro e e' h
    obtain ⟨_, hfa, _, _, _, _, hint, _⟩ := ProcessFrame_returned K e e' h
    exact ⟨hfa, hint⟩
  · intro ops eN h
    exact session_integrations K ops _ eN h

/-- C16 at a concrete input: a session of four frames with the integration switched off
before the second and on again before the fourth. -/
theorem integration_toggle_is_pure_flag_witness :
    (∃ eN, (ITMMainEngine.session sampleCollaborators
        [.ProcessFrame id, .turnOffIntegration, .ProcessFrame id, .ProcessFrame id,
          .turnOnIntegration, .ProcessFrame id] (sampleEngine .TRACKER_ICP)).2 = .returned eN) ∧
    (ITMMainEngine.session sampleCollaborators
        [.ProcessFrame id, .turnOffIntegration, .ProcessFrame id, .ProcessFrame id,
          .turnOnIntegration, .ProcessFrame id] (sampleEngine .TRACKER_ICP)).1.map integrations
      = [1, 0, 0, 1] :=
  ⟨⟨_, rfl⟩,
    (integration_toggle_is_pure_flag sampleCollaborators
      { useGPU := false, trackerType := .TRACKER_ICP, skipPoints := 2 } sampleCalib (640, 480)
      (-1, -1)).2.2.2 _ _ rfl⟩

/-! ## Properties: frames and trajectory entries -/

/-- The first two blocks of `ProcessFrame` always return. -/
theorem convertDepth_returns (K : Collaborators) (e : ITMMainEngine) :
    ∃ e1, (ITMMainEngine.convertDepth K e.prepareImage).result = .returned e1 := by
  obtain ⟨l, v, h, _⟩ := convertDepth_eq K e.prepareImage
  exact ⟨_, by rw [h]⟩

/-- Tracking on a bootstrapped engine whose only tracker is the ground-truth tracker at
cursor `n`: the call returns, the cursor is `n + 1` and the pose is entry `n + 1`, scaled. -/
theorem tracking_only_groundTruth (e1 : ITMMainEngine) (n : Nat) (poses : List Matrix4f)
    (entry : Matrix4f) (hs : e1.hasStartedObjectReconstruction = true)
    (honly :
      (e1.trackerPrimary = some (ITMGroundTruthTracker.toTracker
          { currentFrame := (n : Int), groundTruthPoses := poses }) ∧
        e1.trackerSecondary = none) ∨
      (e1.trackerPrimary = none ∧
        e1.trackerSecondary = some (ITMGroundTruthTracker.toTracker
          { currentFrame := (n : Int), groundTruthPoses := poses })))
    (hentry : poses[n + 1]? = some entry) :
    ∃ e2, (ITMMainEngine.tracking e1).result = .returned e2 ∧
      ((e2.trackerPrimary = some (ITMGroundTruthTracker.toTracker
          { currentFrame := ((n + 1 : Nat) : Int), groundTruthPoses := poses }) ∧
        e2.trackerSecondary = none) ∨
      (e2.trackerPrimary = none ∧
        e2.trackerSecondary = some (ITMGroundTruthTracker.toTracker
          { currentFrame := ((n + 1 : Nat) : Int), groundTruthPoses := poses }))) ∧
      e2.trackingState.pose_d = ITMPose.inverse (scaledEntry entry) := by
  obtain ⟨settings, trackingState, view, denseMapper, lowLevelEngine, trackerPrimary,
    trackerSecondary, started, fusionActive⟩ := e1
  dsimp only at hs honly
  subst hs
  have hTC := TrackCamera_of_entry poses n entry hentry trackingState view
  rcases honly with ⟨hp, hsec⟩ | ⟨hp, hsec⟩
  · subst hp hsec
    refine ⟨ITMMainEngine.mk settings
      { trackingState with pose_d := ITMPose.inverse (scaledEntry entry) } view denseMapper
      lowLevelEngine (some (ITMGroundTruthTracker.toTracker
        { currentFrame := ((n + 1 : Nat) : Int), groundTruthPoses := poses })) none true
      fusionActive, ?_, Or.inl ⟨rfl, rfl⟩, rfl⟩
    simp only [ITMMainEngine.tracking, ITMMainEngine.trackWith, ITMGroundTruthTracker.toTracker,
      Traced.bind, Traced.pure, hTC, if_true]
    rfl
  · subst hp hsec
    refine ⟨ITMMainEngine.mk settings
      { trackingState with pose_d := ITMPose.inverse (scaledEntry entry) } view denseMapper
      lowLevelEngine none (some (ITMGroundTruthTracker.toTracker
        { currentFrame := ((n + 1 : Nat) : Int), groundTruthPoses := poses })) true
      fusionActive, ?_, Or.inr ⟨rfl, rfl⟩, rfl⟩
    simp only [ITMMainEngine.tracking, ITMMainEngine.trackWith, ITMGroundTruthTracker.toTracker,
      Traced.bind, Traced.pure, hTC, if_true]
    rfl

/-- The calls of a `ProcessFrame` call with integration enabled, from its steps: one
integration call at the pose tracking left, the raycast request of the tracker type built
from that pose, and the `TrackCamera` calls of the tracking block. -/
theorem ProcessFrame_mapper_calls (K : Collaborators) (e e1 e2 : ITMMainEngine)
    (hf : e.fusionActive = true)
    (hconv : (ITMMainEngine.convertDepth K e.prepareImage).result = .returned e1)
    (htrack : (ITMMainEngine.tracking e1).result = .returned e2) :
    ∃ e', (ITMMainEngine.ProcessFrame K e).result = .returned e' ∧
      e'.trackerPrimary = e2.trackerPrimary ∧ e'.trackerSecondary = e2.trackerSecondary ∧
      e'.settings = e.settings ∧ e'.fusionActive = true ∧
      e'.hasStartedObjectReconstruction = true ∧
      trackCalls (ITMMainEngine.ProcessFrame K e).log = (ITMMainEngine.tracking e1).log ∧
      integrationCalls (ITMMainEngine.ProcessFrame K e).log
        = [.DenseMapperProcessFrame e1.view e2.trackingState.pose_d] ∧
      raycastCalls (ITMMainEngine.ProcessFrame K e).log
        = (match e.settings.trackerType with
           | .TRACKER_ICP =>
             [.GetICPMaps e2.trackingState.pose_d e1.view.calib.intrinsics_d e1.view
                e2.trackingState]
           | .TRACKER_REN =>
             [.GetICPMaps e2.trackingState.pose_d e1.view.calib.intrinsics_d e1.view
                e2.trackingState]
           | .TRACKER_COLOR =>
             [.GetPointCloud
                (.modelview (K.matrixMul e1.view.calib.trafo_rgb_to_depth.calib_inv
                  (K.GetM e2.trackingState.pose_d)))
                e1.view.calib.intrinsics_rgb e1.view e2.trackingState e.settings.skipPoints]
           | .TRACKER_GROUND_TRUTH => []) := by
  obtain ⟨e', hret, hp, hsec, hset, hfa, hst, hlog⟩ := ProcessFrame_steps K e e1 e2 hconv htrack
  obtain ⟨l, v, hc, hcs, _, _⟩ := convertDepth_eq K e.prepareImage
  have hct : trackCalls (ITMMainEngine.convertDepth K e.prepareImage).log = [] := by
    rw [hc]; exact trackCalls_eq_nil l hcs
  refine ⟨e', hret, hp, hsec, hset, hfa.trans hf, hst, ?_, ?_, ?_⟩
  · rw [hlog, if_pos hf, trackCalls_append, trackCalls_append, trackCalls_append, hct,
      (tracking_log_all_track e1).1]
    cases e.settings.trackerType <;> simp [trackCalls, Call.trackedSlot]
  · rw [hlog, if_pos hf, integrationCalls_append, integrationCalls_append,
      integrationCalls_append, (convertDepth_log_no_mapper_call K e.prepareImage).1,
      (tracking_log_no_mapper_call e1).1]
    cases e.settings.trackerType <;> simp [integrationCalls, Call.isIntegration]
  · rw [hlog, if_pos hf, raycastCalls_append, raycastCalls_append,
      raycastCalls_append, (convertDepth_log_no_mapper_call K e.prepareImage).2,
      (tracking_log_no_mapper_call e1).2]
    cases e.settings.trackerType <;> simp [raycastCalls, Call.isRaycast]

/-- A series of frames on a bootstrapped engine with integration enabled whose only tracker
is the ground-truth tracker at cursor `n`, within the trajectory: every call returns, and
the call for the frame at position `i` of the series integrates and raycasts from entry
`n + 1 + i`, scaled. -/
theorem ProcessFrames_replay (K : Collaborators) (poses : List Matrix4f) :
    ∀ (frames : List FrameInput) (n : Nat) (e : ITMMainEngine),
      e.hasStartedObjectReconstruction = true → e.fusionActive = true →
      ((e.trackerPrimary = some (ITMGroundTruthTracker.toTracker
            { currentFrame := (n : Int), groundTruthPoses := poses }) ∧
          e.trackerSecondary = none) ∨
        (e.trackerPrimary = none ∧
          e.trackerSecondary = some (ITMGroundTruthTracker.toTracker
            { currentFrame := (n : Int), groundTruthPoses := poses }))) →
      (frames ≠ [] → n + frames.length < poses.length) →
      (∃ eN, (ITMMainEngine.ProcessFrames K frames e).2 = .returned eN) ∧
      (ITMMainEngine.ProcessFrames K frames e).1.length = frames.length ∧
      ∀ (i : Nat) (log : List Call),
        (ITMMainEngine.ProcessFrames K frames e).1[i]? = some log →
        ∃ pose view ts, alignedPose poses (n + 1 + i) = some pose ∧ ts.pose_d = pose ∧
          integrationCalls log = [.DenseMapperProcessFrame view pose] ∧
          raycastCalls log
            = (match e.settings.trackerType with
               | .TRACKER_ICP => [.GetICPMaps pose view.calib.intrinsics_d view ts]
               | .TRACKER_REN => [.GetICPMaps pose view.calib.intrinsics_d view ts]
               | .TRACKER_COLOR =>
                 [.GetPointCloud
                    (.modelview (K.matrixMul view.calib.trafo_rgb_to_depth.calib_inv
                      (K.GetM pose)))
                    view.calib.intrinsics_rgb view ts e.settings.skipPoints]
               | .TRACKER_GROUND_TRUTH => []) := by
  intro frames
  induction frames with
  | nil =>
    intro n e _ _ _ _
    refine ⟨⟨e, rfl⟩, rfl, ?_⟩
    intro i log h
    simp [ITMMainEngine.ProcessFrames] at h
  | cons input rest ih =>
    intro n e hs hf honly hlen
    have hn : n + 1 < poses.length := by
      have := hlen (by simp)
      simp only [List.length_cons] at this
      omega
    obtain ⟨entry, hentry⟩ : ∃ entry, poses[n + 1]? = some entry :=
      ⟨poses[n + 1], List.getElem?_eq_getElem hn⟩
    obtain ⟨e1, hconv⟩ := convertDepth_returns K { e with view := input e.view }
    obtain ⟨_, _, _, _, hp1, hs1, hst1, _, _, _⟩ :=
      prepared_keeps K { e with view := input e.view } e1 hconv
    obtain ⟨e2, htrack, honly2, hpose⟩ := tracking_only_groundTruth e1 n poses entry
      (hst1.trans hs) (by rw [hp1, hs1]; exact honly) hentry
    obtain ⟨e', hret, hp, hsec, hset, hfa, hst, _, hint, hray⟩ :=
      ProcessFrame_mapper_calls K { e with view := input e.view } e1 e2 hf hconv htrack
    obtain ⟨⟨eN, hN⟩, hlen', hall⟩ := ih (n + 1) e' hst hfa
      (by rw [hp, hsec]; exact honly2)
      (by
        intro _
        have := hlen (by simp)
        simp only [List.length_cons] at this
        omega)
    have hrun : ITMMainEngine.ProcessFrames K (input :: rest) e
        = ((ITMMainEngine.ProcessFrame K { e with view := input e.view }).log ::
            (ITMMainEngine.ProcessFrames K rest e').1,
           (ITMMainEngine.ProcessFrames K rest e').2) := by
      simp only [ITMMainEngine.ProcessFrames]
      rw [hret]
    rw [hrun]
    refine ⟨⟨eN, hN⟩, by simp [hlen'], ?_⟩
    intro i log hi
    cases i with
    | zero =>
      simp only [List.getElem?_cons_zero, Option.some.injEq] at hi
      subst hi
      refine ⟨ITMPose.inverse (scaledEntry entry), e1.view, e2.trackingState, ?_, hpose, ?_, ?_⟩
      · show alignedPose poses (n + 1) = _
        simp [alignedPose, hentry]
      · rw [hint, hpose]
      · rw [hray, hpose]
    | succ j =>
      simp only [List.getElem?_cons_succ] at hi
      obtain ⟨pose, view, ts, ha, hts, hi', hr'⟩ := hall j log hi
      refine ⟨pose, view, ts, ?_, hts, hi', ?_⟩
      · rw [show n + 1 + (j + 1) = n + 1 + 1 + j by omega]
        exact ha
      · rw [hr', hset]

/-- C17 fails as stated: the sample engine of the ground-truth type, whose only tracker is
the ground-truth tracker on the sample trajectory, integrates its second frame at the pose
whose InvM is entry 1 with the translation (5, 5/2, -40) scaled to (1/2, 1/4, -4), and its
two calls return, but neither call makes a raycast request. -/
theorem groundTruth_type_engine_never_raycasts :
    (sampleEngine .TRACKER_GROUND_TRUTH).trackerPrimary
      = some (ITMGroundTruthTracker.toTracker
          { currentFrame := 0, groundTruthPoses := sampleTrajectory }) ∧
    (sampleEngine .TRACKER_GROUND_TRUTH).trackerSecondary = none ∧
    (∃ eN, (ITMMainEngine.ProcessFrames sampleCollaborators [id, id]
        (sampleEngine .TRACKER_GROUND_TRUTH)).2 = .returned eN) ∧
    (ITMMainEngine.ProcessFrames sampleCollaborators [id, id]
        (sampleEngine .TRACKER_GROUND_TRUTH)).1.map integrationCalls
      = [[.DenseMapperProcessFrame sampleView (.params 0 0 0 0 0 0)],
         [.DenseMapperProcessFrame sampleView
            (.inverse { sampleEntry1 with m30 := 1 / 2, m31 := 1 / 4, m32 := -4 })]] ∧
    sampleEntry1.translation = [5, 5 / 2, -40] ∧
    (ITMMainEngine.ProcessFrames sampleCollaborators [id, id]
        (sampleEngine .TRACKER_GROUND_TRUTH)).1.map raycastCalls = [[], []] :=
  ⟨rfl, rfl, ⟨_, rfl⟩, by decide!, rfl, by decide!⟩

/-- C17, amended. For an engine as its constructor leaves it whose only tracker is a
Ground-Truth Tracker with cursor 0 (as the tracker's constructor leaves it) on a Trajectory
of length N, and for a series of at most max(1, N) frames: every ProcessFrame call returns;
the first call makes no TrackCamera call and works at the constructor's initial pose (SetFrom
with all six parameters 0); for every i with 1 <= i <= N-1 the (i+1)-th call works at the
pose whose InvM is Trajectory entry i with translation scaled by 0.1 (so entry 0 is never
installed; the installed translation is the `float` result of `*= 0.10`, one tenth of the
recorded value, exactly where that tenth is a `float` value and up to the rounding of `float`
arithmetic in every case, with rotation and bottom row as recorded): the call makes exactly
one integration call, at that pose, and the tracking state
it hands on carries that pose; the raycast request is the one of the configured tracker type:
GetICPMaps at that pose for TRACKER_ICP and TRACKER_REN, GetPointCloud at the pose whose
modelview matrix is (inverse colour-to-depth extrinsic) x (M of that pose) for TRACKER_COLOR,
and no request at all for any other tracker type. -/
theorem groundTruth_frames_follow_trajectory (K : Collaborators) (settings : ITMLibSettings)
    (calib : ITMRGBDCalib) (imgSize_rgb imgSize_d : Int × Int) (poses : List Matrix4f)
    (frames : List FrameInput)
    (honly :
      ((ITMMainEngine.create K settings calib imgSize_rgb imgSize_d).trackerPrimary
          = some (ITMGroundTruthTracker.toTracker
              { currentFrame := 0, groundTruthPoses := poses }) ∧
        (ITMMainEngine.create K settings calib imgSize_rgb imgSize_d).trackerSecondary = none) ∨
      ((ITMMainEngine.create K settings calib imgSize_rgb imgSize_d).trackerPrimary = none ∧
        (ITMMainEngine.create K settings calib imgSize_rgb imgSize_d).trackerSecondary
          = some (ITMGroundTruthTracker.toTracker
              { currentFrame := 0, groundTruthPoses := poses })))
    (hlen : frames.length ≤ max 1 poses.length) :
    (∃ eN, (ITMMainEngine.ProcessFrames K frames
        (ITMMainEngine.create K settings calib imgSize_rgb imgSize_d)).2 = .returned eN) ∧
    (ITMMainEngine.ProcessFrames K frames
        (ITMMainEngine.create K settings calib imgSize_rgb imgSize_d)).1.length
      = frames.length ∧
    ∀ (i : Nat) (log : List Call),
      (ITMMainEngine.ProcessFrames K frames
        (ITMMainEngine.create K settings calib imgSize_rgb imgSize_d)).1[i]? = some log →
      (i = 0 → trackCalls log = []) ∧
      ∃ pose view ts, alignedPose poses i = some pose ∧ isAlignedPose poses i pose ∧
        ts.pose_d = pose ∧
        integrationCalls log = [.DenseMapperProcessFrame view pose] ∧
        raycastCalls log
          = (match settings.trackerType with
             | .TRACKER_ICP => [.GetICPMaps pose view.calib.intrinsics_d view ts]
             | .TRACKER_REN => [.GetICPMaps pose view.calib.intrinsics_d view ts]
             | .TRACKER_COLOR =>
               [.GetPointCloud
                  (.modelview (K.matrixMul view.calib.trafo_rgb_to_depth.calib_inv
                    (K.GetM pose)))
                  view.calib.intrinsics_rgb view ts settings.skipPoints]
             | .TRACKER_GROUND_TRUTH => []) := by
  have hs0 : (ITMMainEngine.create K settings calib imgSize_rgb
      imgSize_d).hasStartedObjectReconstruction = false := rfl
  have hf0 : (ITMMainEngine.create K settings calib imgSize_rgb imgSize_d).fusionActive
      = true := rfl
  have hpose0 : (ITMMainEngine.create K settings calib imgSize_rgb
      imgSize_d).trackingState.pose_d = ITMPose.params 0 0 0 0 0 0 := rfl
  have hset0 : (ITMMainEngine.create K settings calib imgSize_rgb imgSize_d).settings
      = settings := rfl
  generalize ITMMainEngine.create K settings calib imgSize_rgb imgSize_d = e at *
  subst hset0
  cases frames with
  | nil =>
    refine ⟨⟨e, rfl⟩, rfl, ?_⟩
    intro i log h
    simp [ITMMainEngine.ProcessFrames] at h
  | cons input rest =>
    obtain ⟨e1, hconv⟩ := convertDepth_returns K { e with view := input e.view }
    obtain ⟨_, hts1, _, _, hp1, hs1, hst1, _, _, _⟩ :=
      prepared_keeps K { e with view := input e.view } e1 hconv
    have hp0 : e1.trackingState.pose_d = ITMPose.params 0 0 0 0 0 0 := by
      rw [hts1]; exact hpose0
    have hnot : e1.hasStartedObjectReconstruction = false := hst1.trans hs0
    have htrack : (ITMMainEngine.tracking e1).result = .returned e1 := by
      rw [tracking_not_started e1 hnot]; rfl
    obtain ⟨e', hret, hp, hsec, hset, hfa, hst, htc, hint, hray⟩ :=
      ProcessFrame_mapper_calls K { e with view := input e.view } e1 e1 hf0 hconv htrack
    obtain ⟨⟨eN, hN⟩, hlen', hall⟩ := ProcessFrames_replay K poses rest 0 e' hst hfa
      (by rw [hp, hsec, hp1, hs1]; exact honly)
      (by
        intro hne
        have hpos := List.length_pos.mpr hne
        simp only [List.length_cons] at hlen
        omega)
    have hrun : ITMMainEngine.ProcessFrames K (input :: rest) e
        = ((ITMMainEngine.ProcessFrame K { e with view := input e.view }).log ::
            (ITMMainEngine.ProcessFrames K rest e').1,
           (ITMMainEngine.ProcessFrames K rest e').2) := by
      simp only [ITMMainEngine.ProcessFrames]
      rw [hret]
    rw [hrun]
    refine ⟨⟨eN, hN⟩, by simp [hlen'], ?_⟩
    intro i log hi
    cases i with
    | zero =>
      simp only [List.getElem?_cons_zero, Option.some.injEq] at hi
      subst hi
      refine ⟨fun _ => ?_, ITMPose.params 0 0 0 0 0 0, e1.view, e1.trackingState, rfl,
        alignedPose_isAlignedPose poses 0 _ rfl, hp0, ?_, ?_⟩
      · rw [htc, tracking_not_started e1 hnot]; rfl
      · rw [hint, hp0]
      · rw [hray, hp0]
    | succ j =>
      simp only [List.getElem?_cons_succ] at hi
      obtain ⟨pose, view, ts, ha, hts, hi', hr'⟩ := hall j log hi
      have ha' : alignedPose poses (j + 1) = some pose := by
        rw [show j + 1 = 0 + 1 + j by omega]
        exact ha
      refine ⟨fun h0 => absurd h0 (Nat.succ_ne_zero j), pose, view, ts, ha',
        alignedPose_isAlignedPose poses (j + 1) pose ha', hts, hi', ?_⟩
      rw [hr', hset]

/-- C17 amended, at a concrete input: three frames on an engine of type ICP whose only
tracker replays the sample trajectory; the third call works at entry 2, whose translation
(1, 2, 3) is installed as the `float` nearest to (0.1, 0.2, 0.3). -/
theorem groundTruth_frames_follow_trajectory_witness :
    ((ITMMainEngine.create sampleReplayCollaborators
        { useGPU := false, trackerType := .TRACKER_ICP, skipPoints := 2 } sampleCalib (640, 480)
        (-1, -1)).trackerPrimary
      = some (ITMGroundTruthTracker.toTracker
          { currentFrame := 0, groundTruthPoses := sampleTrajectory }) ∧
      (ITMMainEngine.create sampleReplayCollaborators
        { useGPU := false, trackerType := .TRACKER_ICP, skipPoints := 2 } sampleCalib (640, 480)
        (-1, -1)).trackerSecondary = none) ∧
    [(id : FrameInput), id, id].length ≤ max 1 sampleTrajectory.length ∧
    (∃ eN, (ITMMainEngine.ProcessFrames sampleReplayCollaborators [id, id, id]
        (ITMMainEngine.create sampleReplayCollaborators
          { useGPU := false, trackerType := .TRACKER_ICP, skipPoints := 2 } sampleCalib
          (640, 480) (-1, -1))).2 = .returned eN) ∧
    ∃ log, (ITMMainEngine.ProcessFrames sampleReplayCollaborators [id, id, id]
        (ITMMainEngine.create sampleReplayCollaborators
          { useGPU := false, trackerType := .TRACKER_ICP, skipPoints := 2 } sampleCalib
          (640, 480) (-1, -1))).1[2]? = some log ∧
      ∃ pose view ts, alignedPose sampleTrajectory 2 = some pose ∧
        isAlignedPose sampleTrajectory 2 pose ∧ ts.pose_d = pose ∧
        pose = ITMPose.inverse (translationPose (13421773 / 134217728) (13421773 / 67108864)
          (5033165 / 16777216)) ∧
        integrationCalls log = [.DenseMapperProcessFrame view pose] ∧
        raycastCalls log = [.GetICPMaps pose view.calib.intrinsics_d view ts] := by
  have h := groundTruth_frames_follow_trajectory sampleReplayCollaborators
    { useGPU := false, trackerType := .TRACKER_ICP, skipPoints := 2 } sampleCalib (640, 480)
    (-1, -1) sampleTrajectory [id, id, id] (Or.inl ⟨rfl, rfl⟩) (by decide)
  have h2 : alignedPose sampleTrajectory 2
      = some (ITMPose.inverse (translationPose (13421773 / 134217728) (13421773 / 67108864)
          (5033165 / 16777216))) := by decide!
  refine ⟨⟨rfl, rfl⟩, by decide, h.1, _, rfl, ?_⟩
  obtain ⟨pose, view, ts, ha, hal, hts, hi, hr⟩ := (h.2.2 2 _ rfl).2
  exact ⟨pose, view, ts, ha, hal, hts, Option.some.inj (ha.symm.trans h2), hi, hr⟩

end InfiniTAM
